import Mathlib

set_option autoImplicit false
set_option maxRecDepth 4000

/- Shallow embedding of the sf-cli-seedbuddy seeding pipeline:
   src/lib/seeder.ts, src/lib/schema.ts, src/lib/query.ts, src/lib/types.ts.

   Modelling conventions:
   - Salesforce records are untyped field-to-value maps: association lists
     of field name and Value, with JavaScript object semantics (first key
     occurrence wins, assignment preserves insertion position).
   - JavaScript Map and Set are insertion-ordered association lists and
     dedup lists; Map.set overwrites the value in place, Set.add appends.
   - The two org connections are oracles: pure response functions that may
     additionally depend on the number of trace events issued so far, so
     that one concrete run of the real system can always be replayed.
   - Every network side effect (describe, query, bulk create, bulk update,
     bulk upsert, binary download) and every registry registration is
     written into an event trace carried by the state.
   - Pagination inside queryAll (query plus queryMore) is collapsed: the
     oracle returns the fully paginated record list for one SOQL string and
     queryAll emits a single query event.
   - Base64 encoding of downloaded file bodies is order irrelevant to all
     claims and is modelled as the identity on the opaque body string.  -/

-- ---------------------------------------------------------------------------
-- Dynamic values and records
-- ---------------------------------------------------------------------------

inductive Value where
  | null : Value
  | str : String → Value
  | num : Int → Value
  | bool : Bool → Value
deriving DecidableEq

/-- JavaScript truthiness of a field value. -/
def Value.truthy : Value → Bool
  | .null => false
  | .str s => s ≠ ""
  | .num n => n ≠ 0
  | .bool b => b

/-- The JavaScript String(v) conversion. -/
def jsString : Value → String
  | .null => "null"
  | .str s => s
  | .num n => toString n
  | .bool b => if b then "true" else "false"

/-- Extract a string payload; non-string values yield none
    (a Map keyed by strings never matches them). -/
def strOf : Value → Option String
  | .str s => some s
  | _ => none

abbrev Rec := List (String × Value)

/-- record[f]: none models the JavaScript undefined for an absent key. -/
def getField (r : Rec) (f : String) : Option Value :=
  (r.find? (fun p => p.1 = f)).map (·.2)

/-- record[f] = v with JavaScript object semantics. -/
def recSet (r : Rec) (f : String) (v : Value) : Rec :=
  if r.any (fun p => p.1 = f) then r.map (fun p => if p.1 = f then (f, v) else p)
  else r ++ [(f, v)]

def recKeys (r : Rec) : List String := r.map (·.1)

-- ---------------------------------------------------------------------------
-- The identity registry: Map of object name to Map of sourceId to targetId
-- ---------------------------------------------------------------------------

abbrev IdMap := List (String × String)

def mget (m : IdMap) (k : String) : Option String :=
  (m.find? (fun p => p.1 = k)).map (·.2)

def mhas (m : IdMap) (k : String) : Bool := m.any (fun p => p.1 = k)

/-- Map.set: overwrite in place, or append a fresh entry. -/
def mset (m : IdMap) (k v : String) : IdMap :=
  if mhas m k then m.map (fun p => if p.1 = k then (k, v) else p)
  else m ++ [(k, v)]

abbrev IdMaps := List (String × IdMap)

def objGet (ms : IdMaps) (k : String) : Option IdMap :=
  (ms.find? (fun p => p.1 = k)).map (·.2)

def objGetD (ms : IdMaps) (k : String) : IdMap := (objGet ms k).getD []

/-- idMaps[k] = m: overwrite in place, or append. -/
def objSet (ms : IdMaps) (k : String) (m : IdMap) : IdMaps :=
  if ms.any (fun p => p.1 = k) then ms.map (fun p => if p.1 = k then (k, m) else p)
  else ms ++ [(k, m)]

/-- Mutate the map stored under key k (no-op when the key is absent;
    every call site has registered the key first, as in the source). -/
def updObj (ms : IdMaps) (k : String) (f : IdMap → IdMap) : IdMaps :=
  ms.map (fun p => if p.1 = k then (k, f p.2) else p)

/-- seeder.ts findInAnyIdMap: scan the maps in insertion order and return
    the first truthy hit (a falsy mapped value lets the scan continue). -/
def findInAnyIdMap : IdMaps → String → Option String
  | [], _ => none
  | (_, m) :: rest, sourceId =>
    match mget m sourceId with
    | some t => if t ≠ "" then some t else findInAnyIdMap rest sourceId
    | none => findInAnyIdMap rest sourceId

/-- Map.get applied to a raw record value (a string-keyed Map cannot match
    a non-string value). -/
def findInAnyIdMapV (ms : IdMaps) : Option Value → Option String
  | some (.str s) => findInAnyIdMap ms s
  | _ => none

/-- seeder.ts getAllSourceIds: all keys of all maps, in insertion order. -/
def getAllSourceIds (ms : IdMaps) : List String :=
  (ms.map (fun p => p.2.map (·.1))).flatten

-- ---------------------------------------------------------------------------
-- JavaScript Set helpers
-- ---------------------------------------------------------------------------

def jsDedupGo (seen : List String) : List String → List String
  | [] => []
  | x :: xs =>
    if seen.contains x then jsDedupGo seen xs
    else x :: jsDedupGo (seen ++ [x]) xs

/-- new Set(list): keep first occurrences, preserving order. -/
def jsDedup (l : List String) : List String := jsDedupGo [] l

/-- Set.add: append if not already present. -/
def setAdd (l : List String) (x : String) : List String :=
  if x ∈ l then l else l ++ [x]

-- ---------------------------------------------------------------------------
-- Schema metadata (types.ts FieldInfo) and fixed constant sets
-- ---------------------------------------------------------------------------

structure FieldInfo where
  name : String
  label : String := ""
  type : String
  createable : Bool
  nillable : Bool
  externalId : Bool := false
  uniqueField : Bool := false
  referenceTo : List String := []
  relationshipName : Option String := none
deriving DecidableEq

def BATCH_SIZE : Nat := 200
def QUERY_CHUNK_SIZE : Nat := 200

def SYSTEM_READONLY_FIELDS : List String :=
  ["Id", "IsDeleted", "CreatedDate", "CreatedById", "LastModifiedDate",
   "LastModifiedById", "SystemModstamp", "LastActivityDate", "LastViewedDate",
   "LastReferencedDate"]

def ACTIVITY_SYSTEM_FIELDS : List String :=
  SYSTEM_READONLY_FIELDS ++
  ["IsClosed", "IsArchived", "IsRecurrence", "IsHighPriority", "TaskSubtype",
   "EventSubtype", "IsGroupEvent", "GroupEventType", "IsChild", "IsAllDayEvent",
   "IsReminderSet", "RecurrenceActivityId"]

def SYSTEM_LOOKUP_OBJECTS : List String :=
  ["User", "Group", "Organization", "Profile", "UserRole", "PermissionSet",
   "PermissionSetGroup", "ConnectedApplication",
   "RecordType", "BusinessProcess", "ApexClass", "ApexTrigger",
   "CustomPermission", "EmailTemplate", "Folder", "ListView", "Layout",
   "BusinessHours", "Entitlement", "EntitlementTemplate", "Milestone",
   "MilestoneType", "SlaProcess",
   "Territory2", "Territory2Model", "Territory2Type",
   "CurrencyType", "DatedConversionRate",
   "Division", "QueueSobject", "Calendar", "CollaborationGroup", "Network",
   "Site", "Community", "BrandTemplate", "DandBCompany", "PartnerRole",
   "DuplicateRecordSet", "DuplicateRecordItem", "DuplicateRule",
   "MatchingRule", "Period", "FiscalYearSettings"]

-- ---------------------------------------------------------------------------
-- schema.ts
-- ---------------------------------------------------------------------------

/-- schema.ts getInsertableFieldNames: createable, minus system read-only
    fields, minus a caller exclusion set, minus compound address/location. -/
def getInsertableFieldNames (fields : List FieldInfo) (userExcluded : List String) :
    List String :=
  (fields.filter (fun f =>
    f.createable && !(SYSTEM_READONLY_FIELDS.contains f.name) &&
    !(userExcluded.contains f.name) &&
    f.type != "address" && f.type != "location")).map (·.name)

/-- schema.ts findLookupFieldsToRemap: createable reference fields with at
    least one target currently in scope (no check of the semantic type). -/
def findLookupFieldsToRemap (fields : List FieldInfo) (objectsInScope : List String) :
    List FieldInfo :=
  fields.filter (fun f =>
    f.createable && !f.referenceTo.isEmpty &&
    f.referenceTo.any (fun r => objectsInScope.contains r))

/-- The names of the fields createable on the target describe. -/
def targetCreateableNames (targetFields : List FieldInfo) : List String :=
  (targetFields.filter (fun f => f.createable)).map (·.name)

/-- The insertable field set of a tier: source insertable names intersected
    with the target createable names (seedCoreObject, seedRelatedObject and
    seedDependencyObjects all compute exactly this). -/
def tierInsertableFields (sourceFields targetFields : List FieldInfo) :
    List String :=
  (getInsertableFieldNames sourceFields []).filter
    (fun f => (targetCreateableNames targetFields).contains f)

-- ---------------------------------------------------------------------------
-- query.ts SOQL helpers
-- ---------------------------------------------------------------------------

/-- query.ts escSoql: backslash-escape every single quote (the regex
    replace is modelled character-wise). -/
def escSoql (v : String) : String :=
  String.mk (v.data.flatMap (fun c =>
    if c = Char.ofNat 39 then [Char.ofNat 92, Char.ofNat 39] else [c]))

def inClause (ids : List String) : String :=
  String.intercalate "," (ids.map (fun i => "\x27" ++ escSoql i ++ "\x27"))

/-- query.ts buildSelectFields: deduplicating union, Id always appended. -/
def buildSelectFields (fields : List String) (additionalFields : List String) :
    String :=
  String.intercalate ", " (jsDedup (fields ++ additionalFields ++ ["Id"]))

/-- query.ts buildSeedQuery; limit none models the All sentinel and a zero
    limit is falsy in JavaScript, so both omit the LIMIT clause. -/
def buildSeedQuery (selectFields obj : String) (whereClause : Option String)
    (limit : Option Nat) : String :=
  let s := "SELECT " ++ selectFields ++ " FROM " ++ obj
  let s := match whereClause with
    | some w => if w ≠ "" then s ++ " WHERE " ++ w else s
    | none => s
  match limit with
  | some n => if n ≠ 0 then s ++ " LIMIT " ++ toString n else s
  | none => s

-- ---------------------------------------------------------------------------
-- seeder.ts reference field categorization (root object classifier)
-- ---------------------------------------------------------------------------

structure RefFieldCategories where
  systemFields : List String
  selfRefFields : List String
  dependencyFields : List (String × String)
deriving DecidableEq

/-- One iteration of the categorizeReferenceFields loop body. -/
def categorizeStep (coreObjectApiName : String) (acc : RefFieldCategories)
    (f : FieldInfo) : RefFieldCategories :=
  if !f.createable || f.referenceTo.isEmpty || f.type != "reference" then acc
  else if f.referenceTo = [coreObjectApiName] then
    { acc with selfRefFields := setAdd acc.selfRefFields f.name }
  else
    let nonSystemTargets :=
      f.referenceTo.filter (fun r => !(SYSTEM_LOOKUP_OBJECTS.contains r))
    if nonSystemTargets.isEmpty then
      { acc with systemFields := setAdd acc.systemFields f.name }
    else if f.referenceTo.contains coreObjectApiName then
      { acc with selfRefFields := setAdd acc.selfRefFields f.name }
    else if nonSystemTargets.length = 1 then
      let deps := mset acc.dependencyFields f.name (nonSystemTargets.headD "")
      { acc with dependencyFields := deps }
    else
      { acc with systemFields := setAdd acc.systemFields f.name }

/-- seeder.ts categorizeReferenceFields. -/
def categorizeReferenceFields (fields : List FieldInfo)
    (coreObjectApiName : String) : RefFieldCategories :=
  fields.foldl (categorizeStep coreObjectApiName) ⟨[], [], []⟩

/-- seeder.ts selfRefFieldCheck. -/
def selfRefFieldCheck (f : FieldInfo) (objectApiName : String) : Bool :=
  f.createable && f.type == "reference" && f.referenceTo.contains objectApiName

/-- The bucket a reference field is assigned to. -/
inductive RefBucket where
  | system : RefBucket
  | selfRef : RefBucket
  | dep (target : String) : RefBucket
deriving DecidableEq

/-- The ordered categorization rules exactly as the specification states
    them, used to compare the classifier in the code against its spec. -/
def specClassify (coreObjectApiName : String) (f : FieldInfo) : RefBucket :=
  if f.referenceTo = [coreObjectApiName] then .selfRef
  else if f.referenceTo.all (fun r => SYSTEM_LOOKUP_OBJECTS.contains r) then .system
  else if f.referenceTo.contains coreObjectApiName then .selfRef
  else if (f.referenceTo.filter (fun r => !(SYSTEM_LOOKUP_OBJECTS.contains r))).length = 1 then
    .dep ((f.referenceTo.filter (fun r => !(SYSTEM_LOOKUP_OBJECTS.contains r))).headD "")
  else .system

def chunksOfGo {α : Type} (n : Nat) : Nat → List α → List (List α)
  | _, [] => []
  | 0, _ :: _ => []
  | fuel + 1, x :: xs => (x :: xs).take n :: chunksOfGo n fuel ((x :: xs).drop n)

/-- Consecutive fixed-size chunks of a list (empty for a zero size, which no
    call site uses). The list length bounds the iteration count, so it
    serves as structural fuel. -/
def chunksOf {α : Type} (n : Nat) (l : List α) : List (List α) :=
  if n = 0 then [] else chunksOfGo n l.length l

-- ---------------------------------------------------------------------------
-- Result and error types (types.ts)
-- ---------------------------------------------------------------------------

structure SeedError where
  object : String
  sourceId : Option String := none
  stage : String
  error : String
deriving DecidableEq

structure ObjectSeedResult where
  objectApiName : String
  queried : Nat
  inserted : Nat
  updated : Nat
  failed : Nat
  skipped : Nat
deriving DecidableEq

structure FileSeedResult where
  filesFound : Nat
  filesUploaded : Nat
  filesFailed : Nat
  linksCreated : Nat
deriving DecidableEq

structure SeedResults where
  coreObject : ObjectSeedResult
  children : List ObjectSeedResult
  grandchildren : List ObjectSeedResult
  tasks : Option ObjectSeedResult
  events : Option ObjectSeedResult
  files : Option FileSeedResult
  errors : List SeedError
  dryRun : Bool
deriving DecidableEq

structure SaveErrorInfo where
  statusCode : String
  message : String
  fields : List String := []
deriving DecidableEq

structure InsertResult where
  id : Option String := none
  success : Bool
  errors : List SaveErrorInfo := []
deriving DecidableEq

structure UpsertResult where
  id : Option String := none
  success : Bool
  created : Option Bool := none
  errors : List SaveErrorInfo := []
deriving DecidableEq

/-- seeder.ts formatErrors. -/
def formatErrors (errors : List SaveErrorInfo) : String :=
  if errors.isEmpty then "Unknown error"
  else String.intercalate "; " (errors.map (fun e =>
    e.statusCode ++ ": " ++ e.message ++
    (if !e.fields.isEmpty then " [" ++ String.intercalate ", " e.fields ++ "]" else "")))

-- ---------------------------------------------------------------------------
-- Connections as oracles, the event trace, and threaded state
-- ---------------------------------------------------------------------------

inductive Ev where
  | describe (isSource : Bool) (obj : String)
  | query (isSource : Bool) (soql : String)
  | chunkEv (vals : List String)
  | createRecs (obj : String) (recs : List Rec)
  | updateRecs (obj : String) (recs : List Rec)
  | upsertRecs (obj : String) (extField : String) (recs : List Rec)
  | download (url : String)
  | regSet (obj : String) (sid : String) (tid : String)
deriving DecidableEq

/-- An org connection. Response functions receive the current event count,
    so stateful server behaviour (for example two identical create calls
    returning different ids) is expressible. -/
structure Conn where
  isSource : Bool
  instanceUrl : String := ""
  accessToken : String := ""
  apiVersion : String := "62.0"
  fieldsOf : String → List FieldInfo
  runQuery : Nat → String → List Rec
  runCreate : Nat → String → List Rec → List InsertResult
  runUpdate : Nat → String → List Rec → List InsertResult
  runUpsert : Nat → String → String → List Rec → List UpsertResult
  runDownload : Nat → String → Option String

structure St where
  trace : List Ev := []
  idMaps : IdMaps := []
  errors : List SeedError := []

def emit (st : St) (e : Ev) : St := { st with trace := st.trace ++ [e] }

def pushError (st : St) (e : SeedError) : St :=
  { st with errors := st.errors ++ [e] }

/-- idMaps[key].set(sid, tid), with a registry event recorded. -/
def regSetSt (st : St) (key sid tid : String) : St :=
  { st with idMaps := updObj st.idMaps key (fun m => mset m sid tid),
            trace := st.trace ++ [.regSet key sid tid] }

/-- schema.ts getObjectFields through the describe oracle. -/
def getObjectFields (conn : Conn) (objectApiName : String) (st : St) :
    List FieldInfo × St :=
  (conn.fieldsOf objectApiName, emit st (.describe conn.isSource objectApiName))

/-- query.ts queryAll: the oracle returns the fully paginated result. -/
def queryAll (conn : Conn) (soql : String) (st : St) : List Rec × St :=
  (conn.runQuery st.trace.length soql, emit st (.query conn.isSource soql))

def queryAllChunkedGo (conn : Conn) (soqlBuilder : List String → String)
    (chunkSize : Nat) : Nat → List String → St → List Rec × St
  | _, [], st => ([], st)
  | 0, _ :: _, st => ([], st)
  | fuel + 1, x :: xs, st =>
    let chunk := (x :: xs).take chunkSize
    let st1 := emit st (.chunkEv chunk)
    let (recs, st2) := queryAll conn (soqlBuilder chunk) st1
    let (rest, st3) :=
      queryAllChunkedGo conn soqlBuilder chunkSize fuel ((x :: xs).drop chunkSize) st2
    (recs ++ rest, st3)

/-- query.ts queryAllChunked: fixed-size chunks of the value list, one
    builder invocation (recorded as a chunk event) and one queryAll each.
    The value-list length bounds the iteration count (fuel). -/
def queryAllChunked (conn : Conn) (values : List String)
    (soqlBuilder : List String → String) (chunkSize : Nat) (st : St) :
    List Rec × St :=
  if chunkSize = 0 then ([], st)
  else queryAllChunkedGo conn soqlBuilder chunkSize values.length values st

-- ---------------------------------------------------------------------------
-- seeder.ts prepareRecord (children and grandchildren tiers)
-- ---------------------------------------------------------------------------

/-- record[Id] as string (undefined stays absent; the string cast is
    modelled through jsString for non-string values). -/
def recIdOpt (r : Rec) : Option String := (getField r "Id").map jsString

def remapErrorMessage (fieldName : String) (v : Value) : String :=
  "Required lookup " ++ fieldName ++ " references " ++ jsString v ++
  " which has no target mapping"

def remapError (objectApiName : String) (r : Rec) (fieldName : String)
    (v : Value) : SeedError :=
  { object := objectApiName, sourceId := recIdOpt r, stage := "remap",
    error := remapErrorMessage fieldName v }

structure PrepCtx where
  record : Rec
  lookupFields : List FieldInfo
  allRefNames : List String
  inScopeNames : List String
  idMaps : IdMaps
  objectApiName : String

/-- The per-field loop of prepareRecord. Returns the prepared record (none
    when the record must be skipped) and the errors it pushed. -/
def prepareRecordLoop (c : PrepCtx) : List String → Rec → Option Rec × List SeedError
  | [], prepared => (some prepared, [])
  | fieldName :: rest, prepared =>
    match getField c.record fieldName with
    | none => prepareRecordLoop c rest prepared
    | some value =>
      match c.lookupFields.find? (fun f => f.name = fieldName) with
      | some lookupField =>
        if value ≠ .null then
          match findInAnyIdMapV c.idMaps (some value) with
          | some targetId =>
            prepareRecordLoop c rest (recSet prepared fieldName (.str targetId))
          | none =>
            if lookupField.nillable then
              prepareRecordLoop c rest (recSet prepared fieldName .null)
            else
              (none, [remapError c.objectApiName c.record fieldName value])
        else
          -- a null in-scope lookup falls through to the verbatim copy
          prepareRecordLoop c rest (recSet prepared fieldName .null)
      | none =>
        if c.allRefNames.contains fieldName &&
           !(c.inScopeNames.contains fieldName) && value ≠ .null then
          -- out-of-scope reference with a non-null value: strip
          prepareRecordLoop c rest prepared
        else
          prepareRecordLoop c rest (recSet prepared fieldName value)

/-- seeder.ts prepareRecord. -/
def prepareRecord (record : Rec) (insertableFields : List String)
    (lookupFields allReferenceFields : List FieldInfo) (idMaps : IdMaps)
    (objectApiName : String) : Option Rec × List SeedError :=
  prepareRecordLoop
    { record := record, lookupFields := lookupFields,
      allRefNames := allReferenceFields.map (·.name),
      inScopeNames := lookupFields.map (·.name),
      idMaps := idMaps, objectApiName := objectApiName }
    (jsDedup insertableFields) []

-- ---------------------------------------------------------------------------
-- seeder.ts batchInsert
-- ---------------------------------------------------------------------------

/-- Walk one batch of create results next to its source ids (an index past
    the id list is the JavaScript undefined, written as a sentinel key). -/
def processInsertResults (objectApiName key : String) :
    List InsertResult → List String → St → (Nat × Nat) × St
  | [], _, st => ((0, 0), st)
  | r :: rs, sids, st =>
    let sid := sids.headD "undefined"
    if r.success && (r.id.getD "") != "" then
      let st1 := regSetSt st key sid (r.id.getD "")
      let ((ins, fl), st2) := processInsertResults objectApiName key rs (sids.drop 1) st1
      ((ins + 1, fl), st2)
    else
      let st1 := pushError st
        { object := objectApiName, sourceId := some sid, stage := "insert",
          error := formatErrors r.errors }
      let ((ins, fl), st2) := processInsertResults objectApiName key rs (sids.drop 1) st1
      ((ins, fl + 1), st2)

def batchInsertLoopGo (conn : Conn) (objectApiName key : String) :
    Nat → List Rec → List String → St → (Nat × Nat) × St
  | _, [], _, st => ((0, 0), st)
  | 0, _ :: _, _, st => ((0, 0), st)
  | fuel + 1, r :: rs, sourceIds, st =>
    let batch := (r :: rs).take BATCH_SIZE
    let batchSourceIds := sourceIds.take BATCH_SIZE
    let results := conn.runCreate st.trace.length objectApiName batch
    let st1 := emit st (.createRecs objectApiName batch)
    let ((i1, f1), st2) := processInsertResults objectApiName key results batchSourceIds st1
    let ((i2, f2), st3) := batchInsertLoopGo conn objectApiName key fuel
      ((r :: rs).drop BATCH_SIZE) (sourceIds.drop BATCH_SIZE) st2
    ((i1 + i2, f1 + f2), st3)

/-- The batch loop of batchInsert (the record count is structural fuel). -/
def batchInsertLoop (conn : Conn) (objectApiName key : String)
    (records : List Rec) (sourceIds : List String) (st : St) :
    (Nat × Nat) × St :=
  batchInsertLoopGo conn objectApiName key records.length records sourceIds st

/-- seeder.ts batchInsert: (inserted, failed) plus the threaded state.
    The registry map mutated is the one stored under key in st.idMaps, as at
    every call site of the source. -/
def batchInsert (conn : Conn) (objectApiName : String) (records : List Rec)
    (sourceIds : List String) (key : String) (dryRun : Bool) (st : St) :
    (Nat × Nat) × St :=
  if dryRun then ((records.length, 0), st)
  else batchInsertLoop conn objectApiName key records sourceIds st

-- ---------------------------------------------------------------------------
-- seeder.ts batchUpsert
-- ---------------------------------------------------------------------------

def processUpsertResults (objectApiName key : String) :
    List UpsertResult → List String → St → (Nat × Nat × Nat) × St
  | [], _, st => ((0, 0, 0), st)
  | r :: rs, sids, st =>
    let sid := sids.headD "undefined"
    if r.success then
      let st1 := if (r.id.getD "") != "" then regSetSt st key sid (r.id.getD "") else st
      let ((ins, upd, fl), st2) := processUpsertResults objectApiName key rs (sids.drop 1) st1
      if r.created = some false then ((ins, upd + 1, fl), st2)
      else ((ins + 1, upd, fl), st2)
    else
      let st1 := pushError st
        { object := objectApiName, sourceId := some sid, stage := "upsert",
          error := formatErrors r.errors }
      let ((ins, upd, fl), st2) := processUpsertResults objectApiName key rs (sids.drop 1) st1
      ((ins, upd, fl + 1), st2)

/-- records.find((_, idx) => sourceIds[idx] === sid). -/
def findRecBySid (records : List Rec) (sourceIds : List String) (sid : String) :
    Option Rec :=
  ((records.zip sourceIds).find? (fun p => p.2 = sid)).map (·.1)

/-- String(v ?? ""): null and undefined collapse to the empty string. -/
def jsCoalesceStr : Option Value → String
  | none => ""
  | some .null => ""
  | some v => jsString v

/-- The post-batch back-query of batchUpsert: recover target ids for source
    ids with no registry entry by querying the target org on the distinct
    external id values of the batch. -/
def upsertBackQuery (conn : Conn) (objectApiName externalIdField key : String)
    (records : List Rec) (sourceIds : List String)
    (batchSourceIds : List String) (st : St) : St :=
  let idMapNow := objGetD st.idMaps key
  let missingMappings := batchSourceIds.filter (fun sid => !(mhas idMapNow sid))
  if missingMappings.isEmpty then st
  else
    let extIdValues := missingMappings.filterMap (fun sid =>
      match findRecBySid records sourceIds sid with
      | some r =>
        match getField r externalIdField with
        | some v => if v = .null then none else some v
        | none => none
      | none => none)
    if extIdValues.isEmpty then st
    else
      let (targetRecords, st1) := queryAllChunked conn (extIdValues.map jsString)
        (fun chunk =>
          "SELECT Id, " ++ externalIdField ++ " FROM " ++ objectApiName ++
          " WHERE " ++ externalIdField ++ " IN (" ++ inClause chunk ++ ")")
        QUERY_CHUNK_SIZE st
      let extToSource := missingMappings.foldl (fun (m : IdMap) sid =>
        match sourceIds.findIdx? (fun x => x = sid) with
        | some idx =>
          let extVal := jsCoalesceStr ((records.get? idx).bind
            (fun r => getField r externalIdField))
          if extVal ≠ "" then mset m extVal sid else m
        | none => m) []
      targetRecords.foldl (fun st2 tr =>
        let extVal := jsCoalesceStr (getField tr externalIdField)
        match mget extToSource extVal with
        | some sid =>
          let idTruthy := match getField tr "Id" with
            | some v => v.truthy
            | none => false
          if sid != "" && idTruthy then
            regSetSt st2 key sid (jsString ((getField tr "Id").getD .null))
          else st2
        | none => st2) st1

def batchUpsertLoopGo (conn : Conn) (objectApiName externalIdField key : String)
    (allRecords : List Rec) (allSourceIds : List String) :
    Nat → List Rec → List String → St → (Nat × Nat × Nat) × St
  | _, [], _, st => ((0, 0, 0), st)
  | 0, _ :: _, _, st => ((0, 0, 0), st)
  | fuel + 1, r :: rs, sourceIds, st =>
    let batch := (r :: rs).take BATCH_SIZE
    let batchSourceIds := sourceIds.take BATCH_SIZE
    let results := conn.runUpsert st.trace.length objectApiName externalIdField batch
    let st1 := emit st (.upsertRecs objectApiName externalIdField batch)
    let ((i1, u1, f1), st2) :=
      processUpsertResults objectApiName key results batchSourceIds st1
    let st3 := upsertBackQuery conn objectApiName externalIdField key
      allRecords allSourceIds batchSourceIds st2
    let ((i2, u2, f2), st4) := batchUpsertLoopGo conn objectApiName externalIdField key
      allRecords allSourceIds fuel ((r :: rs).drop BATCH_SIZE) (sourceIds.drop BATCH_SIZE) st3
    ((i1 + i2, u1 + u2, f1 + f2), st4)

/-- The batch loop of batchUpsert (the record count is structural fuel). -/
def batchUpsertLoop (conn : Conn) (objectApiName externalIdField key : String)
    (allRecords : List Rec) (allSourceIds : List String) (records : List Rec)
    (sourceIds : List String) (st : St) : (Nat × Nat × Nat) × St :=
  batchUpsertLoopGo conn objectApiName externalIdField key allRecords allSourceIds
    records.length records sourceIds st

/-- seeder.ts batchUpsert: (inserted, updated, failed). -/
def batchUpsert (conn : Conn) (objectApiName : String) (records : List Rec)
    (sourceIds : List String) (externalIdField key : String) (dryRun : Bool)
    (st : St) : (Nat × Nat × Nat) × St :=
  if dryRun then ((records.length, 0, 0), st)
  else batchUpsertLoop conn objectApiName externalIdField key records sourceIds
    records sourceIds st

-- ---------------------------------------------------------------------------
-- Seed plan configuration (types.ts)
-- ---------------------------------------------------------------------------

structure GrandchildObjectConfig where
  objectApiName : String
  lookupField : String
  parentChildObject : String
  externalIdField : Option String := none

structure ChildObjectConfig where
  objectApiName : String
  lookupField : String
  externalIdField : Option String := none
  grandchildren : List GrandchildObjectConfig := []

structure ObjectSeedConfig where
  objectApiName : String
  externalIdField : Option String := none

/-- types.ts SeedConfig; recordCount none is the All sentinel; the abort
    probe is a function of how many times it has been consulted, so the
    closure over the mutable aborted flag can be replayed. -/
structure SeedConfig where
  sourceConn : Conn
  targetConn : Conn
  coreObject : ObjectSeedConfig
  children : List ChildObjectConfig := []
  includeTasks : Bool := false
  includeEvents : Bool := false
  includeFiles : Bool := false
  recordCount : Option Nat := some 10
  whereClause : Option String := none
  dryRun : Bool := false
  shouldAbort : Option (Nat → Bool) := none

/-- A truthy string field value. Reference field values are strings or null
    in org data; a truthy non-string would throw inside escSoql in the
    source, so the embedding treats it as absent. -/
def truthyStr : Option Value → Option String
  | some (.str s) => if s ≠ "" then some s else none
  | _ => none

/-- A JavaScript-truthy optional string (the empty string is falsy). -/
def truthyOptStr : Option String → Option String
  | some s => if s = "" then none else some s
  | none => none

-- ---------------------------------------------------------------------------
-- seeder.ts seedDependencyObjects
-- ---------------------------------------------------------------------------

/-- Unique referenced ids per dependency target object, in insertion
    order. -/
def collectIdsByObject (dependencyFields : List (String × String))
    (sourceRecords : List Rec) : List (String × List String) :=
  dependencyFields.foldl (fun acc p =>
    let acc := if acc.any (fun q => q.1 = p.2) then acc else acc ++ [(p.2, [])]
    acc.map (fun q =>
      if q.1 = p.2 then
        (q.1, sourceRecords.foldl (fun ids rec =>
          match truthyStr (getField rec p.1) with
          | some s => setAdd ids s
          | none => ids) q.2)
      else q)) []

/-- Preparation of one dependency record: copy insertable fields, stripping
    every reference field with a non-null value (one level, no cascade). -/
def depPrepRecord (depInsertableFields depRefFieldNames : List String)
    (rec : Rec) : Rec :=
  depInsertableFields.foldl (fun p fname =>
    match getField rec fname with
    | none => p
    | some v =>
      if depRefFieldNames.contains fname && v != Value.null then p
      else recSet p fname v) []

def seedDepLoop (cfg : SeedConfig) :
    List (String × List String) → List (String × String) → St →
    List (String × String) × St
  | [], depFields, st => (depFields, st)
  | (depObjectName, sourceIds) :: rest, depFields, st =>
    if sourceIds.isEmpty then seedDepLoop cfg rest depFields st
    else if (objGet st.idMaps depObjectName).isSome then
      seedDepLoop cfg rest depFields st
    else
      let (depTargetFields, st1) := getObjectFields cfg.targetConn depObjectName st
      if !(depTargetFields.any (fun f => f.createable)) then
        seedDepLoop cfg rest (depFields.filter (fun p => p.2 != depObjectName)) st1
      else
        let (depSourceFields, st2) := getObjectFields cfg.sourceConn depObjectName st1
        let depInsertableFields := tierInsertableFields depSourceFields depTargetFields
        if depInsertableFields.isEmpty then
          seedDepLoop cfg rest (depFields.filter (fun p => p.2 != depObjectName)) st2
        else
          let depSelectFields := buildSelectFields depInsertableFields []
          let (depRecords, st3) := queryAllChunked cfg.sourceConn sourceIds
            (fun chunk =>
              "SELECT " ++ depSelectFields ++ " FROM " ++ depObjectName ++
              " WHERE Id IN (" ++ inClause chunk ++ ")")
            QUERY_CHUNK_SIZE st2
          if depRecords.isEmpty then seedDepLoop cfg rest depFields st3
          else
            let depRefFieldNames := (depSourceFields.filter (fun f =>
              f.createable && !f.referenceTo.isEmpty && f.type == "reference")).map (·.name)
            let st4 := { st3 with idMaps := objSet st3.idMaps depObjectName [] }
            let depPrepared :=
              depRecords.map (depPrepRecord depInsertableFields depRefFieldNames)
            let depPreparedSourceIds :=
              depRecords.map (fun r => (recIdOpt r).getD "undefined")
            let (_, st5) := batchInsert cfg.targetConn depObjectName depPrepared
              depPreparedSourceIds depObjectName cfg.dryRun st4
            seedDepLoop cfg rest depFields st5

/-- seeder.ts seedDependencyObjects: pull in records referenced by core
    object lookups; returns the dependency field map after deletions. -/
def seedDependencyObjects (cfg : SeedConfig) (sourceRecords : List Rec)
    (dependencyFields : List (String × String)) (st : St) :
    List (String × String) × St :=
  seedDepLoop cfg (collectIdsByObject dependencyFields sourceRecords)
    dependencyFields st

-- ---------------------------------------------------------------------------
-- seeder.ts seedCoreObject record preparation and self-reference update pass
-- ---------------------------------------------------------------------------

/-- The Stage 1 per-record preparation loop: strip system lookups, defer
    self-references, remap resolved data dependencies (nulling or omitting
    unresolved ones), copy everything else. Never skips a record. -/
def prepareCoreRecord (insertableFields systemFields selfRefFields
    resolvedDependencyFields : List String) (sourceFields : List FieldInfo)
    (idMaps : IdMaps) (rec : Rec) : Rec :=
  insertableFields.foldl (fun p fname =>
    match getField rec fname with
    | none => p
    | some v =>
      if systemFields.contains fname && v != Value.null then p
      else if selfRefFields.contains fname then p
      else if resolvedDependencyFields.contains fname && v != Value.null then
        match findInAnyIdMapV idMaps (some v) with
        | some targetId => recSet p fname (.str targetId)
        | none =>
          match sourceFields.find? (fun f => f.name = fname) with
          | some fi => if fi.nillable then recSet p fname .null else p
          | none => p
      else recSet p fname v) []

/-- Map.get applied to one raw value. -/
def mgetV (m : IdMap) : Value → Option String
  | .str s => mget m s
  | _ => none

/-- The self-reference fields of one record that resolve through the core
    map (truthy source value whose referent has a truthy target id). -/
def selfRefResolved (selfRefFields : List String) (m : IdMap) (rec : Rec) :
    List (String × String) :=
  selfRefFields.filterMap (fun fieldName =>
    match getField rec fieldName with
    | some v =>
      if v.truthy then
        match mgetV m v with
        | some refTargetId =>
          if refTargetId ≠ "" then some (fieldName, refTargetId) else none
        | none => none
      else none
    | none => none)

/-- The post-insert self-reference update list of Stage 1: one update
    record per written source record with at least one resolvable
    self-reference. -/
def buildSelfRefUpdates (selfRefFields : List String) (m : IdMap)
    (allRecordsToInsert : List Rec) : List Rec :=
  allRecordsToInsert.filterMap (fun rec =>
    match (getField rec "Id").bind (mgetV m) with
    | none => none
    | some targetId =>
      if targetId = "" then none
      else
        let resolved := selfRefResolved selfRefFields m rec
        if resolved.isEmpty then none
        else some (resolved.foldl (fun u q => recSet u q.1 (.str q.2))
          [("Id", .str targetId)]))

def processUpdateResults (objectApiName : String) : List InsertResult → St → St
  | [], st => st
  | r :: rs, st =>
    let st1 :=
      if r.success then st
      else pushError st
        { object := objectApiName, sourceId := none, stage := "self-ref update",
          error := formatErrors r.errors }
    processUpdateResults objectApiName rs st1

def runUpdateBatchesGo (conn : Conn) (objectApiName : String) :
    Nat → List Rec → St → St
  | _, [], st => st
  | 0, _ :: _, st => st
  | fuel + 1, u :: us, st =>
    let batch := (u :: us).take BATCH_SIZE
    let results := conn.runUpdate st.trace.length objectApiName batch
    let st1 := emit st (.updateRecs objectApiName batch)
    let st2 := processUpdateResults objectApiName results st1
    runUpdateBatchesGo conn objectApiName fuel ((u :: us).drop BATCH_SIZE) st2

/-- The batched update loop of the Stage 1 self-reference pass. -/
def runUpdateBatches (conn : Conn) (objectApiName : String)
    (updates : List Rec) (st : St) : St :=
  runUpdateBatchesGo conn objectApiName updates.length updates st

-- ---------------------------------------------------------------------------
-- seeder.ts seedCoreObject (Stage 1)
-- ---------------------------------------------------------------------------

def seedCoreObject (cfg : SeedConfig) (st : St) : ObjectSeedResult × St :=
  let objectApiName := cfg.coreObject.objectApiName
  let (sourceFields, st) := getObjectFields cfg.sourceConn objectApiName st
  let (targetFields, st) := getObjectFields cfg.targetConn objectApiName st
  let insertableFields := tierInsertableFields sourceFields targetFields
  let selectFields := buildSelectFields insertableFields []
  let soql := buildSeedQuery selectFields objectApiName cfg.whereClause cfg.recordCount
  let (sourceRecords, st) := queryAll cfg.sourceConn soql st
  if sourceRecords.isEmpty then
    ({ objectApiName := objectApiName, queried := 0, inserted := 0,
       updated := 0, failed := 0, skipped := 0 }, st)
  else
    let cats := categorizeReferenceFields
      (sourceFields.filter (fun f =>
        insertableFields.contains f.name || selfRefFieldCheck f objectApiName))
      objectApiName
    let (depFields, st) :=
      if !cats.dependencyFields.isEmpty then
        seedDependencyObjects cfg sourceRecords cats.dependencyFields st
      else (cats.dependencyFields, st)
    let selfRefSourceIds := sourceRecords.filterMap (fun r => (getField r "Id").bind strOf)
    let extraParentIds := cats.selfRefFields.foldl (fun acc fieldName =>
      sourceRecords.foldl (fun acc2 rec =>
        match truthyStr (getField rec fieldName) with
        | some v => if !(selfRefSourceIds.contains v) then setAdd acc2 v else acc2
        | none => acc2) acc) []
    let (allRecordsToInsert, st) :=
      if !extraParentIds.isEmpty then
        let (extraParents, st2) := queryAllChunked cfg.sourceConn extraParentIds
          (fun chunk =>
            "SELECT " ++ selectFields ++ " FROM " ++ objectApiName ++
            " WHERE Id IN (" ++ inClause chunk ++ ")")
          QUERY_CHUNK_SIZE st
        (extraParents ++ sourceRecords, st2)
      else (sourceRecords, st)
    let st := { st with idMaps := objSet st.idMaps objectApiName [] }
    let resolvedDependencyFields := depFields.map (·.1)
    let prepared := allRecordsToInsert.map
      (prepareCoreRecord insertableFields cats.systemFields cats.selfRefFields
        resolvedDependencyFields sourceFields st.idMaps)
    let preparedSourceIds := allRecordsToInsert.map (fun r => (recIdOpt r).getD "undefined")
    let (counts, st) :=
      match truthyOptStr cfg.coreObject.externalIdField with
      | some extId =>
        batchUpsert cfg.targetConn objectApiName prepared preparedSourceIds
          extId objectApiName cfg.dryRun st
      | none =>
        let ((i, f), st2) := batchInsert cfg.targetConn objectApiName prepared
          preparedSourceIds objectApiName cfg.dryRun st
        ((i, 0, f), st2)
    let coreIdMap := objGetD st.idMaps objectApiName
    let st :=
      if !cats.selfRefFields.isEmpty && !coreIdMap.isEmpty && !cfg.dryRun then
        let updates := buildSelfRefUpdates cats.selfRefFields coreIdMap allRecordsToInsert
        if !updates.isEmpty then runUpdateBatches cfg.targetConn objectApiName updates st
        else st
      else st
    ({ objectApiName := objectApiName, queried := sourceRecords.length,
       inserted := counts.1, updated := counts.2.1, failed := counts.2.2,
       skipped := 0 }, st)

-- ---------------------------------------------------------------------------
-- seeder.ts seedRelatedObject (Stages 2 and 3)
-- ---------------------------------------------------------------------------

/-- The child-tier preparation loop: prepared records, their source ids,
    the skipped count, and the remap errors pushed, in record order. -/
def childPrep (insertableFields : List String)
    (lookupFields allReferenceFields : List FieldInfo) (idMaps : IdMaps)
    (objectApiName : String) :
    List Rec → List Rec × List String × Nat × List SeedError
  | [] => ([], [], 0, [])
  | rec :: rest =>
    let (p, errs) := prepareRecord rec insertableFields lookupFields
      allReferenceFields idMaps objectApiName
    let (ps, sids, sk, errsRest) := childPrep insertableFields lookupFields
      allReferenceFields idMaps objectApiName rest
    match p with
    | some pr =>
      (pr :: ps, ((recIdOpt rec).getD "undefined") :: sids, sk, errs ++ errsRest)
    | none => (ps, sids, sk + 1, errs ++ errsRest)

def seedRelatedObject (cfg : SeedConfig) (objectApiName lookupField : String)
    (parentSourceIds : List String) (externalIdField : Option String)
    (st : St) : ObjectSeedResult × St :=
  let (sourceFields, st) := getObjectFields cfg.sourceConn objectApiName st
  let (targetFields, st) := getObjectFields cfg.targetConn objectApiName st
  let insertableFields := tierInsertableFields sourceFields targetFields
  let selectFields := buildSelectFields insertableFields []
  let objectsInScope := st.idMaps.map (·.1)
  let lookupFields := findLookupFieldsToRemap sourceFields objectsInScope
  let allReferenceFields := sourceFields.filter (fun f =>
    f.createable && !f.referenceTo.isEmpty && f.type == "reference")
  let (sourceRecords, st) := queryAllChunked cfg.sourceConn parentSourceIds
    (fun chunk =>
      buildSeedQuery selectFields objectApiName none none ++
      " WHERE " ++ lookupField ++ " IN (" ++ inClause chunk ++ ")")
    QUERY_CHUNK_SIZE st
  if sourceRecords.isEmpty then
    ({ objectApiName := objectApiName, queried := 0, inserted := 0,
       updated := 0, failed := 0, skipped := 0 }, st)
  else
    let st :=
      if (objGet st.idMaps objectApiName).isSome then st
      else { st with idMaps := objSet st.idMaps objectApiName [] }
    let (prepared, preparedSourceIds, skipped, newErrs) := childPrep
      insertableFields lookupFields allReferenceFields st.idMaps objectApiName
      sourceRecords
    let st := { st with errors := st.errors ++ newErrs }
    if prepared.isEmpty then
      ({ objectApiName := objectApiName, queried := sourceRecords.length,
         inserted := 0, updated := 0, failed := 0, skipped := skipped }, st)
    else
      let (counts, st) :=
        match truthyOptStr externalIdField with
        | some extId =>
          batchUpsert cfg.targetConn objectApiName prepared preparedSourceIds
            extId objectApiName cfg.dryRun st
        | none =>
          let ((i, f), st2) := batchInsert cfg.targetConn objectApiName prepared
            preparedSourceIds objectApiName cfg.dryRun st
          ((i, 0, f), st2)
      ({ objectApiName := objectApiName, queried := sourceRecords.length,
         inserted := counts.1, updated := counts.2.1, failed := counts.2.2,
         skipped := skipped }, st)

-- ---------------------------------------------------------------------------
-- seeder.ts seedActivities (Stages 4 and 5)
-- ---------------------------------------------------------------------------

/-- The activity-specific insertable filter on the source describe. -/
def activityInsertableSource (sourceFields : List FieldInfo) : List String :=
  (sourceFields.filter (fun f =>
    f.createable && !(ACTIVITY_SYSTEM_FIELDS.contains f.name) &&
    f.type != "address" && f.type != "location")).map (·.name)

/-- Template-literal rendering of a possibly absent value. -/
def jsTemplate : Option Value → String
  | some v => jsString v
  | none => "undefined"

/-- Deduplicate query results by record Id, keeping first occurrences. -/
def dedupByIdGo : List String → List Rec → List Rec
  | _, [] => []
  | seen, r :: rs =>
    let i := (recIdOpt r).getD "undefined"
    if seen.contains i then dedupByIdGo seen rs
    else r :: dedupByIdGo (seen ++ [i]) rs

def dedupById (recs : List Rec) : List Rec := dedupByIdGo [] recs

/-- One polymorphic-id remap block of the activity preparation: when the
    source value is truthy, overwrite with the whole-registry hit, or with
    null when the lookup fails. -/
def remapIdField (idMaps : IdMaps) (rec : Rec) (fieldName : String)
    (p : Rec) : Rec :=
  match getField rec fieldName with
  | some v =>
    if v.truthy then
      match findInAnyIdMapV idMaps (some v) with
      | some t => recSet p fieldName (.str t)
      | none => recSet p fieldName .null
    else p
  | none => p

/-- The Stage 4 and 5 per-record preparation: copy insertable fields
    verbatim, then remap WhatId and WhoId by whole-registry lookup, writing
    null when the lookup fails. Never skips a record. -/
def prepActivity (insertableSet : List String) (idMaps : IdMaps) (rec : Rec) :
    Rec :=
  let p := insertableSet.foldl (fun p fieldName =>
    match getField rec fieldName with
    | none => p
    | some v => recSet p fieldName v) []
  remapIdField idMaps rec "WhoId" (remapIdField idMaps rec "WhatId" p)

/-- The intersected insertable field set of the activity tiers. -/
def activityInsertableFields (sourceFields targetFields : List FieldInfo) :
    List String :=
  (activityInsertableSource sourceFields).filter
    (fun f => (targetCreateableNames targetFields).contains f)

def seedActivities (cfg : SeedConfig) (activityType : String) (st : St) :
    ObjectSeedResult × St :=
  let (sourceFields, st) := getObjectFields cfg.sourceConn activityType st
  let (targetFields, st) := getObjectFields cfg.targetConn activityType st
  let insertableFields := activityInsertableFields sourceFields targetFields
  let selectFields := buildSelectFields insertableFields ["WhatId", "WhoId"]
  let allSourceIds := getAllSourceIds st.idMaps
  if allSourceIds.isEmpty then
    ({ objectApiName := activityType, queried := 0, inserted := 0,
       updated := 0, failed := 0, skipped := 0 }, st)
  else
    let (whatRecords, st) := queryAllChunked cfg.sourceConn allSourceIds
      (fun chunk =>
        "SELECT " ++ selectFields ++ " FROM " ++ activityType ++
        " WHERE WhatId IN (" ++ inClause chunk ++ ")")
      QUERY_CHUNK_SIZE st
    let (whoRecords, st) := queryAllChunked cfg.sourceConn allSourceIds
      (fun chunk =>
        "SELECT " ++ selectFields ++ " FROM " ++ activityType ++
        " WHERE WhoId IN (" ++ inClause chunk ++ ")")
      QUERY_CHUNK_SIZE st
    let sourceRecords := dedupById (whatRecords ++ whoRecords)
    if sourceRecords.isEmpty then
      ({ objectApiName := activityType, queried := 0, inserted := 0,
         updated := 0, failed := 0, skipped := 0 }, st)
    else
      let st := { st with idMaps := objSet st.idMaps activityType [] }
      let insertableSet := jsDedup insertableFields
      let prepared := sourceRecords.map (prepActivity insertableSet st.idMaps)
      let preparedSourceIds := sourceRecords.map (fun r => (recIdOpt r).getD "undefined")
      -- the skipRecord flag of the source is never set to true
      let skipped := 0
      let ((ins, fl), st) := batchInsert cfg.targetConn activityType prepared
        preparedSourceIds activityType cfg.dryRun st
      ({ objectApiName := activityType, queried := sourceRecords.length,
         inserted := ins, updated := 0, failed := fl, skipped := skipped }, st)

-- ---------------------------------------------------------------------------
-- seeder.ts seedFiles (Stage 6)
-- ---------------------------------------------------------------------------

def zeroFiles : FileSeedResult :=
  { filesFound := 0, filesUploaded := 0, filesFailed := 0, linksCreated := 0 }

/-- The per-version download and upload loop, threading the
    source-document-id to target-document-id map. -/
def uploadFiles (cfg : SeedConfig) (docMap : IdMap) :
    List Rec → St → (Nat × Nat × IdMap) × St
  | [], st => ((0, 0, docMap), st)
  | cv :: rest, st =>
    let cvId := jsTemplate (getField cv "Id")
    let contentDocId := jsCoalesceStr (getField cv "ContentDocumentId")
    let url := cfg.sourceConn.instanceUrl ++ "/services/data/v" ++
      cfg.sourceConn.apiVersion ++ "/sobjects/ContentVersion/" ++ cvId ++
      "/VersionData"
    let body? := cfg.sourceConn.runDownload st.trace.length url
    let st1 := emit st (.download url)
    match body? with
    | none =>
      let st2 := pushError st1
        { object := "ContentVersion", sourceId := some cvId, stage := "upload",
          error := "Download failed" }
      let ((u, f, dm), st3) := uploadFiles cfg docMap rest st2
      ((u, f + 1, dm), st3)
    | some body =>
      let desc := match getField cv "Description" with
        | some v => if v.truthy then v else Value.str ""
        | none => Value.str ""
      let newRec : Rec :=
        [("Title", (getField cv "Title").getD .null),
         ("PathOnClient", (getField cv "PathOnClient").getD .null),
         ("VersionData", .str body),
         ("Description", desc)]
      let createRes := (cfg.targetConn.runCreate st1.trace.length
        "ContentVersion" [newRec]).headD { success := false }
      let st2 := emit st1 (.createRecs "ContentVersion" [newRec])
      if createRes.success && (createRes.id.getD "") != "" then
        let (newCv, st3) := queryAll cfg.targetConn
          ("SELECT ContentDocumentId FROM ContentVersion WHERE Id = \x27" ++
           createRes.id.getD "" ++ "\x27") st2
        let docMap2 := match newCv.head? with
          | some nr =>
            mset docMap contentDocId (jsCoalesceStr (getField nr "ContentDocumentId"))
          | none => docMap
        let ((u, f, dm), st4) := uploadFiles cfg docMap2 rest st3
        ((u + 1, f, dm), st4)
      else
        let st3 := pushError st2
          { object := "ContentVersion", sourceId := some cvId, stage := "upload",
            error := formatErrors createRes.errors }
        let ((u, f, dm), st4) := uploadFiles cfg docMap rest st3
        ((u, f + 1, dm), st4)

/-- Build the ContentDocumentLink records whose document id and linked
    entity id both resolved. -/
def buildNewLinks (links : List Rec) (docMap : IdMap) (idMaps : IdMaps) :
    List Rec :=
  links.filterMap (fun link =>
    let targetDocId := mget docMap (jsCoalesceStr (getField link "ContentDocumentId"))
    let targetEntityId := findInAnyIdMapV idMaps (getField link "LinkedEntityId")
    match truthyOptStr targetDocId, targetEntityId with
    | some tdoc, some tent =>
      some [("ContentDocumentId", Value.str tdoc),
            ("LinkedEntityId", Value.str tent),
            ("ShareType", Value.str "V"),
            ("Visibility", Value.str "AllUsers")]
    | _, _ => none)

def processLinkResults : List InsertResult → St → Nat × St
  | [], st => (0, st)
  | r :: rs, st =>
    if r.success then
      let (n, st2) := processLinkResults rs st
      (n + 1, st2)
    else
      let st1 := pushError st
        { object := "ContentDocumentLink", sourceId := none, stage := "link",
          error := formatErrors r.errors }
      let (n, st2) := processLinkResults rs st1
      (n, st2)

def createLinksLoopGo (conn : Conn) : Nat → List Rec → St → Nat × St
  | _, [], st => (0, st)
  | 0, _ :: _, st => (0, st)
  | fuel + 1, l :: ls, st =>
    let batch := (l :: ls).take BATCH_SIZE
    let results := conn.runCreate st.trace.length "ContentDocumentLink" batch
    let st1 := emit st (.createRecs "ContentDocumentLink" batch)
    let (n1, st2) := processLinkResults results st1
    let (n2, st3) := createLinksLoopGo conn fuel ((l :: ls).drop BATCH_SIZE) st2
    (n1 + n2, st3)

def createLinksLoop (conn : Conn) (links : List Rec) (st : St) : Nat × St :=
  createLinksLoopGo conn links.length links st

def seedFiles (cfg : SeedConfig) (st : St) : FileSeedResult × St :=
  let allSourceIds := getAllSourceIds st.idMaps
  if allSourceIds.isEmpty then (zeroFiles, st)
  else
    let (links, st) := queryAllChunked cfg.sourceConn allSourceIds
      (fun chunk =>
        "SELECT ContentDocumentId, LinkedEntityId FROM ContentDocumentLink WHERE LinkedEntityId IN (" ++
        inClause chunk ++ ")")
      QUERY_CHUNK_SIZE st
    if links.isEmpty then (zeroFiles, st)
    else
      let contentDocIds :=
        jsDedup (links.map (fun l => jsCoalesceStr (getField l "ContentDocumentId")))
      let (versions, st) := queryAllChunked cfg.sourceConn contentDocIds
        (fun chunk =>
          "SELECT Id, ContentDocumentId, Title, PathOnClient, FileExtension, ContentSize, Description FROM ContentVersion WHERE ContentDocumentId IN (" ++
          inClause chunk ++ ") AND IsLatestVersion = true")
        QUERY_CHUNK_SIZE st
      if cfg.dryRun then
        ({ filesFound := versions.length, filesUploaded := versions.length,
           filesFailed := 0, linksCreated := links.length }, st)
      else
        let ((filesUploaded, filesFailed, docMap), st) := uploadFiles cfg [] versions st
        let newLinks := buildNewLinks links docMap st.idMaps
        let (linksCreated, st) := createLinksLoop cfg.targetConn newLinks st
        ({ filesFound := versions.length, filesUploaded := filesUploaded,
           filesFailed := filesFailed, linksCreated := linksCreated }, st)

-- ---------------------------------------------------------------------------
-- seeder.ts runSeeder (the pipeline driver)
-- ---------------------------------------------------------------------------

/-- shouldAbort?.() with the probe call counter. -/
def probeAbort (cfg : SeedConfig) (k : Nat) : Bool :=
  match cfg.shouldAbort with
  | some p => p k
  | none => false

/-- Stage 2 loop: returns accumulated results, the next probe index, the
    aborted flag, and the threaded state. -/
def runChildren (cfg : SeedConfig) (coreSourceIds : List String) :
    List ChildObjectConfig → Nat → List ObjectSeedResult → St →
    List ObjectSeedResult × Nat × Bool × St
  | [], k, acc, st => (acc, k, false, st)
  | child :: rest, k, acc, st =>
    if probeAbort cfg k then (acc, k + 1, true, st)
    else
      let (res, st1) := seedRelatedObject cfg child.objectApiName
        child.lookupField coreSourceIds child.externalIdField st
      runChildren cfg coreSourceIds rest (k + 1) (acc ++ [res]) st1

/-- Stage 3 loop, parented off each grandchild's parent child registry. -/
def runGrandchildren (cfg : SeedConfig) :
    List GrandchildObjectConfig → Nat → List ObjectSeedResult → St →
    List ObjectSeedResult × Nat × Bool × St
  | [], k, acc, st => (acc, k, false, st)
  | gc :: rest, k, acc, st =>
    if probeAbort cfg k then (acc, k + 1, true, st)
    else
      let pm := objGetD st.idMaps gc.parentChildObject
      if pm.isEmpty then runGrandchildren cfg rest (k + 1) acc st
      else
        let parentSourceIds := pm.map (·.1)
        let (res, st1) := seedRelatedObject cfg gc.objectApiName gc.lookupField
          parentSourceIds gc.externalIdField st
        runGrandchildren cfg rest (k + 1) (acc ++ [res]) st1

def initSt : St := {}

/-- One optional trailing stage of the driver (Stages 4, 5 and 6 share this
    shape): skipped stages yield none, a probe hit aborts, otherwise the
    stage runs and its result is wrapped in some. -/
def runStageOpt {α : Type} (cfg : SeedConfig) (flag : Bool)
    (run : St → α × St) (k : Nat) (st : St) :
    Option α × Nat × Bool × St :=
  if flag then
    if probeAbort cfg k then (none, k + 1, true, st)
    else
      let (t, st1) := run st
      (some t, k + 1, false, st1)
  else (none, k, false, st)

def runSeeder (cfg : SeedConfig) : SeedResults × St :=
  let st := initSt
  let (coreRes, st) := seedCoreObject cfg st
  let mk := fun (children grandchildren : List ObjectSeedResult)
      (tasks events : Option ObjectSeedResult) (files : Option FileSeedResult)
      (st : St) =>
    ({ coreObject := coreRes, children := children,
       grandchildren := grandchildren, tasks := tasks, events := events,
       files := files, errors := st.errors, dryRun := cfg.dryRun }, st)
  if probeAbort cfg 0 then mk [] [] none none none st
  else if coreRes.inserted == 0 && coreRes.updated == 0 && !cfg.dryRun then
    mk [] [] none none none st
  else
    let coreSourceIds := (objGetD st.idMaps cfg.coreObject.objectApiName).map (·.1)
    let (childResults, k, abortedC, st) :=
      runChildren cfg coreSourceIds cfg.children 1 [] st
    if abortedC then mk childResults [] none none none st
    else
      let grandchildren := (cfg.children.map (·.grandchildren)).flatten
      let (gcResults, k, abortedG, st) := runGrandchildren cfg grandchildren k [] st
      if abortedG then mk childResults gcResults none none none st
      else
        let (tasks, k, abortedT, st) :=
          runStageOpt cfg cfg.includeTasks (seedActivities cfg "Task") k st
        if abortedT then mk childResults gcResults none none none st
        else
          let (events, k, abortedE, st) :=
            runStageOpt cfg cfg.includeEvents (seedActivities cfg "Event") k st
          if abortedE then mk childResults gcResults tasks none none st
          else
            let (files, _, abortedF, st) :=
              runStageOpt cfg cfg.includeFiles (seedFiles cfg) k st
            if abortedF then mk childResults gcResults tasks events none st
            else mk childResults gcResults tasks events files st

-- ---------------------------------------------------------------------------
-- Observations on traces and registries used by the statements below
-- ---------------------------------------------------------------------------

/-- Events that write to the target org or fetch file bodies: bulk create,
    bulk update, bulk upsert, binary download. -/
def isWriteEv : Ev → Bool
  | .createRecs _ _ => true
  | .updateRecs _ _ => true
  | .upsertRecs _ _ _ => true
  | .download _ => true
  | _ => false

/-- A state whose trace holds no write event and whose registry maps are
    all empty: what a dry run must preserve. -/
def dryInv (st : St) : Prop :=
  (∀ e ∈ st.trace, isWriteEv e = false) ∧ (∀ p ∈ st.idMaps, p.2 = [])

/-- The per-object counter law of a dry run away from Stage 1: nothing
    fails, nothing updates, and the written count plus the skipped count
    gives the queried count. -/
def dryCount (r : ObjectSeedResult) : Prop :=
  r.failed = 0 ∧ r.updated = 0 ∧ r.inserted + r.skipped = r.queried

/-- SOQL queries issued against the source org. -/
def isSourceQueryEv : Ev → Bool
  | .query isSource _ => isSource
  | _ => false

/-- The record payload size of a bulk write event (zero otherwise). -/
def writeEvSize : Ev → Nat
  | .createRecs _ recs => recs.length
  | .updateRecs _ recs => recs.length
  | .upsertRecs _ _ recs => recs.length
  | _ => 0

/-- The value-list size of a chunk handed to a per-chunk SOQL builder
    (zero otherwise). -/
def chunkEvSize : Ev → Nat
  | .chunkEv vals => vals.length
  | _ => 0

/-- Every bulk write event carries at most BATCH_SIZE records and every
    chunk handed to a per-chunk SOQL builder at most QUERY_CHUNK_SIZE
    values. -/
def boundedTrace (st : St) : Prop :=
  ∀ e ∈ st.trace, writeEvSize e ≤ BATCH_SIZE ∧ chunkEvSize e ≤ QUERY_CHUNK_SIZE

/-- The registry registrations of a trace, in order. -/
def regSets (tr : List Ev) : List (String × String × String) :=
  tr.filterMap (fun e => match e with
    | .regSet o s t => some (o, s, t)
    | _ => none)

/-- The append-only property of the identity registry over one run: no two
    registrations disagree on the same (object, sourceId) key, and every
    registration survives into the final registry. -/
def registryAppendOnly (tr : List Ev) (final : IdMaps) : Prop :=
  (regSets tr).Pairwise
    (fun a b => a.1 = b.1 → a.2.1 = b.2.1 → a.2.2 = b.2.2) ∧
  ∀ p ∈ regSets tr, mget (objGetD final p.1) p.2.1 = some p.2.2

/-- Whether a string occurs as a targetId anywhere in the registry. -/
def registryHasTarget (ms : IdMaps) (t : String) : Bool :=
  ms.any (fun p => p.2.any (fun q => q.2 = t))

/-- A well-formed polymorphic id field value: absent, null, or truthy. -/
def idFieldOk (rec : Rec) (f : String) : Bool :=
  match getField rec f with
  | none => true
  | some v => v = Value.null || v.truthy

/-- The skip condition of prepareRecord for one field: an in-scope lookup
    with a non-null value, no whole-registry mapping, and a non-nillable
    descriptor. -/
def childRemapSkips (lookupFields : List FieldInfo) (idMaps : IdMaps)
    (rec : Rec) (fname : String) : Bool :=
  match getField rec fname with
  | some v =>
    if v = Value.null then false
    else
      match lookupFields.find? (fun f => f.name = fname) with
      | some lf => (findInAnyIdMapV idMaps (some v)).isNone && !lf.nillable
      | none => false
  | none => false

/-- A well-formed prepared polymorphic id: absent, null, or a targetId
    present somewhere in the registry. -/
def activityIdOut (ms : IdMaps) (out : Option Value) : Prop :=
  out = none ∨ out = some Value.null ∨
  ∃ t, out = some (Value.str t) ∧ registryHasTarget ms t = true

/-- The per-chunk concatenation of queryAll results, starting at trace
    position t0 (each chunk contributes a chunk event and a query event). -/
def chunkedResults (conn : Conn) (builder : List String → String) :
    Nat → List (List String) → List Rec
  | _, [] => []
  | t0, c :: cs =>
    conn.runQuery (t0 + 1) (builder c) ++ chunkedResults conn builder (t0 + 2) cs

/-- The trace suffix produced by a chunked query. -/
def chunkTraceEvents (conn : Conn) (builder : List String → String) :
    List (List String) → List Ev
  | [] => []
  | c :: cs =>
    Ev.chunkEv c :: Ev.query conn.isSource (builder c) ::
    chunkTraceEvents conn builder cs

-- ---------------------------------------------------------------------------
-- Concrete connections and seed plans used by witnesses and counterexamples
-- ---------------------------------------------------------------------------

/-- A connection whose oracles return nothing. -/
def noopConn (s : Bool) : Conn :=
  { isSource := s, fieldsOf := fun _ => [], runQuery := fun _ _ => [],
    runCreate := fun _ _ _ => [], runUpdate := fun _ _ _ => [],
    runUpsert := fun _ _ _ _ => [], runDownload := fun _ _ => none }

/-- Schemas of the upsert back-query scenario: an Account core object and a
    Contact child carrying a lookup and an external id field. -/
def c1Fields (obj : String) : List FieldInfo :=
  if obj = "Account" then
    [{ name := "Name", type := "string", createable := true, nillable := true }]
  else if obj = "Contact" then
    [{ name := "LastName", type := "string", createable := true, nillable := true },
     { name := "AccountId", type := "reference", createable := true, nillable := true,
       referenceTo := ["Account"] },
     { name := "ExtId", type := "string", createable := true, nillable := true,
       externalId := true }]
  else []

def c1Src : Conn :=
  { isSource := true
    fieldsOf := c1Fields
    runQuery := fun _ soql =>
      if soql = "SELECT Name, Id FROM Account LIMIT 1" then
        [[("Name", Value.str "Acme"), ("Id", Value.str "001A")]]
      else if soql =
          "SELECT LastName, AccountId, ExtId, Id FROM Contact WHERE AccountId IN (\x27001A\x27)" then
        [[("LastName", Value.str "Doe"), ("AccountId", Value.str "001A"),
          ("ExtId", Value.str "V1"), ("Id", Value.str "003S")]]
      else []
    runCreate := fun _ _ _ => []
    runUpdate := fun _ _ _ => []
    runUpsert := fun _ _ _ _ => []
    runDownload := fun _ _ => none }

/-- The target org holds two Contact records sharing the external id value
    V1 (the uniqueness assumption the spec flags as an open question
    fails), and the upsert result returns success without an id. -/
def c1Tgt : Conn :=
  { isSource := false
    fieldsOf := c1Fields
    runQuery := fun _ _ =>
      [[("Id", Value.str "T1"), ("ExtId", Value.str "V1")],
       [("Id", Value.str "T2"), ("ExtId", Value.str "V1")]]
    runCreate := fun _ _ recs => recs.map (fun _ => { id := some "001X", success := true })
    runUpdate := fun _ _ _ => []
    runUpsert := fun _ _ _ recs =>
      recs.map (fun _ => { id := none, success := true, created := some false })
    runDownload := fun _ _ => none }

def c1Cfg : SeedConfig :=
  { sourceConn := c1Src, targetConn := c1Tgt,
    coreObject := { objectApiName := "Account" },
    children := [{ objectApiName := "Contact", lookupField := "AccountId",
                   externalIdField := some "ExtId" }],
    recordCount := some 1 }

/-- A connection whose creates always succeed with a fixed id. -/
def c1aConn : Conn :=
  { isSource := false, fieldsOf := fun _ => [],
    runQuery := fun _ _ => [],
    runCreate := fun _ _ recs => recs.map (fun _ => { id := some "NEW1", success := true }),
    runUpdate := fun _ _ _ => [],
    runUpsert := fun _ _ _ _ => [],
    runDownload := fun _ _ => none }

/-- Schemas of the unresolved-dependency scenario: the core Account carries
    a non-nillable lookup to a custom object. -/
def c2Fields (obj : String) : List FieldInfo :=
  if obj = "Account" then
    [{ name := "Name", type := "string", createable := true, nillable := true },
     { name := "Custom__c", type := "reference", createable := true, nillable := false,
       referenceTo := ["CustomObj"] }]
  else if obj = "CustomObj" then
    [{ name := "X", type := "string", createable := true, nillable := true }]
  else []

/-- The referenced CustomObj record does not exist in the source, so the
    dependency pull registers nothing. -/
def c2Src : Conn :=
  { isSource := true
    fieldsOf := c2Fields
    runQuery := fun _ soql =>
      if soql = "SELECT Name, Custom__c, Id FROM Account LIMIT 1" then
        [[("Name", Value.str "A"), ("Custom__c", Value.str "D1"), ("Id", Value.str "001A")]]
      else []
    runCreate := fun _ _ _ => []
    runUpdate := fun _ _ _ => []
    runUpsert := fun _ _ _ _ => []
    runDownload := fun _ _ => none }

def c2Tgt : Conn :=
  { isSource := false
    fieldsOf := c2Fields
    runQuery := fun _ _ => []
    runCreate := fun _ _ recs => recs.map (fun _ => { id := some "001X", success := true })
    runUpdate := fun _ _ _ => []
    runUpsert := fun _ _ _ _ => []
    runDownload := fun _ _ => none }

def c2Cfg : SeedConfig :=
  { sourceConn := c2Src, targetConn := c2Tgt,
    coreObject := { objectApiName := "Account" },
    recordCount := some 1 }

/-- Schemas of the dry-run scenario: Account with a self-reference field
    whose value points outside the queried batch. -/
def c4Fields (obj : String) : List FieldInfo :=
  if obj = "Account" then
    [{ name := "Name", type := "string", createable := true, nillable := true },
     { name := "ParentId", type := "reference", createable := true, nillable := true,
       referenceTo := ["Account"] }]
  else []

def c4Src : Conn :=
  { isSource := true
    fieldsOf := c4Fields
    runQuery := fun _ soql =>
      if soql = "SELECT Name, ParentId, Id FROM Account LIMIT 1" then
        [[("Name", Value.str "A"), ("ParentId", Value.str "001P"), ("Id", Value.str "001A")]]
      else if soql =
          "SELECT Name, ParentId, Id FROM Account WHERE Id IN (\x27001P\x27)" then
        [[("Name", Value.str "P"), ("ParentId", Value.null), ("Id", Value.str "001P")]]
      else []
    runCreate := fun _ _ _ => []
    runUpdate := fun _ _ _ => []
    runUpsert := fun _ _ _ _ => []
    runDownload := fun _ _ => none }

def c4Cfg : SeedConfig :=
  { sourceConn := c4Src, targetConn := { c4Src with isSource := false, runQuery := fun _ _ => [] },
    coreObject := { objectApiName := "Account" },
    recordCount := some 1, dryRun := true }

/-- An abort probe that first fires on its third consultation. -/
def c8Probe : Nat → Bool := fun i => decide (2 ≤ i)

def c8Cfg : SeedConfig :=
  { sourceConn := noopConn true, targetConn := noopConn false,
    coreObject := { objectApiName := "Account" },
    children := [{ objectApiName := "Contact", lookupField := "AccountId" }],
    dryRun := true, shouldAbort := some c8Probe }

/-- A minimal plan over the no-op connections. -/
def c10Cfg : SeedConfig :=
  { sourceConn := noopConn true, targetConn := noopConn false,
    coreObject := { objectApiName := "Widget__c" } }

def c5Cfg : SeedConfig :=
  { sourceConn := noopConn true, targetConn := noopConn false,
    coreObject := { objectApiName := "Account" } }

/-- A small Task-like describe used to exercise the key-provenance laws. -/
def c6SrcF : List FieldInfo :=
  [{ name := "Subject", type := "string", createable := true, nillable := true },
   { name := "WhatId", type := "reference", createable := true,
     nillable := true, referenceTo := ["Account"] },
   { name := "WhoId", type := "reference", createable := true,
     nillable := true, referenceTo := ["Contact"] },
   { name := "Id", type := "id", createable := false, nillable := false },
   { name := "Address__c", type := "address", createable := true,
     nillable := true }]

def c6TgtF : List FieldInfo := c6SrcF

def c6Rec : Rec :=
  [("Subject", Value.str "Call"), ("Id", Value.str "00T1"),
   ("Address__c", Value.str "x")]

-- ---------------------------------------------------------------------------
-- Basic lemmas on the JavaScript Map and Set models
-- ---------------------------------------------------------------------------

theorem mem_setAdd {l : List String} {x y : String} :
    x ∈ setAdd l y ↔ x ∈ l ∨ x = y := by
  unfold setAdd
  split
  · rename_i h
    constructor
    · exact fun hx => Or.inl hx
    · rintro (hx | rfl)
      · exact hx
      · exact h
  · simp [List.mem_append]

theorem mget_cons {a b : String} {t : IdMap} {k : String} :
    mget ((a, b) :: t) k = if a = k then some b else mget t k := by
  by_cases h : a = k
  · simp [mget, List.find?_cons_of_pos, h]
  · rw [if_neg h]
    unfold mget
    rw [List.find?_cons_of_neg _ (by simpa using h)]

theorem mhas_cons {a b : String} {t : IdMap} {k : String} :
    mhas ((a, b) :: t) k = (decide (a = k) || mhas t k) := by
  simp [mhas]

theorem mget_eq_none_of_not_mhas {m : IdMap} {k : String}
    (h : mhas m k = false) : mget m k = none := by
  induction m with
  | nil => rfl
  | cons a t ih =>
    obtain ⟨a1, a2⟩ := a
    rw [mhas_cons] at h
    rcases Bool.or_eq_false_iff.mp h with ⟨h1, h2⟩
    rw [mget_cons, if_neg (by simpa using h1)]
    exact ih h2

theorem mget_map_replace {t : IdMap} {k v k' : String} :
    mget (t.map (fun p => if p.1 = k then (k, v) else p)) k' =
    if k' = k then (if mhas t k then some v else none) else mget t k' := by
  induction t with
  | nil => by_cases hk : k' = k <;> simp [mget, mhas, hk]
  | cons a t ih =>
    obtain ⟨a1, a2⟩ := a
    by_cases hak : a1 = k
    · simp only [List.map_cons, if_pos (show (a1, a2).1 = k from hak)]
      rw [mget_cons]
      by_cases hk : k' = k
      · rw [if_pos (hk ▸ rfl : k = k'), if_pos hk, if_pos]
        rw [mhas_cons]
        simp [hak]
      · rw [if_neg (show ¬ k = k' from fun hkk => hk hkk.symm), if_neg hk, ih,
          if_neg hk, mget_cons,
          if_neg (show ¬ a1 = k' from fun h1 => hk (h1.symm.trans hak))]
    · simp only [List.map_cons, if_neg (show ¬ (a1, a2).1 = k from hak)]
      rw [mget_cons]
      by_cases hak' : a1 = k'
      · have hk : ¬ k' = k := fun hkk => hak (by rw [hak', hkk])
        rw [if_pos hak', if_neg hk, mget_cons, if_pos hak']
      · rw [if_neg hak', ih, mhas_cons, decide_eq_false hak]
        by_cases hk : k' = k
        · simp [hk]
        · rw [if_neg hk, if_neg hk, mget_cons, if_neg hak']

theorem mget_append_single {t : IdMap} {k v k' : String} :
    mget (t ++ [(k, v)]) k' =
    match mget t k' with
    | some x => some x
    | none => if k' = k then some v else none := by
  induction t with
  | nil =>
    by_cases hk : k' = k
    · simp [mget, List.find?, hk]
    · rw [show mget ([] : IdMap) k' = none from rfl]
      simp only [List.nil_append]
      rw [mget_cons, if_neg (fun h => hk h.symm), if_neg hk]
      rfl
  | cons a t ih =>
    obtain ⟨a1, a2⟩ := a
    rw [List.cons_append, mget_cons, mget_cons]
    by_cases hak : a1 = k'
    · simp [hak]
    · rw [if_neg hak, if_neg hak, ih]

/-- The complete lookup law of Map.set. -/
theorem mget_mset {m : IdMap} {k v k' : String} :
    mget (mset m k v) k' = if k' = k then some v else mget m k' := by
  unfold mset
  split
  · rename_i h
    rw [mget_map_replace]
    by_cases hk : k' = k <;> simp [hk, h]
  · rename_i h
    rw [mget_append_single]
    by_cases hk : k' = k
    · subst hk
      rw [mget_eq_none_of_not_mhas (Bool.not_eq_true _ ▸ h), if_pos rfl]
    · cases hm : mget m k' <;> simp [hk, hm]

theorem mget_mset_self {m : IdMap} {k v : String} :
    mget (mset m k v) k = some v := by
  rw [mget_mset, if_pos rfl]

theorem mget_mset_ne {m : IdMap} {k k' v : String} (h : k' ≠ k) :
    mget (mset m k v) k' = mget m k' := by
  rw [mget_mset, if_neg h]

-- ---------------------------------------------------------------------------
-- C3: the classifier follows the ordered specification rules
-- ---------------------------------------------------------------------------

theorem categorizeStep_eligible {core : String} {acc : RefFieldCategories}
    {f : FieldInfo} (hc : f.createable = true) (ht : f.type = "reference")
    (hne : f.referenceTo ≠ []) :
    categorizeStep core acc f =
      match specClassify core f with
      | .selfRef => { acc with selfRefFields := setAdd acc.selfRefFields f.name }
      | .system => { acc with systemFields := setAdd acc.systemFields f.name }
      | .dep t => { acc with dependencyFields := mset acc.dependencyFields f.name t } := by
  have hguard : (!f.createable || f.referenceTo.isEmpty || f.type != "reference") = false := by
    simp [hc, ht, hne]
  simp only [categorizeStep, specClassify, hguard, Bool.false_eq_true, if_false]
  by_cases hA : f.referenceTo = [core]
  · simp [hA]
  · simp only [if_neg hA]
    by_cases hAll : ∀ r ∈ f.referenceTo, r ∈ SYSTEM_LOOKUP_OBJECTS
    · have h1 : ((f.referenceTo.filter (fun r => !SYSTEM_LOOKUP_OBJECTS.contains r)).isEmpty) = true := by
        rw [List.isEmpty_iff, List.filter_eq_nil_iff]
        intro a ha
        simpa using hAll a ha
      have h2 : (f.referenceTo.all fun r => SYSTEM_LOOKUP_OBJECTS.contains r) = true := by
        rw [List.all_eq_true]
        intro a ha
        simpa using hAll a ha
      rw [if_pos h1, if_pos h2]
    · by_cases hSelf : core ∈ f.referenceTo
      · simp [hAll, hSelf, hc, ht, hne]
      · by_cases hLen :
          (f.referenceTo.filter (fun r => !decide (r ∈ SYSTEM_LOOKUP_OBJECTS))).length = 1
        · simp [hAll, hSelf, hLen, hc, ht, hne]
        · simp [hAll, hSelf, hLen, hc, ht, hne]

theorem categorizeStep_ineligible {core : String} {acc : RefFieldCategories}
    {f : FieldInfo}
    (h : ¬(f.createable = true ∧ f.type = "reference" ∧ f.referenceTo ≠ [])) :
    categorizeStep core acc f = acc := by
  have hguard : (!f.createable || f.referenceTo.isEmpty || f.type != "reference") = true := by
    rcases not_and_or.mp h with h1 | h1
    · have hb : f.createable = false := by
        cases hb : f.createable
        · rfl
        · exact absurd hb h1
      simp [hb]
    · rcases not_and_or.mp h1 with h2 | h2
      · simp [bne_iff_ne, h2]
      · simp [not_not.mp h2]
  unfold categorizeStep
  rw [if_pos hguard]

theorem categorizeStep_name_ne {core x : String} {acc : RefFieldCategories}
    {g : FieldInfo} (h : g.name ≠ x) :
    (x ∈ (categorizeStep core acc g).systemFields ↔ x ∈ acc.systemFields) ∧
    (x ∈ (categorizeStep core acc g).selfRefFields ↔ x ∈ acc.selfRefFields) ∧
    mget (categorizeStep core acc g).dependencyFields x =
      mget acc.dependencyFields x := by
  have hx : x ≠ g.name := Ne.symm h
  by_cases helig : g.createable = true ∧ g.type = "reference" ∧ g.referenceTo ≠ []
  · obtain ⟨h1, h2, h3⟩ := helig
    rw [categorizeStep_eligible h1 h2 h3]
    cases specClassify core g with
    | system => exact ⟨by simp [mem_setAdd, hx], Iff.rfl, rfl⟩
    | selfRef => exact ⟨Iff.rfl, by simp [mem_setAdd, hx], rfl⟩
    | dep t => exact ⟨Iff.rfl, Iff.rfl, mget_mset_ne hx⟩
  · rw [categorizeStep_ineligible helig]
    exact ⟨Iff.rfl, Iff.rfl, rfl⟩

theorem categorizeFold_name_ne {core x : String} (l : List FieldInfo)
    (acc : RefFieldCategories) (h : ∀ g ∈ l, g.name ≠ x) :
    (x ∈ (l.foldl (categorizeStep core) acc).systemFields ↔ x ∈ acc.systemFields) ∧
    (x ∈ (l.foldl (categorizeStep core) acc).selfRefFields ↔ x ∈ acc.selfRefFields) ∧
    mget (l.foldl (categorizeStep core) acc).dependencyFields x =
      mget acc.dependencyFields x := by
  induction l generalizing acc with
  | nil => exact ⟨Iff.rfl, Iff.rfl, rfl⟩
  | cons g t ih =>
    have h1 := @categorizeStep_name_ne core x acc g (h g (List.mem_cons_self g t))
    have h2 := ih (categorizeStep core acc g)
      (fun g' hg' => h g' (List.mem_cons_of_mem _ hg'))
    simp only [List.foldl_cons]
    exact ⟨h2.1.trans h1.1, h2.2.1.trans h1.2.1, h2.2.2.trans h1.2.2⟩

/-- C3: for every createable reference field of the root object (reference
    fields carry at least one target in org metadata), the classifier
    assigns exactly one bucket, and it is the bucket given by the spec's
    ordered rules: [root] alone is SelfReference; all-system targets is
    SystemReference; a polymorphic list containing the root is
    SelfReference; exactly one non-system target is a DataDependency on
    that target; anything else is SystemReference. -/
theorem c3_categorize_follows_spec
    (fields : List FieldInfo) (core : String) (f : FieldInfo)
    (hnd : (fields.map (·.name)).Nodup) (hf : f ∈ fields)
    (hc : f.createable = true) (ht : f.type = "reference")
    (hne : f.referenceTo ≠ []) :
    (f.name ∈ (categorizeReferenceFields fields core).systemFields ↔
       specClassify core f = RefBucket.system) ∧
    (f.name ∈ (categorizeReferenceFields fields core).selfRefFields ↔
       specClassify core f = RefBucket.selfRef) ∧
    (∀ t, mget (categorizeReferenceFields fields core).dependencyFields f.name = some t ↔
       specClassify core f = RefBucket.dep t) := by
  obtain ⟨l₁, l₂, rfl⟩ := List.append_of_mem hf
  have hmap : (l₁.map (·.name) ++ f.name :: l₂.map (·.name)).Nodup := by
    simpa using hnd
  have hd := (List.nodup_append.mp hmap).2.2
  have hnotin1 : f.name ∉ l₁.map (·.name) :=
    fun hmem => hd hmem (List.mem_cons_self _ _)
  have hnotin2 : f.name ∉ l₂.map (·.name) :=
    (List.nodup_cons.mp (List.nodup_append.mp hmap).2.1).1
  have hn1 : ∀ g ∈ l₁, g.name ≠ f.name :=
    fun g hg he => hnotin1 (he ▸ List.mem_map_of_mem _ hg)
  have hn2 : ∀ g ∈ l₂, g.name ≠ f.name :=
    fun g hg he => hnotin2 (he ▸ List.mem_map_of_mem _ hg)
  unfold categorizeReferenceFields
  rw [List.foldl_append, List.foldl_cons]
  set A0 := l₁.foldl (categorizeStep core) (⟨[], [], []⟩ : RefFieldCategories)
    with hA0
  have base := @categorizeFold_name_ne core f.name l₁
    (⟨[], [], []⟩ : RefFieldCategories) hn1
  have b1 : f.name ∉ A0.systemFields :=
    fun hmem => by simpa using base.1.mp (hA0 ▸ hmem)
  have b2 : f.name ∉ A0.selfRefFields :=
    fun hmem => by simpa using base.2.1.mp (hA0 ▸ hmem)
  have b3 : mget A0.dependencyFields f.name = none := by
    rw [hA0]
    simpa using base.2.2
  cases hspec : specClassify core f with
  | system =>
    have hstep : categorizeStep core A0 f =
        { A0 with systemFields := setAdd A0.systemFields f.name } := by
      rw [categorizeStep_eligible hc ht hne, hspec]
    rw [hstep]
    have final := @categorizeFold_name_ne core f.name l₂
      { A0 with systemFields := setAdd A0.systemFields f.name } hn2
    refine ⟨⟨fun _ => rfl, fun _ => final.1.mpr (mem_setAdd.mpr (Or.inr rfl))⟩,
      ⟨fun hmem => absurd (final.2.1.mp hmem) b2, fun hco => nomatch hco⟩,
      fun t => ⟨fun hmg => ?_, fun hco => nomatch hco⟩⟩
    rw [final.2.2] at hmg
    exact nomatch b3 ▸ hmg
  | selfRef =>
    have hstep : categorizeStep core A0 f =
        { A0 with selfRefFields := setAdd A0.selfRefFields f.name } := by
      rw [categorizeStep_eligible hc ht hne, hspec]
    rw [hstep]
    have final := @categorizeFold_name_ne core f.name l₂
      { A0 with selfRefFields := setAdd A0.selfRefFields f.name } hn2
    refine ⟨⟨fun hmem => absurd (final.1.mp hmem) b1, fun hco => nomatch hco⟩,
      ⟨fun _ => rfl, fun _ => final.2.1.mpr (mem_setAdd.mpr (Or.inr rfl))⟩,
      fun t => ⟨fun hmg => ?_, fun hco => nomatch hco⟩⟩
    rw [final.2.2] at hmg
    exact nomatch b3 ▸ hmg
  | dep t0 =>
    have hstep : categorizeStep core A0 f =
        { A0 with dependencyFields := mset A0.dependencyFields f.name t0 } := by
      rw [categorizeStep_eligible hc ht hne, hspec]
    rw [hstep]
    have final := @categorizeFold_name_ne core f.name l₂
      { A0 with dependencyFields := mset A0.dependencyFields f.name t0 } hn2
    refine ⟨⟨fun hmem => absurd (final.1.mp hmem) b1, fun hco => nomatch hco⟩,
      ⟨fun hmem => absurd (final.2.1.mp hmem) b2, fun hco => nomatch hco⟩,
      fun t => ⟨fun hmg => ?_, fun hsp => ?_⟩⟩
    · rw [final.2.2] at hmg
      have : mget (mset A0.dependencyFields f.name t0) f.name = some t0 :=
        mget_mset_self
      rw [this] at hmg
      cases hmg
      rfl
    · cases hsp
      rw [final.2.2]
      exact mget_mset_self

/-- Witness for c3_categorize_follows_spec at a concrete polymorphic field
    with one non-system target. -/
theorem c3_categorize_follows_spec_witness :
    mget (categorizeReferenceFields
      [{ name := "OwnerId", type := "reference", createable := true,
         nillable := false, referenceTo := ["User", "Group"] },
       { name := "WidgetId", type := "reference", createable := true,
         nillable := true, referenceTo := ["Widget__c"] }] "Account").dependencyFields
      "WidgetId" = some "Widget__c" := by
  have h := c3_categorize_follows_spec
    [{ name := "OwnerId", type := "reference", createable := true,
       nillable := false, referenceTo := ["User", "Group"] },
     { name := "WidgetId", type := "reference", createable := true,
       nillable := true, referenceTo := ["Widget__c"] }] "Account"
    { name := "WidgetId", type := "reference", createable := true,
      nillable := true, referenceTo := ["Widget__c"] }
    (by decide) (by simp) rfl rfl (by decide)
  exact (h.2.2 "Widget__c").mpr (by decide)

-- ---------------------------------------------------------------------------
-- C1: the registry is not append-only; what batchInsert does preserve
-- ---------------------------------------------------------------------------

/-- C1 counterexample: in a run whose child is upserted by external id, the
    back-query matches two target records sharing one external id value and
    registers the same (Contact, 003S) key first as T1 and then as T2, so
    the registry of this runSeeder invocation is not append-only. -/
theorem c1_counter_registry_overwritten :
    ¬ registryAppendOnly (runSeeder c1Cfg).2.trace (runSeeder c1Cfg).2.idMaps := by
  intro h
  obtain ⟨hpw, _⟩ := h
  have hsets : regSets (runSeeder c1Cfg).2.trace =
      [("Account", "001A", "001X"), ("Contact", "003S", "T1"),
       ("Contact", "003S", "T2")] := by decide
  rw [hsets] at hpw
  have hrel := (List.pairwise_cons.mp (List.pairwise_cons.mp hpw).2).1
    ("Contact", "003S", "T2") (List.mem_singleton.mpr rfl) rfl rfl
  exact absurd hrel (by decide)

theorem objGet_cons {a1 : String} {a2 : IdMap} {t : IdMaps} {k : String} :
    objGet ((a1, a2) :: t) k = if a1 = k then some a2 else objGet t k := by
  by_cases h : a1 = k
  · simp [objGet, List.find?_cons_of_pos, h]
  · rw [if_neg h]
    unfold objGet
    rw [List.find?_cons_of_neg _ (by simpa using h)]

theorem objGet_updObj {ms : IdMaps} {k o : String} {f : IdMap → IdMap} :
    objGet (updObj ms k f) o =
    (objGet ms o).map (fun m => if o = k then f m else m) := by
  induction ms with
  | nil => rfl
  | cons a t ih =>
    obtain ⟨a1, a2⟩ := a
    have hcons : updObj ((a1, a2) :: t) k f =
        (if a1 = k then (k, f a2) else (a1, a2)) :: updObj t k f := by
      simp [updObj]
    rw [hcons]
    by_cases hak : a1 = k
    · subst hak
      rw [if_pos rfl, objGet_cons, objGet_cons]
      by_cases hko : a1 = o
      · subst hko
        simp
      · rw [if_neg hko, if_neg hko, ih]
    · rw [if_neg hak, objGet_cons, objGet_cons]
      by_cases hao : a1 = o
      · subst hao
        rw [if_pos rfl, if_pos rfl]
        simp [hak]
      · rw [if_neg hao, if_neg hao, ih]

theorem mget_objGetD_updObj_mset_ne {ms : IdMaps} {k sid tid o s : String}
    (hne : s ≠ sid) :
    mget (objGetD (updObj ms k (fun m => mset m sid tid)) o) s =
    mget (objGetD ms o) s := by
  unfold objGetD
  rw [objGet_updObj]
  cases h : objGet ms o with
  | none => rfl
  | some m =>
    simp only [Option.map_some', Option.getD_some]
    by_cases ho : o = k
    · rw [if_pos ho, mget_mset_ne hne]
    · rw [if_neg ho]

theorem processInsertResults_preserves {objectApiName key : String}
    (results : List InsertResult) (sids : List String) (st : St)
    {o s t : String} (hs : s ∉ sids) (hu : s ≠ "undefined")
    (hmem : mget (objGetD st.idMaps o) s = some t) :
    mget (objGetD (processInsertResults objectApiName key results sids st).2.idMaps o) s =
      some t := by
  induction results generalizing sids st with
  | nil => exact hmem
  | cons r rs ih =>
    have hsid : s ≠ sids.headD "undefined" := by
      cases sids with
      | nil => simpa using hu
      | cons a as => exact fun he => hs (he ▸ List.mem_cons_self a as)
    have hs' : s ∉ sids.drop 1 := fun hmem2 => hs (List.mem_of_mem_drop hmem2)
    unfold processInsertResults
    split
    · rcases hrec : processInsertResults objectApiName key rs (sids.drop 1)
        (regSetSt st key (sids.headD "undefined") (r.id.getD "")) with ⟨⟨i, fl⟩, st2⟩
      simp only [hrec]
      have := ih (sids.drop 1)
        (regSetSt st key (sids.headD "undefined") (r.id.getD "")) hs'
        (by
          show mget (objGetD (updObj st.idMaps key
            (fun m => mset m (sids.headD "undefined") (r.id.getD ""))) o) s = some t
          rw [mget_objGetD_updObj_mset_ne hsid]
          exact hmem)
      rw [hrec] at this
      exact this
    · rcases hrec : processInsertResults objectApiName key rs (sids.drop 1)
        (pushError st
          { object := objectApiName, sourceId := some (sids.headD "undefined"),
            stage := "insert", error := formatErrors r.errors }) with ⟨⟨i, fl⟩, st2⟩
      simp only [hrec]
      have := ih (sids.drop 1)
        (pushError st
          { object := objectApiName, sourceId := some (sids.headD "undefined"),
            stage := "insert", error := formatErrors r.errors }) hs' hmem
      rw [hrec] at this
      exact this

theorem batchInsertLoopGo_preserves (conn : Conn) (obj key : String) :
    ∀ (fuel : Nat) (records : List Rec) (sourceIds : List String) (st : St)
      (o s t : String), s ∉ sourceIds → s ≠ "undefined" →
      mget (objGetD st.idMaps o) s = some t →
      mget (objGetD (batchInsertLoopGo conn obj key fuel records sourceIds st).2.idMaps o) s =
        some t := by
  intro fuel
  induction fuel with
  | zero =>
    intro records sourceIds st o s t hs hu hmem
    cases records with
    | nil => exact hmem
    | cons r rs => exact hmem
  | succ fuel ihn =>
    intro records sourceIds st o s t hs hu hmem
    cases records with
    | nil => exact hmem
    | cons r rs =>
      unfold batchInsertLoopGo
      have hstake : s ∉ sourceIds.take BATCH_SIZE :=
        fun hmem2 => hs (List.mem_of_mem_take hmem2)
      have hsdrop : s ∉ sourceIds.drop BATCH_SIZE :=
        fun hmem2 => hs (List.mem_of_mem_drop hmem2)
      have h1 := @processInsertResults_preserves obj key
        (conn.runCreate st.trace.length obj ((r :: rs).take BATCH_SIZE))
        (sourceIds.take BATCH_SIZE)
        (emit st (Ev.createRecs obj ((r :: rs).take BATCH_SIZE)))
        o s t hstake hu hmem
      rcases hrec1 : processInsertResults obj key
        (conn.runCreate st.trace.length obj ((r :: rs).take BATCH_SIZE))
        (sourceIds.take BATCH_SIZE)
        (emit st (.createRecs obj ((r :: rs).take BATCH_SIZE))) with ⟨⟨i1, f1⟩, st2⟩
      rw [hrec1] at h1
      have h2 := ihn ((r :: rs).drop BATCH_SIZE) (sourceIds.drop BATCH_SIZE)
        st2 o s t hsdrop hu h1
      rcases hrec2 : batchInsertLoopGo conn obj key fuel ((r :: rs).drop BATCH_SIZE)
        (sourceIds.drop BATCH_SIZE) st2 with ⟨⟨i2, f2⟩, st3⟩
      rw [hrec2] at h2
      simp only [hrec1, hrec2]
      exact h2

/-- C1 amended: append-only fails in general — the upsert back-query
    re-registers a source id once per matching target record, so duplicate
    external id values in the target overwrite an earlier targetId (and the
    same happens when one source record is written twice). What does hold:
    a batchInsert call never removes or rewrites any registry entry whose
    source id is not among the ids of that call, across every object map. -/
theorem c1_amended_batchInsert_preserves
    (conn : Conn) (objectApiName : String) (records : List Rec)
    (sourceIds : List String) (key : String) (dryRun : Bool) (st : St)
    (o s t : String) (hs : s ∉ sourceIds) (hu : s ≠ "undefined")
    (hmem : mget (objGetD st.idMaps o) s = some t) :
    mget (objGetD (batchInsert conn objectApiName records sourceIds key dryRun st).2.idMaps o) s =
      some t := by
  unfold batchInsert
  split
  · exact hmem
  · exact batchInsertLoopGo_preserves conn objectApiName key records.length records
      sourceIds st o s t hs hu hmem

/-- Witness: a concrete batchInsert that registers a fresh id leaves the
    previously registered Account entry untouched. -/
theorem c1_amended_batchInsert_preserves_witness :
    mget (objGetD (batchInsert c1aConn "Account" [[("Name", Value.str "B")]]
      ["001B"] "Account" false
      { trace := [], idMaps := [("Account", [("001A", "001X")])], errors := [] }).2.idMaps
      "Account") "001A" = some "001X" := by
  exact c1_amended_batchInsert_preserves c1aConn "Account" [[("Name", Value.str "B")]]
    ["001B"] "Account" false
    { trace := [], idMaps := [("Account", [("001A", "001X")])], errors := [] }
    "Account" "001A" "001X" (by decide) (by decide) (by decide)

-- ---------------------------------------------------------------------------
-- C4 counterexample: a dry run can report inserted greater than queried
-- ---------------------------------------------------------------------------

/-- C4 counterexample: in a dry run whose single queried Account references
    an out-of-batch parent, the pulled-in parent is counted, so the core
    result reports inserted = 2 while queried = 1, refuting
    inserted = queried. -/
theorem c4_counter_dry_run_inserted_ne_queried :
    c4Cfg.dryRun = true ∧
    (runSeeder c4Cfg).1.coreObject.queried = 1 ∧
    (runSeeder c4Cfg).1.coreObject.inserted = 2 := by
  refine ⟨rfl, ?_, ?_⟩ <;> decide

-- ---------------------------------------------------------------------------
-- C2: required-reference skip is a child-tier rule; Stage 1 omits instead
-- ---------------------------------------------------------------------------

/-- C2 counterexample: the core record has a non-null value in the
    non-nillable data-dependency field Custom__c, its referent has no
    registry entry (the dependency pull found no records), and yet the run
    pushes no remap error, reports skipped = 0, and writes the record (with
    the field omitted) anyway. -/
theorem c2_counter_core_dependency_not_skipped :
    (categorizeReferenceFields (c2Fields "Account") "Account").dependencyFields =
      [("Custom__c", "CustomObj")] ∧
    (runSeeder c2Cfg).1.coreObject =
      { objectApiName := "Account", queried := 1, inserted := 1, updated := 0,
        failed := 0, skipped := 0 } ∧
    (runSeeder c2Cfg).1.errors = [] ∧
    (runSeeder c2Cfg).2.idMaps = [("Account", [("001A", "001X")])] ∧
    (runSeeder c2Cfg).2.trace.filter isWriteEv =
      [.createRecs "Account" [[("Name", Value.str "A")]]] := by
  refine ⟨?_, ?_, ?_, ?_, ?_⟩ <;> decide

theorem prepareRecordLoop_offending (c : PrepCtx) :
    ∀ (L : List String) (acc : Rec),
      (∃ f ∈ L, childRemapSkips c.lookupFields c.idMaps c.record f = true) →
      (prepareRecordLoop c L acc).1 = none ∧
      ∃ f v, getField c.record f = some v ∧
        (prepareRecordLoop c L acc).2 = [remapError c.objectApiName c.record f v] := by
  intro L
  induction L with
  | nil =>
    rintro acc ⟨f, hf, _⟩
    exact absurd hf (List.not_mem_nil f)
  | cons x xs ih =>
    intro acc hoff
    cases hval : getField c.record x with
    | none =>
      have hoff' : ∃ f ∈ xs, childRemapSkips c.lookupFields c.idMaps c.record f = true := by
        rcases hoff with ⟨f, hf, hskip⟩
        rcases List.mem_cons.mp hf with rfl | hf'
        · simp only [childRemapSkips, hval] at hskip
          exact absurd hskip (by decide)
        · exact ⟨f, hf', hskip⟩
      have := ih acc hoff'
      simpa only [prepareRecordLoop, hval] using this
    | some v =>
      cases hlf : c.lookupFields.find? (fun f => f.name = x) with
      | none =>
        have hoff' : ∃ f ∈ xs, childRemapSkips c.lookupFields c.idMaps c.record f = true := by
          rcases hoff with ⟨f, hf, hskip⟩
          rcases List.mem_cons.mp hf with rfl | hf'
          · simp only [childRemapSkips, hval, hlf] at hskip
            split at hskip
            · exact absurd hskip (by simp)
            · exact absurd hskip (by simp)
          · exact ⟨f, hf', hskip⟩
        simp only [prepareRecordLoop, hval, hlf]
        split
        · exact ih acc hoff'
        · exact ih (recSet acc x v) hoff'
      | some lf =>
        by_cases hvn : v = Value.null
        · have hoff' : ∃ f ∈ xs, childRemapSkips c.lookupFields c.idMaps c.record f = true := by
            rcases hoff with ⟨f, hf, hskip⟩
            rcases List.mem_cons.mp hf with rfl | hf'
            · simp only [childRemapSkips, hval] at hskip
              simp [hvn] at hskip
            · exact ⟨f, hf', hskip⟩
          simp only [prepareRecordLoop, hval, hlf]
          rw [if_neg (by simpa using hvn)]
          exact ih (recSet acc x Value.null) hoff'
        · cases hfind : findInAnyIdMapV c.idMaps (some v) with
          | some tid =>
            have hoff' : ∃ f ∈ xs, childRemapSkips c.lookupFields c.idMaps c.record f = true := by
              rcases hoff with ⟨f, hf, hskip⟩
              rcases List.mem_cons.mp hf with rfl | hf'
              · simp only [childRemapSkips, hval, hlf, hfind] at hskip
                simp [hvn] at hskip
              · exact ⟨f, hf', hskip⟩
            simp only [prepareRecordLoop, hval, hlf]
            rw [if_pos (by simpa using hvn), hfind]
            exact ih (recSet acc x (Value.str tid)) hoff'
          | none =>
            by_cases hnil : lf.nillable = true
            · have hoff' : ∃ f ∈ xs, childRemapSkips c.lookupFields c.idMaps c.record f = true := by
                rcases hoff with ⟨f, hf, hskip⟩
                rcases List.mem_cons.mp hf with rfl | hf'
                · simp only [childRemapSkips, hval, hlf, hfind] at hskip
                  simp [hvn, hnil] at hskip
                · exact ⟨f, hf', hskip⟩
              simp only [prepareRecordLoop, hval, hlf]
              rw [if_pos (by simpa using hvn), hfind, if_pos hnil]
              exact ih (recSet acc x Value.null) hoff'
            · simp only [prepareRecordLoop, hval, hlf]
              rw [if_pos (by simpa using hvn), hfind,
                if_neg (by simpa using hnil)]
              exact ⟨rfl, x, v, hval, rfl⟩

theorem childPrep_spec (insertableFields : List String)
    (lookupFields allReferenceFields : List FieldInfo) (idMaps : IdMaps)
    (objectApiName : String) (recs : List Rec) :
    (childPrep insertableFields lookupFields allReferenceFields idMaps
        objectApiName recs).1 =
      recs.filterMap (fun r => (prepareRecord r insertableFields lookupFields
        allReferenceFields idMaps objectApiName).1) ∧
    (childPrep insertableFields lookupFields allReferenceFields idMaps
        objectApiName recs).2.2.1 =
      (recs.filter (fun r => ((prepareRecord r insertableFields lookupFields
        allReferenceFields idMaps objectApiName).1).isNone)).length := by
  induction recs with
  | nil => exact ⟨rfl, rfl⟩
  | cons rec rest ih =>
    rcases hpr : prepareRecord rec insertableFields lookupFields
      allReferenceFields idMaps objectApiName with ⟨p, errs⟩
    rcases hrest : childPrep insertableFields lookupFields allReferenceFields
      idMaps objectApiName rest with ⟨ps, sids, sk, errsRest⟩
    rw [hrest] at ih
    have ih1 : ps = rest.filterMap (fun r => (prepareRecord r insertableFields
      lookupFields allReferenceFields idMaps objectApiName).1) := ih.1
    have ih2 : sk = (rest.filter (fun r => ((prepareRecord r insertableFields
      lookupFields allReferenceFields idMaps objectApiName).1).isNone)).length := ih.2
    cases p with
    | none =>
      simp only [childPrep, hpr, hrest, List.filterMap_cons, List.filter_cons]
      constructor
      · exact ih1
      · simp [ih2]
    | some pr =>
      simp only [childPrep, hpr, hrest, List.filterMap_cons, List.filter_cons]
      constructor
      · rw [ih1]
      · simp [ih2]

/-- C2 amended: the required-reference skip rule holds at the child and
    grandchild tiers, which are the tiers that prepare through
    prepareRecord: when some insertable field is an in-scope lookup with a
    non-null value, no whole-registry mapping and a non-nillable
    descriptor, prepareRecord returns the record as skipped and pushes
    exactly one error, whose stage is remap and which carries the object
    name and the record's source id; the driver writes exactly the
    non-skipped records and counts the skipped ones, each record prepared
    independently of the others. Stage 1 is the exception the
    counterexample exhibits: its data-dependency preparation omits or nulls
    an unresolved field and still writes the record. -/
theorem c2_amended_required_reference_skip
    (rec : Rec) (insertableFields : List String)
    (lookupFields allReferenceFields : List FieldInfo) (idMaps : IdMaps)
    (objectApiName : String) (recs : List Rec)
    (hoff : ∃ f ∈ jsDedup insertableFields,
      childRemapSkips lookupFields idMaps rec f = true) :
    (prepareRecord rec insertableFields lookupFields allReferenceFields
        idMaps objectApiName).1 = none ∧
    (∃ f v, getField rec f = some v ∧
      (prepareRecord rec insertableFields lookupFields allReferenceFields
          idMaps objectApiName).2 = [remapError objectApiName rec f v]) ∧
    (∀ f v, (remapError objectApiName rec f v).stage = "remap" ∧
      (remapError objectApiName rec f v).object = objectApiName ∧
      (remapError objectApiName rec f v).sourceId = recIdOpt rec) ∧
    (childPrep insertableFields lookupFields allReferenceFields idMaps
        objectApiName recs).1 =
      recs.filterMap (fun r => (prepareRecord r insertableFields lookupFields
        allReferenceFields idMaps objectApiName).1) ∧
    (childPrep insertableFields lookupFields allReferenceFields idMaps
        objectApiName recs).2.2.1 =
      (recs.filter (fun r => ((prepareRecord r insertableFields lookupFields
        allReferenceFields idMaps objectApiName).1).isNone)).length := by
  have hmain := prepareRecordLoop_offending
    { record := rec, lookupFields := lookupFields,
      allRefNames := allReferenceFields.map (·.name),
      inScopeNames := lookupFields.map (·.name),
      idMaps := idMaps, objectApiName := objectApiName }
    (jsDedup insertableFields) [] hoff
  have hdrv := childPrep_spec insertableFields lookupFields allReferenceFields
    idMaps objectApiName recs
  exact ⟨hmain.1, hmain.2, fun f v => ⟨rfl, rfl, rfl⟩, hdrv.1, hdrv.2⟩

/-- Witness: a Contact whose non-nillable AccountId points at an unmapped
    source id is skipped by prepareRecord with a single remap error. -/
theorem c2_amended_required_reference_skip_witness :
    (prepareRecord [("Id", Value.str "003C"), ("AccountId", Value.str "001Z")]
        ["AccountId"]
        [{ name := "AccountId", type := "reference", createable := true,
           nillable := false, referenceTo := ["Account"] }]
        [{ name := "AccountId", type := "reference", createable := true,
           nillable := false, referenceTo := ["Account"] }]
        [] "Contact").1 = none ∧
    (∃ f v, getField [("Id", Value.str "003C"), ("AccountId", Value.str "001Z")] f = some v ∧
      (prepareRecord [("Id", Value.str "003C"), ("AccountId", Value.str "001Z")]
          ["AccountId"]
          [{ name := "AccountId", type := "reference", createable := true,
             nillable := false, referenceTo := ["Account"] }]
          [{ name := "AccountId", type := "reference", createable := true,
             nillable := false, referenceTo := ["Account"] }]
          [] "Contact").2 =
        [remapError "Contact" [("Id", Value.str "003C"), ("AccountId", Value.str "001Z")] f v]) := by
  have h := c2_amended_required_reference_skip
    [("Id", Value.str "003C"), ("AccountId", Value.str "001Z")]
    ["AccountId"]
    [{ name := "AccountId", type := "reference", createable := true,
       nillable := false, referenceTo := ["Account"] }]
    [{ name := "AccountId", type := "reference", createable := true,
       nillable := false, referenceTo := ["Account"] }]
    [] "Contact" []
    ⟨"AccountId", by decide, by decide⟩
  exact ⟨h.1, h.2.1⟩

-- ---------------------------------------------------------------------------
-- Chunked-query lemmas (C10)
-- ---------------------------------------------------------------------------

theorem chunksOfGo_flatten {α : Type} (n : Nat) (hn : n ≠ 0) :
    ∀ (fuel : Nat) (l : List α), l.length ≤ fuel →
    (chunksOfGo n fuel l).flatten = l := by
  intro fuel
  induction fuel with
  | zero =>
    intro l h
    match l with
    | [] => rfl
    | x :: xs => simp at h
  | succ fuel ih =>
    intro l h
    match l with
    | [] => rfl
    | x :: xs =>
      have hlen : ((x :: xs).drop n).length ≤ fuel := by
        simp only [List.length_drop, List.length_cons] at *
        omega
      rw [chunksOfGo]
      simp only [List.flatten_cons, ih _ hlen, List.take_append_drop]

theorem chunksOf_flatten {α : Type} (n : Nat) (hn : n ≠ 0) (l : List α) :
    (chunksOf n l).flatten = l := by
  rw [chunksOf, if_neg hn]
  exact chunksOfGo_flatten n hn l.length l (Nat.le_refl _)

theorem queryAllChunkedGo_spec (conn : Conn) (builder : List String → String)
    (n : Nat) (hn : n ≠ 0) :
    ∀ (fuel : Nat) (values : List String) (st : St), values.length ≤ fuel →
    queryAllChunkedGo conn builder n fuel values st =
      (chunkedResults conn builder st.trace.length (chunksOfGo n fuel values),
       { st with trace := st.trace ++
           chunkTraceEvents conn builder (chunksOfGo n fuel values) }) := by
  intro fuel
  induction fuel with
  | zero =>
    intro values st h
    match values with
    | [] => simp [queryAllChunkedGo, chunksOfGo, chunkedResults, chunkTraceEvents]
    | x :: xs => simp at h
  | succ fuel ih =>
    intro values st h
    match values with
    | [] => simp [queryAllChunkedGo, chunksOfGo, chunkedResults, chunkTraceEvents]
    | x :: xs =>
      have hlen : ((x :: xs).drop n).length ≤ fuel := by
        simp only [List.length_drop, List.length_cons] at *
        omega
      rw [queryAllChunkedGo, chunksOfGo]
      simp only [queryAll, emit]
      rw [ih ((x :: xs).drop n) _ hlen]
      simp [chunkedResults, chunkTraceEvents, List.length_append]

theorem queryAllChunked_spec (conn : Conn) (values : List String)
    (builder : List String → String) (n : Nat) (st : St) (hn : n ≠ 0) :
    queryAllChunked conn values builder n st =
      (chunkedResults conn builder st.trace.length (chunksOf n values),
       { st with trace := st.trace ++
           chunkTraceEvents conn builder (chunksOf n values) }) := by
  rw [queryAllChunked, if_neg hn, chunksOf, if_neg hn]
  exact queryAllChunkedGo_spec conn builder n hn values.length values st
    (Nat.le_refl _)

/-- C10: queryAllChunked returns exactly the concatenation, in chunk order,
    of the queryAll results for the consecutive fixed-size chunks of the
    value list (the chunks flatten back to the value list), appending one
    chunk event and one query event per chunk to the trace; for an empty
    value list it issues no queries and returns the empty list, so a
    related-object stage with no parent ids and an activity stage whose
    whole-registry id set is empty perform no source queries beyond the
    two describes and report zero records queried. -/
theorem c10_chunked_query_concat
    (conn : Conn) (values : List String) (builder : List String → String)
    (n : Nat) (st : St) (hn : n ≠ 0)
    (cfg : SeedConfig) (obj lf : String) (ext : Option String) (st2 : St)
    (acfg : SeedConfig) (aty : String) (ast : St)
    (hids : getAllSourceIds ast.idMaps = []) :
    (chunksOf n values).flatten = values ∧
    queryAllChunked conn values builder n st =
      (chunkedResults conn builder st.trace.length (chunksOf n values),
       { st with trace := st.trace ++
           chunkTraceEvents conn builder (chunksOf n values) }) ∧
    queryAllChunked conn [] builder n st = ([], st) ∧
    seedRelatedObject cfg obj lf [] ext st2 =
      ({ objectApiName := obj, queried := 0, inserted := 0, updated := 0,
         failed := 0, skipped := 0 },
       emit (emit st2 (.describe cfg.sourceConn.isSource obj))
         (.describe cfg.targetConn.isSource obj)) ∧
    seedActivities acfg aty ast =
      ({ objectApiName := aty, queried := 0, inserted := 0, updated := 0,
         failed := 0, skipped := 0 },
       emit (emit ast (.describe acfg.sourceConn.isSource aty))
         (.describe acfg.targetConn.isSource aty)) := by
  refine ⟨chunksOf_flatten n hn values,
    queryAllChunked_spec conn values builder n st hn, ?_, ?_, ?_⟩
  · rw [queryAllChunked]
    split
    · rfl
    · rfl
  · rfl
  · simp only [seedActivities, getObjectFields, emit]
    rw [hids]
    rfl

/-- Witness: chunk size 2 over three values flattens back; the Task stage
    over an empty registry reports zeros after the two describes. -/
theorem c10_chunked_query_concat_witness :
    (chunksOf 2 ["a", "b", "c"]).flatten = ["a", "b", "c"] ∧
    seedActivities c10Cfg "Task" initSt =
      ({ objectApiName := "Task", queried := 0, inserted := 0, updated := 0,
         failed := 0, skipped := 0 },
       emit (emit initSt (.describe true "Task")) (.describe false "Task")) := by
  have h := c10_chunked_query_concat (noopConn true) ["a", "b", "c"] inClause
    2 initSt (by decide) c10Cfg "Gadget__c" "Widget__c" none initSt
    c10Cfg "Task" initSt (by decide)
  exact ⟨h.1, h.2.2.2.2⟩

-- ---------------------------------------------------------------------------
-- Record field-access lemmas (C5, C6)
-- ---------------------------------------------------------------------------

theorem getField_cons {a : String} {b : Value} {t : Rec} {k : String} :
    getField ((a, b) :: t) k = if a = k then some b else getField t k := by
  by_cases h : a = k
  · simp [getField, List.find?_cons_of_pos, h]
  · rw [if_neg h]
    unfold getField
    rw [List.find?_cons_of_neg _ (by simpa using h)]

theorem recAny_cons {a : String} {b : Value} {t : Rec} {k : String} :
    ((a, b) :: t).any (fun p => p.1 = k) =
      (decide (a = k) || t.any (fun p => p.1 = k)) := by
  simp

theorem getField_none_of_not_has {r : Rec} {k : String}
    (h : r.any (fun p => p.1 = k) = false) : getField r k = none := by
  induction r with
  | nil => rfl
  | cons a t ih =>
    obtain ⟨a1, a2⟩ := a
    rw [recAny_cons] at h
    rcases Bool.or_eq_false_iff.mp h with ⟨h1, h2⟩
    rw [getField_cons, if_neg (by simpa using h1)]
    exact ih h2

theorem getField_map_replace {t : Rec} {k : String} {v : Value} {k' : String} :
    getField (t.map (fun p => if p.1 = k then (k, v) else p)) k' =
    if k' = k then (if t.any (fun p => p.1 = k) then some v else none)
    else getField t k' := by
  induction t with
  | nil => by_cases hk : k' = k <;> simp [getField, hk]
  | cons a t ih =>
    obtain ⟨a1, a2⟩ := a
    by_cases hak : a1 = k
    · simp only [List.map_cons, if_pos (show (a1, a2).1 = k from hak)]
      rw [getField_cons]
      by_cases hk : k' = k
      · rw [if_pos (hk ▸ rfl : k = k'), if_pos hk, if_pos]
        rw [recAny_cons]
        simp [hak]
      · rw [if_neg (show ¬ k = k' from fun hkk => hk hkk.symm), if_neg hk, ih,
          if_neg hk, getField_cons,
          if_neg (show ¬ a1 = k' from fun h1 => hk (h1.symm.trans hak))]
    · simp only [List.map_cons, if_neg (show ¬ (a1, a2).1 = k from hak)]
      rw [getField_cons]
      by_cases hak' : a1 = k'
      · have hk : ¬ k' = k := fun hkk => hak (by rw [hak', hkk])
        rw [if_pos hak', if_neg hk, getField_cons, if_pos hak']
      · rw [if_neg hak', ih, recAny_cons, decide_eq_false hak]
        by_cases hk : k' = k
        · simp only [hk, if_pos rfl, Bool.false_or, if_true]
        · rw [if_neg hk, if_neg hk, getField_cons, if_neg hak']

theorem getField_append_single {t : Rec} {k : String} {v : Value} {k' : String} :
    getField (t ++ [(k, v)]) k' =
    match getField t k' with
    | some x => some x
    | none => if k' = k then some v else none := by
  induction t with
  | nil =>
    by_cases hk : k' = k
    · simp [getField, List.find?, hk]
    · rw [show getField ([] : Rec) k' = none from rfl]
      simp only [List.nil_append]
      rw [getField_cons, if_neg (fun h => hk h.symm), if_neg hk]
      rfl
  | cons a t ih =>
    obtain ⟨a1, a2⟩ := a
    rw [List.cons_append, getField_cons, getField_cons]
    by_cases hak : a1 = k'
    · simp [hak]
    · rw [if_neg hak, if_neg hak, ih]

/-- The complete lookup law of the record setter. -/
theorem getField_recSet {r : Rec} {f : String} {v : Value} {g : String} :
    getField (recSet r f v) g = if g = f then some v else getField r g := by
  unfold recSet
  split
  · rename_i h
    rw [getField_map_replace]
    by_cases hk : g = f <;> simp [hk, h]
  · rename_i h
    rw [getField_append_single]
    by_cases hk : g = f
    · subst hk
      rw [getField_none_of_not_has (Bool.not_eq_true _ ▸ h), if_pos rfl]
    · cases hm : getField r g <;> simp [hk, hm]

-- ---------------------------------------------------------------------------
-- Whole-registry lookup hits are registry targets (C5)
-- ---------------------------------------------------------------------------

theorem mget_mem_val {m : IdMap} {k v : String} (h : mget m k = some v) :
    m.any (fun q => q.2 = v) = true := by
  induction m with
  | nil => simp [mget] at h
  | cons a t ih =>
    obtain ⟨a1, a2⟩ := a
    rw [mget_cons] at h
    by_cases hak : a1 = k
    · rw [if_pos hak] at h
      have : a2 = v := by injection h
      simp [this]
    · rw [if_neg hak] at h
      simp [ih h]

theorem findInAnyIdMap_target {ms : IdMaps} {s t : String}
    (h : findInAnyIdMap ms s = some t) : registryHasTarget ms t = true := by
  induction ms with
  | nil => simp [findInAnyIdMap] at h
  | cons a rest ih =>
    obtain ⟨o, m⟩ := a
    simp only [registryHasTarget, List.any_cons]
    cases hm : mget m s with
    | none =>
      simp only [findInAnyIdMap, hm] at h
      have := ih h
      simp only [registryHasTarget] at this
      simp [this]
    | some t0 =>
      simp only [findInAnyIdMap, hm] at h
      by_cases ht0 : t0 ≠ ""
      · rw [if_pos ht0] at h
        have : t0 = t := by injection h
        subst this
        have := mget_mem_val hm
        simp [this]
      · rw [if_neg ht0] at h
        have := ih h
        simp only [registryHasTarget] at this
        simp [this]

theorem findInAnyIdMapV_target {ms : IdMaps} {ov : Option Value} {t : String}
    (h : findInAnyIdMapV ms ov = some t) : registryHasTarget ms t = true := by
  match ov with
  | none => simp [findInAnyIdMapV] at h
  | some (.str s) => exact findInAnyIdMap_target h
  | some .null => simp [findInAnyIdMapV] at h
  | some (.num n) => simp [findInAnyIdMapV] at h
  | some (.bool b) => simp [findInAnyIdMapV] at h

-- ---------------------------------------------------------------------------
-- The activity preparation never invents field values (C5)
-- ---------------------------------------------------------------------------

theorem prepCopy_getField (rec : Rec) (k : String) :
    ∀ (s : List String) (p : Rec),
    getField (s.foldl (fun p fieldName =>
      match getField rec fieldName with
      | none => p
      | some v => recSet p fieldName v) p) k = getField p k ∨
    getField (s.foldl (fun p fieldName =>
      match getField rec fieldName with
      | none => p
      | some v => recSet p fieldName v) p) k = getField rec k := by
  intro s
  induction s with
  | nil => intro p; exact Or.inl rfl
  | cons f s ih =>
    intro p
    cases hv : getField rec f with
    | none =>
      simp only [List.foldl_cons, hv]
      exact ih p
    | some v =>
      simp only [List.foldl_cons, hv]
      rcases ih (recSet p f v) with h | h
      · rw [h, getField_recSet]
        by_cases hk : k = f
        · subst hk
          right
          rw [if_pos rfl, hv]
        · left
          rw [if_neg hk]
      · right
        exact h

theorem getField_remapIdField_other (ms : IdMaps) (rec : Rec)
    (fn : String) (p : Rec) (g : String) (hne : ¬ g = fn) :
    getField (remapIdField ms rec fn p) g = getField p g := by
  unfold remapIdField
  cases hv : getField rec fn with
  | none => rfl
  | some v =>
    by_cases htv : v.truthy = true
    · simp only [htv, if_true]
      cases hf : findInAnyIdMapV ms (some v) <;>
        rw [getField_recSet, if_neg hne]
    · simp [htv]

theorem getField_remapIdField_self (ms : IdMaps) (rec : Rec)
    (fn : String) (p : Rec) (hok : idFieldOk rec fn = true)
    (hcopy : getField p fn = none ∨ getField p fn = getField rec fn) :
    activityIdOut ms (getField (remapIdField ms rec fn p) fn) := by
  unfold remapIdField
  cases hv : getField rec fn with
  | none =>
    rcases hcopy with h | h
    · exact Or.inl h
    · rw [hv] at h
      exact Or.inl h
  | some v =>
    by_cases htv : v.truthy = true
    · simp only [htv, if_true]
      cases hf : findInAnyIdMapV ms (some v) with
      | some t =>
        refine Or.inr (Or.inr ⟨t, ?_, findInAnyIdMapV_target hf⟩)
        rw [getField_recSet, if_pos rfl]
      | none =>
        refine Or.inr (Or.inl ?_)
        rw [getField_recSet, if_pos rfl]
    · simp only [htv, Bool.false_eq_true, if_false]
      have hnull : v = Value.null := by
        unfold idFieldOk at hok
        rw [hv] at hok
        rcases Bool.or_eq_true_iff.mp hok with h | h
        · exact of_decide_eq_true h
        · exact absurd h htv
      rcases hcopy with h | h
      · exact Or.inl h
      · rw [hv, hnull] at h
        exact Or.inr (Or.inl h)

theorem seedActivities_skipped_zero (cfg : SeedConfig) (aty : String)
    (st : St) : (seedActivities cfg aty st).1.skipped = 0 := by
  simp only [seedActivities, getObjectFields]
  repeat' split
  all_goals rfl

/-- C5: every activity record prepared by Stages 4 and 5 carries WhatId and
    WhoId values that are absent, null, or target ids present in the
    registry (via whole-registry lookup on the source value), given
    well-formed source id fields; and the activity stage never skips a
    record (its skipped count is zero for every run). -/
theorem c5_activity_ids_resolved
    (insertableSet : List String) (ms : IdMaps) (rec : Rec)
    (hwhat : idFieldOk rec "WhatId" = true)
    (hwho : idFieldOk rec "WhoId" = true)
    (cfg : SeedConfig) (aty : String) (st : St) :
    activityIdOut ms (getField (prepActivity insertableSet ms rec) "WhatId") ∧
    activityIdOut ms (getField (prepActivity insertableSet ms rec) "WhoId") ∧
    (seedActivities cfg aty st).1.skipped = 0 := by
  have hq1 := prepCopy_getField rec "WhatId" insertableSet []
  have hq2 := prepCopy_getField rec "WhoId" insertableSet []
  refine ⟨?_, ?_, seedActivities_skipped_zero cfg aty st⟩
  · simp only [prepActivity]
    rw [getField_remapIdField_other ms rec "WhoId" _ "WhatId" (by decide)]
    refine getField_remapIdField_self ms rec "WhatId" _ hwhat ?_
    rcases hq1 with h | h
    · exact Or.inl h
    · exact Or.inr h
  · simp only [prepActivity]
    refine getField_remapIdField_self ms rec "WhoId" _ hwho ?_
    rw [getField_remapIdField_other ms rec "WhatId" _ "WhoId" (by decide)]
    rcases hq2 with h | h
    · exact Or.inl h
    · exact Or.inr h

/-- Witness: a Task whose WhatId maps through the registry and whose WhoId
    is null prepares to a registry target and an untouched null. -/
theorem c5_activity_ids_resolved_witness :
    activityIdOut [("Account", [("001A", "001X")])]
      (getField (prepActivity ["Subject"] [("Account", [("001A", "001X")])]
        [("Id", Value.str "00T1"), ("Subject", Value.str "Call"),
         ("WhatId", Value.str "001A"), ("WhoId", Value.null)]) "WhatId") ∧
    (seedActivities c5Cfg "Task" initSt).1.skipped = 0 := by
  have h := c5_activity_ids_resolved ["Subject"]
    [("Account", [("001A", "001X")])]
    [("Id", Value.str "00T1"), ("Subject", Value.str "Call"),
     ("WhatId", Value.str "001A"), ("WhoId", Value.null)]
    (by decide) (by decide) c5Cfg "Task" initSt
  exact ⟨h.1, h.2.2⟩

-- ---------------------------------------------------------------------------
-- The Stage 1 self-reference update pass (C9)
-- ---------------------------------------------------------------------------

theorem selfRefResolved_key_mem {l : List String} {m : IdMap} {rec : Rec}
    {q : String × String} (h : q ∈ selfRefResolved l m rec) : q.1 ∈ l := by
  unfold selfRefResolved at h
  rcases List.mem_filterMap.mp h with ⟨a, ha, hq⟩
  cases hv : getField rec a with
  | none => simp [hv] at hq
  | some v =>
    simp only [hv] at hq
    by_cases htv : v.truthy = true
    · simp only [htv, if_true] at hq
      cases hr : mgetV m v with
      | none => simp [hr] at hq
      | some r =>
        simp only [hr] at hq
        by_cases hrne : r ≠ ""
        · rw [if_pos hrne] at hq
          have : (a, r) = q := by injection hq
          rw [← this]
          exact ha
        · simp [if_neg hrne] at hq
    · simp [htv] at hq

theorem foldl_recSet_absent {l : List (String × String)} {k : String} :
    (∀ q ∈ l, q.1 ≠ k) → ∀ u0 : Rec,
    getField (l.foldl (fun u q => recSet u q.1 (.str q.2)) u0) k =
      getField u0 k := by
  induction l with
  | nil => intro _ u0; rfl
  | cons q l ih =>
    intro h u0
    rw [List.foldl_cons, ih (fun p hp => h p (List.mem_cons_of_mem q hp)),
      getField_recSet, if_neg]
    intro hk
    exact h q (List.mem_cons_self q l) hk.symm

theorem foldl_recSet_hit {l1 l2 : List (String × String)} {k x : String}
    (h2 : ∀ q ∈ l2, q.1 ≠ k) (u0 : Rec) :
    getField ((l1 ++ (k, x) :: l2).foldl
      (fun u q => recSet u q.1 (.str q.2)) u0) k = some (.str x) := by
  rw [List.foldl_append, List.foldl_cons, foldl_recSet_absent h2,
    getField_recSet, if_pos rfl]

theorem processUpdateResults_trace (obj : String) :
    ∀ (rs : List InsertResult) (st : St),
    (processUpdateResults obj rs st).trace = st.trace := by
  intro rs
  induction rs with
  | nil => intro st; rfl
  | cons r rs ih =>
    intro st
    rw [processUpdateResults]
    by_cases hs : r.success = true
    · simp only [hs, if_true]
      exact ih st
    · simp only [hs, Bool.false_eq_true, if_false]
      rw [ih]
      rfl

theorem runUpdateBatchesGo_trace (conn : Conn) (obj : String) :
    ∀ (fuel : Nat) (updates : List Rec) (st : St), updates.length ≤ fuel →
    (runUpdateBatchesGo conn obj fuel updates st).trace =
      st.trace ++ (chunksOfGo BATCH_SIZE fuel updates).map
        (fun b => Ev.updateRecs obj b) := by
  intro fuel
  induction fuel with
  | zero =>
    intro updates st h
    match updates with
    | [] => simp [runUpdateBatchesGo, chunksOfGo]
    | u :: us => simp at h
  | succ fuel ih =>
    intro updates st h
    match updates with
    | [] => simp [runUpdateBatchesGo, chunksOfGo]
    | u :: us =>
      have hlen : ((u :: us).drop BATCH_SIZE).length ≤ fuel := by
        simp only [List.length_drop, List.length_cons] at *
        have : BATCH_SIZE ≠ 0 := by decide
        omega
      rw [runUpdateBatchesGo, chunksOfGo]
      rw [ih ((u :: us).drop BATCH_SIZE) _ hlen, processUpdateResults_trace]
      simp [emit, List.append_assoc]

theorem chunksOfGo_mem_length {α : Type} (n : Nat) :
    ∀ (fuel : Nat) (l : List α) (c : List α),
    c ∈ chunksOfGo n fuel l → c.length ≤ n := by
  intro fuel
  induction fuel with
  | zero =>
    intro l c hc
    match l with
    | [] => simp [chunksOfGo] at hc
    | x :: xs => simp [chunksOfGo] at hc
  | succ fuel ih =>
    intro l c hc
    match l with
    | [] => simp [chunksOfGo] at hc
    | x :: xs =>
      rw [chunksOfGo] at hc
      rcases List.mem_cons.mp hc with h | h
      · rw [h]
        simp
      · exact ih _ c h

theorem chunksOf_mem_length {α : Type} (n : Nat) (l : List α) (c : List α)
    (hc : c ∈ chunksOf n l) : c.length ≤ n := by
  unfold chunksOf at hc
  by_cases hn : n = 0
  · rw [if_pos hn] at hc
    simp at hc
  · rw [if_neg hn] at hc
    exact chunksOfGo_mem_length n l.length l c hc

/-- C9: for every written core record with a target id whose self-reference
    field holds a source id resolvable through the core registry map, the
    post-insert pass builds exactly one update record for it, carrying
    Id equal to the record's target id and the self-reference field equal
    to the referent's target id (each record contributing independently of
    the others); and the update loop submits those updates as updateRecs
    events in consecutive batches of at most BATCH_SIZE records. -/
theorem c9_self_ref_update_pass
    (selfRefFields pre2 post2 : List String) (m : IdMap) (f : String)
    (pre post : List Rec) (rec : Rec) (sid tid rsid rtid : String)
    (conn : Conn) (obj : String) (updates : List Rec) (st : St)
    (hsplit : selfRefFields = pre2 ++ f :: post2)
    (hfpost : ¬ f ∈ post2)
    (hnoid : ¬ "Id" ∈ selfRefFields)
    (hid : getField rec "Id" = some (Value.str sid))
    (htid : mget m sid = some tid) (htidne : ¬ tid = "")
    (hval : getField rec f = some (Value.str rsid))
    (htv : (Value.str rsid).truthy = true)
    (hrt : mget m rsid = some rtid) (hrtne : ¬ rtid = "") :
    buildSelfRefUpdates selfRefFields m (pre ++ rec :: post) =
      buildSelfRefUpdates selfRefFields m pre ++
      buildSelfRefUpdates selfRefFields m [rec] ++
      buildSelfRefUpdates selfRefFields m post ∧
    (∃ u, buildSelfRefUpdates selfRefFields m [rec] = [u] ∧
      getField u "Id" = some (Value.str tid) ∧
      getField u f = some (Value.str rtid)) ∧
    (runUpdateBatches conn obj updates st).trace =
      st.trace ++ (chunksOf BATCH_SIZE updates).map
        (fun b => Ev.updateRecs obj b) ∧
    ∀ c ∈ chunksOf BATCH_SIZE updates, c.length ≤ BATCH_SIZE := by
  have hres : selfRefResolved selfRefFields m rec =
      selfRefResolved pre2 m rec ++
      (f, rtid) :: selfRefResolved post2 m rec := by
    rw [hsplit]
    unfold selfRefResolved
    rw [List.filterMap_append, List.filterMap_cons]
    simp only [hval, htv, if_true, mgetV, hrt]
    rw [if_pos hrtne]
  refine ⟨?_, ?_, ?_, fun c hc => chunksOf_mem_length BATCH_SIZE updates c hc⟩
  · unfold buildSelfRefUpdates
    rw [← List.filterMap_append, ← List.filterMap_append]
    congr 1
    simp
  · refine ⟨(selfRefResolved selfRefFields m rec).foldl
      (fun u q => recSet u q.1 (.str q.2)) [("Id", .str tid)], ?_, ?_, ?_⟩
    · have hbind : (getField rec "Id").bind (mgetV m) = some tid := by
        rw [hid]
        simp [mgetV, htid]
      have hne : (selfRefResolved selfRefFields m rec).isEmpty = false := by
        rw [hres]
        simp
      unfold buildSelfRefUpdates
      rw [List.filterMap_cons]
      simp [hbind, htidne, hne]
    · rw [foldl_recSet_absent]
      · rw [getField_cons, if_pos rfl]
      · intro q hq hqid
        exact hnoid (hqid ▸ selfRefResolved_key_mem hq)
    · rw [hres]
      refine foldl_recSet_hit ?_ _
      intro q hq hqf
      have : q.1 ∈ post2 := selfRefResolved_key_mem hq
      rw [hqf] at this
      exact hfpost this
  · unfold runUpdateBatches chunksOf
    rw [if_neg (show ¬ BATCH_SIZE = 0 by decide)]
    exact runUpdateBatchesGo_trace conn obj updates.length updates st
      (Nat.le_refl _)

/-- Witness: one core Account referring to another through ParentId yields
    the single update record with both target ids, sent as one batch. -/
theorem c9_self_ref_update_pass_witness :
    (∃ u, buildSelfRefUpdates ["ParentId"]
        [("001A", "001X"), ("001P", "001Y")]
        [[("Id", Value.str "001A"), ("ParentId", Value.str "001P")]] = [u] ∧
      getField u "Id" = some (Value.str "001X") ∧
      getField u "ParentId" = some (Value.str "001Y")) ∧
    (runUpdateBatches (noopConn false) "Account"
        [[("Id", Value.str "001X"), ("ParentId", Value.str "001Y")]]
        initSt).trace =
      initSt.trace ++ (chunksOf BATCH_SIZE
        [[("Id", Value.str "001X"), ("ParentId", Value.str "001Y")]]).map
        (fun b => Ev.updateRecs "Account" b) := by
  have h := c9_self_ref_update_pass ["ParentId"] [] [] 
    [("001A", "001X"), ("001P", "001Y")] "ParentId" [] []
    [("Id", Value.str "001A"), ("ParentId", Value.str "001P")]
    "001A" "001X" "001P" "001Y" (noopConn false) "Account"
    [[("Id", Value.str "001X"), ("ParentId", Value.str "001Y")]] initSt
    rfl (by decide) (by decide) (by decide) (by decide) (by decide)
    (by decide) (by decide) (by decide) (by decide)
  exact ⟨h.2.1, h.2.2.1⟩

-- ---------------------------------------------------------------------------
-- The driver's stage-boundary cancellation (C8)
-- ---------------------------------------------------------------------------

theorem runChildren_no_abort (cfg : SeedConfig) (ids : List String)
    (p : Nat → Bool) (hp : cfg.shouldAbort = some p) :
    ∀ (children : List ChildObjectConfig) (k : Nat)
      (acc : List ObjectSeedResult) (st : St),
    (∀ i, k ≤ i → i < k + children.length → p i = false) →
    (runChildren cfg ids children k acc st).2.2.1 = false ∧
    (runChildren cfg ids children k acc st).2.1 = k + children.length ∧
    (runChildren cfg ids children k acc st).1.length =
      acc.length + children.length := by
  intro children
  induction children with
  | nil =>
    intro k acc st h
    exact ⟨rfl, by simp [runChildren], by simp [runChildren]⟩
  | cons child rest ih =>
    intro k acc st h
    have hpk : probeAbort cfg k = false := by
      rw [probeAbort, hp]
      exact h k (Nat.le_refl k) (by rw [List.length_cons]; omega)
    rw [runChildren]
    simp only [hpk, Bool.false_eq_true, if_false]
    rcases hr : seedRelatedObject cfg child.objectApiName child.lookupField ids
      child.externalIdField st with ⟨res, st1⟩
    simp only [hr]
    have ihh := ih (k + 1) (acc ++ [res]) st1
      (fun i h1 h2 => h i (Nat.le_of_succ_le h1)
        (by rw [List.length_cons]; omega))
    refine ⟨ihh.1, ?_, ?_⟩
    · rw [ihh.2.1, List.length_cons]
      omega
    · rw [ihh.2.2, List.length_append, List.length_cons]
      simp
      omega

/-- C8: when the cancellation probe is false through the Stage 2 boundary
    checks and first turns true at the boundary after Stage 2, runSeeder
    returns the accumulated partial results: coreObject is the Stage 1
    result, children carries one result per configured child, and
    grandchildren, tasks, events and files stay empty; the driver is a
    total function, so no exception is raised. -/
theorem c8_abort_after_stage2
    (cfg : SeedConfig) (p : Nat → Bool)
    (hprobe : cfg.shouldAbort = some p)
    (hfalse : ∀ i, i < cfg.children.length + 1 → p i = false)
    (htrue : p (cfg.children.length + 1) = true)
    (hcore : ((seedCoreObject cfg initSt).1.inserted == 0 &&
      (seedCoreObject cfg initSt).1.updated == 0 && !cfg.dryRun) = false) :
    (runSeeder cfg).1.coreObject = (seedCoreObject cfg initSt).1 ∧
    (runSeeder cfg).1.children.length = cfg.children.length ∧
    (runSeeder cfg).1.grandchildren = [] ∧
    (runSeeder cfg).1.tasks = none ∧
    (runSeeder cfg).1.events = none ∧
    (runSeeder cfg).1.files = none := by
  have hk : ∀ k, probeAbort cfg k = p k := by
    intro k
    rw [probeAbort, hprobe]
  rcases hc : seedCoreObject cfg initSt with ⟨coreRes, st1⟩
  rw [hc] at hcore
  have hrc := runChildren_no_abort cfg
    ((objGetD st1.idMaps cfg.coreObject.objectApiName).map (·.1)) p hprobe
    cfg.children 1 [] st1
    (fun i h1 h2 => hfalse i (by omega))
  rcases hrc2 : runChildren cfg
    ((objGetD st1.idMaps cfg.coreObject.objectApiName).map (·.1))
    cfg.children 1 [] st1 with ⟨childResults, k2, abortedC, st2⟩
  rw [hrc2] at hrc
  have habc : abortedC = false := hrc.1
  have hk2 : k2 = 1 + cfg.children.length := hrc.2.1
  have hlen : childResults.length = cfg.children.length := by
    have := hrc.2.2
    simpa using this
  have hTk : probeAbort cfg k2 = true := by
    rw [hk k2, hk2, Nat.add_comm]
    exact htrue
  suffices hmain : ∃ stX, runSeeder cfg =
      ({ coreObject := coreRes, children := childResults, grandchildren := [],
         tasks := none, events := none, files := none, errors := stX.errors,
         dryRun := cfg.dryRun }, stX) by
    rcases hmain with ⟨stX, heq⟩
    rw [heq]
    exact ⟨rfl, hlen, rfl, rfl, rfl, rfl⟩
  have h0 : probeAbort cfg 0 = false := by
    rw [hk 0]
    exact hfalse 0 (by omega)
  unfold runSeeder
  simp only [hc, h0, Bool.false_eq_true, if_false, hcore, hrc2, habc]
  cases hgl : (cfg.children.map (·.grandchildren)).flatten with
  | cons gc rest =>
    have hgg : runGrandchildren cfg (gc :: rest) k2 [] st2 =
        ([], k2 + 1, true, st2) := by
      rw [runGrandchildren, if_pos hTk]
    simp only [hgg, if_true]
    exact ⟨st2, rfl⟩
  | nil =>
    have hgg : runGrandchildren cfg [] k2 [] st2 = ([], k2, false, st2) := rfl
    simp only [hgg, Bool.false_eq_true, if_false, hTk, if_true]
    by_cases hit : cfg.includeTasks = true
    · simp only [runStageOpt, hit, hTk, if_true]
      exact ⟨st2, rfl⟩
    · simp only [Bool.not_eq_true] at hit
      simp only [runStageOpt, hit, Bool.false_eq_true, if_false]
      by_cases hie : cfg.includeEvents = true
      · simp only [hie, hTk, if_true]
        exact ⟨st2, rfl⟩
      · simp only [hie, Bool.false_eq_true, if_false]
        by_cases hif : cfg.includeFiles = true
        · simp only [hif, hTk, if_true]
          exact ⟨st2, rfl⟩
        · simp only [hif, Bool.false_eq_true, if_false]
          exact ⟨st2, rfl⟩

/-- Witness: a plan with one child and a probe that first fires on its
    third consultation returns the child result and nothing beyond it. -/
theorem c8_abort_after_stage2_witness :
    (runSeeder c8Cfg).1.children.length = c8Cfg.children.length ∧
    (runSeeder c8Cfg).1.grandchildren = [] ∧
    (runSeeder c8Cfg).1.tasks = none ∧
    (runSeeder c8Cfg).1.events = none ∧
    (runSeeder c8Cfg).1.files = none := by
  have h := c8_abort_after_stage2 c8Cfg c8Probe rfl (by decide) (by decide)
    (by decide)
  exact ⟨h.2.1, h.2.2.1, h.2.2.2.1, h.2.2.2.2.1, h.2.2.2.2.2⟩

-- ---------------------------------------------------------------------------
-- Key provenance of the prepared records (C6)
-- ---------------------------------------------------------------------------

theorem mem_recKeys_iff {r : Rec} {k : String} :
    k ∈ recKeys r ↔ (getField r k).isSome := by
  induction r with
  | nil => simp [recKeys, getField]
  | cons a t ih =>
    obtain ⟨a1, a2⟩ := a
    simp only [recKeys, List.map_cons, List.mem_cons, getField_cons]
    by_cases h : a1 = k
    · simp [h]
    · simp only [if_neg h]
      constructor
      · rintro (h1 | h1)
        · exact absurd h1.symm h
        · exact ih.mp h1
      · intro h1
        exact Or.inr (ih.mpr h1)

theorem recKeys_recSet {r : Rec} {f : String} {v : Value} {k : String}
    (h : k ∈ recKeys (recSet r f v)) : k ∈ recKeys r ∨ k = f := by
  by_cases hk : k = f
  · exact Or.inr hk
  · left
    rw [mem_recKeys_iff] at h
    rw [getField_recSet, if_neg hk] at h
    exact mem_recKeys_iff.mpr h

theorem foldl_keys_subset (step : Rec → String → Rec)
    (hstep : ∀ p f k, k ∈ recKeys (step p f) → k ∈ recKeys p ∨ k = f) :
    ∀ (l : List String) (p : Rec) (k : String),
    k ∈ recKeys (l.foldl step p) → k ∈ recKeys p ∨ k ∈ l := by
  intro l
  induction l with
  | nil => intro p k h; exact Or.inl h
  | cons f l ih =>
    intro p k h
    rcases ih (step p f) k h with h1 | h1
    · rcases hstep p f k h1 with h2 | h2
      · exact Or.inl h2
      · exact Or.inr (h2 ▸ List.mem_cons_self f l)
    · exact Or.inr (List.mem_cons_of_mem f h1)

theorem jsDedupGo_subset {x : String} :
    ∀ (l seen : List String), x ∈ jsDedupGo seen l → x ∈ l := by
  intro l
  induction l with
  | nil => intro seen h; simp [jsDedupGo] at h
  | cons a l ih =>
    intro seen h
    rw [jsDedupGo] at h
    by_cases ha : seen.contains a
    · rw [if_pos ha] at h
      exact List.mem_cons_of_mem a (ih _ h)
    · rw [if_neg ha] at h
      rcases List.mem_cons.mp h with h1 | h1
      · exact h1 ▸ List.mem_cons_self a l
      · exact List.mem_cons_of_mem a (ih _ h1)

theorem jsDedup_subset {x : String} {l : List String}
    (h : x ∈ jsDedup l) : x ∈ l :=
  jsDedupGo_subset l [] h

theorem getInsertableFieldNames_mem {fields : List FieldInfo}
    {excl : List String} {f : String}
    (h : f ∈ getInsertableFieldNames fields excl) :
    ∃ fi ∈ fields, fi.name = f ∧ fi.createable = true ∧
      ¬ f ∈ SYSTEM_READONLY_FIELDS ∧
      ¬ fi.type = "address" ∧ ¬ fi.type = "location" := by
  unfold getInsertableFieldNames at h
  rcases List.mem_map.mp h with ⟨fi, hfi, hname⟩
  rcases List.mem_filter.mp hfi with ⟨hin, hcond⟩
  simp only [Bool.and_eq_true, Bool.not_eq_true', bne_iff_ne, ne_eq,
    decide_eq_true_eq] at hcond
  obtain ⟨⟨⟨⟨hcre, hsys⟩, hexcl⟩, haddr⟩, hloc⟩ := hcond
  refine ⟨fi, hin, hname, hcre, ?_, haddr, hloc⟩
  rw [← hname]
  simpa using hsys

theorem prepareCoreRecord_keys (ins sys selfRef dep : List String)
    (srcF : List FieldInfo) (ms : IdMaps) (rec : Rec) (k : String)
    (h : k ∈ recKeys (prepareCoreRecord ins sys selfRef dep srcF ms rec)) :
    k ∈ ins := by
  unfold prepareCoreRecord at h
  have hstep : ∀ (p : Rec) (f : String) (k2 : String),
      k2 ∈ recKeys ((fun p fname =>
        match getField rec fname with
        | none => p
        | some v =>
          if sys.contains fname && v != Value.null then p
          else if selfRef.contains fname then p
          else if dep.contains fname && v != Value.null then
            match findInAnyIdMapV ms (some v) with
            | some targetId => recSet p fname (.str targetId)
            | none =>
              match srcF.find? (fun f => f.name = fname) with
              | some fi => if fi.nillable then recSet p fname .null else p
              | none => p
          else recSet p fname v) p f) → k2 ∈ recKeys p ∨ k2 = f := by
    intro p f k2 h2
    simp only at h2
    cases hv : getField rec f with
    | none =>
      simp only [hv] at h2
      exact Or.inl h2
    | some v =>
      simp only [hv] at h2
      split at h2
      · exact Or.inl h2
      · split at h2
        · exact Or.inl h2
        · split at h2
          · split at h2
            · exact recKeys_recSet h2
            · split at h2
              · split at h2
                · exact recKeys_recSet h2
                · exact Or.inl h2
              · exact Or.inl h2
          · exact recKeys_recSet h2
  rcases foldl_keys_subset _ hstep ins [] k h with h1 | h1
  · simp [recKeys] at h1
  · exact h1

theorem depPrepRecord_keys (ins drf : List String) (rec : Rec) (k : String)
    (h : k ∈ recKeys (depPrepRecord ins drf rec)) : k ∈ ins := by
  unfold depPrepRecord at h
  have hstep : ∀ (p : Rec) (f : String) (k2 : String),
      k2 ∈ recKeys ((fun p fname =>
        match getField rec fname with
        | none => p
        | some v =>
          if drf.contains fname && v != Value.null then p
          else recSet p fname v) p f) → k2 ∈ recKeys p ∨ k2 = f := by
    intro p f k2 h2
    simp only at h2
    cases hv : getField rec f with
    | none =>
      simp only [hv] at h2
      exact Or.inl h2
    | some v =>
      simp only [hv] at h2
      split at h2
      · exact Or.inl h2
      · exact recKeys_recSet h2
  rcases foldl_keys_subset _ hstep ins [] k h with h1 | h1
  · simp [recKeys] at h1
  · exact h1

theorem remapIdField_keys {ms : IdMaps} {rec : Rec} {fn : String} {p : Rec}
    {k : String} (h : k ∈ recKeys (remapIdField ms rec fn p)) :
    k ∈ recKeys p ∨ k = fn := by
  unfold remapIdField at h
  cases hv : getField rec fn with
  | none =>
    simp only [hv] at h
    exact Or.inl h
  | some v =>
    simp only [hv] at h
    split at h
    · split at h
      · exact recKeys_recSet h
      · exact recKeys_recSet h
    · exact Or.inl h

theorem prepActivity_keys (insertableSet : List String) (ms : IdMaps)
    (rec : Rec) (k : String)
    (h : k ∈ recKeys (prepActivity insertableSet ms rec)) :
    k ∈ insertableSet ∨ k = "WhatId" ∨ k = "WhoId" := by
  simp only [prepActivity] at h
  rcases remapIdField_keys h with h1 | h1
  · rcases remapIdField_keys h1 with h2 | h2
    · have hstep : ∀ (p : Rec) (f : String) (k2 : String),
          k2 ∈ recKeys ((fun p fieldName =>
            match getField rec fieldName with
            | none => p
            | some v => recSet p fieldName v) p f) →
          k2 ∈ recKeys p ∨ k2 = f := by
        intro p f k2 h3
        simp only at h3
        cases hv : getField rec f with
        | none =>
          simp only [hv] at h3
          exact Or.inl h3
        | some v =>
          simp only [hv] at h3
          exact recKeys_recSet h3
      rcases foldl_keys_subset _ hstep insertableSet [] k h2 with h3 | h3
      · simp [recKeys] at h3
      · exact Or.inl h3
    · exact Or.inr (Or.inl h2)
  · exact Or.inr (Or.inr h1)

theorem prepareRecordLoop_keys (c : PrepCtx) :
    ∀ (l : List String) (prepared pr : Rec),
    (prepareRecordLoop c l prepared).1 = some pr →
    ∀ k ∈ recKeys pr, k ∈ recKeys prepared ∨ k ∈ l := by
  intro l
  induction l with
  | nil =>
    intro prepared pr h k hk
    have hp : some prepared = some pr := h
    have : prepared = pr := by injection hp
    exact Or.inl (this ▸ hk)
  | cons f rest ih =>
    intro prepared pr h k hk
    rw [prepareRecordLoop] at h
    cases hv : getField c.record f with
    | none =>
      simp only [hv] at h
      rcases ih prepared pr h k hk with h1 | h1
      · exact Or.inl h1
      · exact Or.inr (List.mem_cons_of_mem f h1)
    | some v =>
      simp only [hv] at h
      split at h
      · split at h
        · split at h
          · rcases ih _ pr h k hk with h1 | h1
            · rcases recKeys_recSet h1 with h2 | h2
              · exact Or.inl h2
              · exact Or.inr (h2 ▸ List.mem_cons_self f rest)
            · exact Or.inr (List.mem_cons_of_mem f h1)
          · split at h
            · rcases ih _ pr h k hk with h1 | h1
              · rcases recKeys_recSet h1 with h2 | h2
                · exact Or.inl h2
                · exact Or.inr (h2 ▸ List.mem_cons_self f rest)
              · exact Or.inr (List.mem_cons_of_mem f h1)
            · simp at h
        · rcases ih _ pr h k hk with h1 | h1
          · rcases recKeys_recSet h1 with h2 | h2
            · exact Or.inl h2
            · exact Or.inr (h2 ▸ List.mem_cons_self f rest)
          · exact Or.inr (List.mem_cons_of_mem f h1)
      · split at h
        · rcases ih prepared pr h k hk with h1 | h1
          · exact Or.inl h1
          · exact Or.inr (List.mem_cons_of_mem f h1)
        · rcases ih _ pr h k hk with h1 | h1
          · rcases recKeys_recSet h1 with h2 | h2
            · exact Or.inl h2
            · exact Or.inr (h2 ▸ List.mem_cons_self f rest)
          · exact Or.inr (List.mem_cons_of_mem f h1)

theorem activityInsertableSource_mem {fields : List FieldInfo} {f : String}
    (h : f ∈ activityInsertableSource fields) :
    ∃ fi ∈ fields, fi.name = f ∧ fi.createable = true ∧
      ¬ f ∈ ACTIVITY_SYSTEM_FIELDS ∧
      ¬ fi.type = "address" ∧ ¬ fi.type = "location" := by
  unfold activityInsertableSource at h
  rcases List.mem_map.mp h with ⟨fi, hfi, hname⟩
  rcases List.mem_filter.mp hfi with ⟨hin, hcond⟩
  simp only [Bool.and_eq_true, Bool.not_eq_true', bne_iff_ne, ne_eq,
    decide_eq_true_eq] at hcond
  obtain ⟨⟨⟨hcre, hsys⟩, haddr⟩, hloc⟩ := hcond
  refine ⟨fi, hin, hname, hcre, ?_, haddr, hloc⟩
  rw [← hname]
  simpa using hsys

theorem tierInsertableFields_mem {srcF tgtF : List FieldInfo} {f : String}
    (h : f ∈ tierInsertableFields srcF tgtF) :
    f ∈ getInsertableFieldNames srcF [] ∧
    f ∈ targetCreateableNames tgtF := by
  unfold tierInsertableFields at h
  rcases List.mem_filter.mp h with ⟨h1, h2⟩
  exact ⟨h1, by simpa using h2⟩

theorem activityInsertableFields_mem {srcF tgtF : List FieldInfo} {f : String}
    (h : f ∈ activityInsertableFields srcF tgtF) :
    f ∈ activityInsertableSource srcF ∧
    f ∈ targetCreateableNames tgtF := by
  unfold activityInsertableFields at h
  rcases List.mem_filter.mp h with ⟨h1, h2⟩
  exact ⟨h1, by simpa using h2⟩

/-- C6: every record prepared for a bulk insert or upsert draws its keys
    from the tier's insertable field set (activities may add WhatId and
    WhoId), so no prepared key is a system read-only field (activity
    records: no activity system field), none belongs to a compound address
    or location field of the source schema, and every key is createable on
    the target schema, given unambiguous source field names and a target
    schema on which the activity polymorphic id fields are createable and
    reference-typed on the source. -/
theorem c6_prepared_record_keys
    (srcF tgtF : List FieldInfo) (ms : IdMaps) (rec : Rec)
    (sys selfRef dep drf : List String)
    (lf arf : List FieldInfo) (obj : String)
    (hnodup : (srcF.map (·.name)).Nodup)
    (hwhatc : "WhatId" ∈ targetCreateableNames tgtF)
    (hwhoc : "WhoId" ∈ targetCreateableNames tgtF)
    (hpoly : ∀ fi ∈ srcF, (fi.name = "WhatId" ∨ fi.name = "WhoId") →
      ¬ fi.type = "address" ∧ ¬ fi.type = "location") :
    (∀ f ∈ tierInsertableFields srcF tgtF,
      ¬ f ∈ SYSTEM_READONLY_FIELDS ∧
      (∀ fi ∈ srcF, fi.name = f →
        ¬ fi.type = "address" ∧ ¬ fi.type = "location") ∧
      f ∈ targetCreateableNames tgtF) ∧
    (∀ k ∈ recKeys (prepareCoreRecord (tierInsertableFields srcF tgtF) sys
        selfRef dep srcF ms rec), k ∈ tierInsertableFields srcF tgtF) ∧
    (∀ pr, (prepareRecord rec (tierInsertableFields srcF tgtF) lf arf ms
        obj).1 = some pr →
      ∀ k ∈ recKeys pr, k ∈ tierInsertableFields srcF tgtF) ∧
    (∀ k ∈ recKeys (depPrepRecord (tierInsertableFields srcF tgtF) drf rec),
      k ∈ tierInsertableFields srcF tgtF) ∧
    (∀ k ∈ recKeys (prepActivity (jsDedup (activityInsertableFields srcF
        tgtF)) ms rec),
      ¬ k ∈ ACTIVITY_SYSTEM_FIELDS ∧
      (∀ fi ∈ srcF, fi.name = k →
        ¬ fi.type = "address" ∧ ¬ fi.type = "location") ∧
      k ∈ targetCreateableNames tgtF) := by
  have huniq : ∀ fi0 : FieldInfo, fi0 ∈ srcF → ∀ fi ∈ srcF,
      fi.name = fi0.name → fi = fi0 :=
    fun fi0 h0 fi hfi he => List.inj_on_of_nodup_map hnodup hfi h0 he
  refine ⟨?_, ?_, ?_, ?_, ?_⟩
  · intro f hf
    obtain ⟨hsrc, htgt⟩ := tierInsertableFields_mem hf
    obtain ⟨fi0, hfi0, hname0, _, hsysnot, haddr0, hloc0⟩ :=
      getInsertableFieldNames_mem hsrc
    refine ⟨hsysnot, ?_, htgt⟩
    intro fi hfi hname
    have : fi = fi0 := huniq fi0 hfi0 fi hfi (by rw [hname, hname0])
    rw [this]
    exact ⟨haddr0, hloc0⟩
  · exact fun k hk => prepareCoreRecord_keys _ sys selfRef dep srcF ms rec k hk
  · intro pr hpr k hk
    unfold prepareRecord at hpr
    rcases prepareRecordLoop_keys _ _ _ _ hpr k hk with h1 | h1
    · simp [recKeys] at h1
    · exact jsDedup_subset h1
  · exact fun k hk => depPrepRecord_keys _ drf rec k hk
  · intro k hk
    rcases prepActivity_keys _ ms rec k hk with h1 | h1 | h1
    · have h2 := jsDedup_subset h1
      obtain ⟨hsrc, htgt⟩ := activityInsertableFields_mem h2
      obtain ⟨fi0, hfi0, hname0, _, hsysnot, haddr0, hloc0⟩ :=
        activityInsertableSource_mem hsrc
      refine ⟨hsysnot, ?_, htgt⟩
      intro fi hfi hname
      have : fi = fi0 := huniq fi0 hfi0 fi hfi (by rw [hname, hname0])
      rw [this]
      exact ⟨haddr0, hloc0⟩
    · subst h1
      refine ⟨by decide, ?_, hwhatc⟩
      intro fi hfi hname
      exact hpoly fi hfi (Or.inl hname)
    · subst h1
      refine ⟨by decide, ?_, hwhoc⟩
      intro fi hfi hname
      exact hpoly fi hfi (Or.inr hname)

/-- Witness: the Task-like schema has unambiguous names, so the prepared
    core record and the prepared activity record satisfy the key laws. -/
theorem c6_prepared_record_keys_witness :
    (∀ k ∈ recKeys (prepareCoreRecord (tierInsertableFields c6SrcF c6TgtF)
        [] [] [] c6SrcF [] c6Rec), k ∈ tierInsertableFields c6SrcF c6TgtF) ∧
    (∀ k ∈ recKeys (prepActivity (jsDedup (activityInsertableFields c6SrcF
        c6TgtF)) [] c6Rec),
      ¬ k ∈ ACTIVITY_SYSTEM_FIELDS ∧
      (∀ fi ∈ c6SrcF, fi.name = k →
        ¬ fi.type = "address" ∧ ¬ fi.type = "location") ∧
      k ∈ targetCreateableNames c6TgtF) := by
  have h := c6_prepared_record_keys c6SrcF c6TgtF [] c6Rec [] [] [] [] [] []
    "Task" (by decide) (by decide) (by decide) (by decide)
  exact ⟨h.2.1, h.2.2.2.2⟩

-- ---------------------------------------------------------------------------
-- Dry-run purity (C4)
-- ---------------------------------------------------------------------------

theorem dryInv_emit {st : St} {e : Ev} (h : dryInv st)
    (he : isWriteEv e = false) : dryInv (emit st e) := by
  refine ⟨?_, h.2⟩
  intro x hx
  rcases List.mem_append.mp hx with h1 | h1
  · exact h.1 x h1
  · rw [List.mem_singleton.mp h1]
    exact he

theorem dryInv_pushError {st : St} {e : SeedError} (h : dryInv st) :
    dryInv (pushError st e) := h

theorem dryInv_getObjectFields {conn : Conn} {obj : String} {st : St}
    (h : dryInv st) : dryInv (getObjectFields conn obj st).2 :=
  dryInv_emit h rfl

theorem dryInv_queryAll {conn : Conn} {soql : String} {st : St}
    (h : dryInv st) : dryInv (queryAll conn soql st).2 :=
  dryInv_emit h rfl

theorem chunkTraceEvents_no_writes (conn : Conn)
    (builder : List String → String) :
    ∀ cs, ∀ e ∈ chunkTraceEvents conn builder cs, isWriteEv e = false := by
  intro cs
  induction cs with
  | nil => intro e he; simp [chunkTraceEvents] at he
  | cons c cs ih =>
    intro e he
    rw [chunkTraceEvents] at he
    rcases List.mem_cons.mp he with h1 | h1
    · rw [h1]; rfl
    · rcases List.mem_cons.mp h1 with h2 | h2
      · rw [h2]; rfl
      · exact ih e h2

theorem dryInv_queryAllChunked {conn : Conn} {values : List String}
    {builder : List String → String} {n : Nat} {st : St} (h : dryInv st) :
    dryInv (queryAllChunked conn values builder n st).2 := by
  by_cases hn : n = 0
  · rw [queryAllChunked, if_pos hn]
    exact h
  · rw [queryAllChunked_spec conn values builder n st hn]
    refine ⟨?_, h.2⟩
    intro e he
    rcases List.mem_append.mp he with h1 | h1
    · exact h.1 e h1
    · exact chunkTraceEvents_no_writes conn builder _ e h1

theorem objSet_empty {ms : IdMaps} {k : String}
    (h : ∀ p ∈ ms, p.2 = []) : ∀ p ∈ objSet ms k [], p.2 = ([] : IdMap) := by
  intro p hp
  unfold objSet at hp
  split at hp
  · rcases List.mem_map.mp hp with ⟨q, hq, hpq⟩
    by_cases hqk : q.1 = k
    · rw [← hpq, if_pos hqk]
    · rw [← hpq, if_neg hqk]
      exact h q hq
  · rcases List.mem_append.mp hp with h1 | h1
    · exact h p h1
    · rw [List.mem_singleton.mp h1]

theorem dryInv_seedDepLoop (cfg : SeedConfig) (hdry : cfg.dryRun = true) :
    ∀ (items : List (String × List String))
      (depFields : List (String × String)) (st : St),
    dryInv st → dryInv (seedDepLoop cfg items depFields st).2 := by
  intro items
  induction items with
  | nil => intro depFields st h; exact h
  | cons item rest ih =>
    obtain ⟨depObjectName, sourceIds⟩ := item
    intro depFields st h
    rw [seedDepLoop]
    split
    · exact ih depFields st h
    · split
      · exact ih depFields st h
      · simp only [getObjectFields, batchInsert, hdry, if_true]
        have h1 : dryInv (emit st
            (.describe cfg.targetConn.isSource depObjectName)) :=
          dryInv_emit h rfl
        split
        · exact ih _ _ h1
        · have h2 : dryInv (emit (emit st
              (.describe cfg.targetConn.isSource depObjectName))
              (.describe cfg.sourceConn.isSource depObjectName)) :=
            dryInv_emit h1 rfl
          split
          · exact ih _ _ h2
          · split
            · exact ih _ _ (dryInv_queryAllChunked h2)
            · exact ih _ _ ⟨(dryInv_queryAllChunked h2).1,
                objSet_empty (dryInv_queryAllChunked h2).2⟩

theorem dryInv_seedDependencyObjects (cfg : SeedConfig)
    (hdry : cfg.dryRun = true) (sourceRecords : List Rec)
    (depFields : List (String × String)) (st : St) (h : dryInv st) :
    dryInv (seedDependencyObjects cfg sourceRecords depFields st).2 := by
  unfold seedDependencyObjects
  exact dryInv_seedDepLoop cfg hdry _ _ _ h

theorem dryInv_emit_describe {st : St} {b : Bool} {o : String}
    (h : dryInv st) : dryInv (emit st (.describe b o)) := dryInv_emit h rfl

theorem dryInv_emit_query {st : St} {b : Bool} {s : String}
    (h : dryInv st) : dryInv (emit st (.query b s)) := dryInv_emit h rfl


theorem dryInv_objSetEmpty {st : St} {k : String} (h : dryInv st) :
    dryInv { st with idMaps := objSet st.idMaps k [] } :=
  ⟨h.1, objSet_empty h.2⟩

theorem seedCoreObject_dry (cfg : SeedConfig) (hdry : cfg.dryRun = true)
    (st : St) (h : dryInv st) :
    dryInv (seedCoreObject cfg st).2 ∧
    (seedCoreObject cfg st).1.failed = 0 ∧
    (seedCoreObject cfg st).1.updated = 0 ∧
    (seedCoreObject cfg st).1.queried ≤ (seedCoreObject cfg st).1.inserted := by
  refine ⟨?_, ?_, ?_, ?_⟩
  · unfold seedCoreObject
    simp only [getObjectFields, queryAll, batchInsert, batchUpsert, hdry,
      if_true, Bool.not_true, Bool.and_false, Bool.false_eq_true, if_false]
    repeat' split
    all_goals repeat' first
      | exact h
      | apply dryInv_objSetEmpty
      | apply dryInv_queryAllChunked
      | apply dryInv_seedDependencyObjects cfg hdry
      | apply dryInv_emit_query
      | apply dryInv_emit_describe
  · unfold seedCoreObject
    simp only [getObjectFields, queryAll, batchInsert, batchUpsert, hdry,
      if_true, Bool.not_true, Bool.and_false, Bool.false_eq_true, if_false]
    repeat' split
    all_goals rfl
  · unfold seedCoreObject
    simp only [getObjectFields, queryAll, batchInsert, batchUpsert, hdry,
      if_true, Bool.not_true, Bool.and_false, Bool.false_eq_true, if_false]
    repeat' split
    all_goals rfl
  · unfold seedCoreObject
    simp only [getObjectFields, queryAll, batchInsert, batchUpsert, hdry,
      if_true, Bool.not_true, Bool.and_false, Bool.false_eq_true, if_false]
    repeat' split
    all_goals simp [Nat.le_add_left]

theorem dryInv_errors {st : St} {es : List SeedError} (h : dryInv st) :
    dryInv { st with errors := es } := ⟨h.1, h.2⟩

theorem childPrep_counts (ins : List String) (lf arf : List FieldInfo)
    (ms : IdMaps) (obj : String) :
    ∀ recs : List Rec,
    (childPrep ins lf arf ms obj recs).1.length +
      (childPrep ins lf arf ms obj recs).2.2.1 = recs.length := by
  intro recs
  induction recs with
  | nil => rfl
  | cons rec rest ih =>
    rw [childPrep]
    rcases hp : prepareRecord rec ins lf arf ms obj with ⟨p, errs⟩
    simp only [hp]
    rcases hc : childPrep ins lf arf ms obj rest with ⟨ps, sids, sk, errsRest⟩
    simp only [hc]
    rw [hc] at ih
    simp only [List.length_cons] at ih ⊢
    cases p with
    | some pr =>
      simp only [List.length_cons]
      omega
    | none =>
      simp only []
      omega

theorem childPrep_skipped_of_empty (ins : List String)
    (lf arf : List FieldInfo) (ms : IdMaps) (obj : String) (recs : List Rec)
    (h : (childPrep ins lf arf ms obj recs).1.isEmpty = true) :
    (childPrep ins lf arf ms obj recs).2.2.1 = recs.length := by
  have hc := childPrep_counts ins lf arf ms obj recs
  rw [List.isEmpty_iff] at h
  rw [h] at hc
  simpa using hc

set_option maxHeartbeats 800000 in
theorem seedRelatedObject_dry (cfg : SeedConfig) (hdry : cfg.dryRun = true)
    (obj lf : String) (pids : List String) (ext : Option String) (st : St)
    (h : dryInv st) :
    dryInv (seedRelatedObject cfg obj lf pids ext st).2 ∧
    dryCount (seedRelatedObject cfg obj lf pids ext st).1 := by
  refine ⟨?_, ?_⟩
  · unfold seedRelatedObject
    simp only [getObjectFields, batchInsert, batchUpsert, hdry, if_true]
    split
    · exact dryInv_queryAllChunked (dryInv_emit_describe
        (dryInv_emit_describe h))
    · split
      · split
        · exact dryInv_errors (dryInv_queryAllChunked (dryInv_emit_describe
            (dryInv_emit_describe h)))
        · split
          · exact dryInv_errors (dryInv_queryAllChunked (dryInv_emit_describe
              (dryInv_emit_describe h)))
          · exact dryInv_errors (dryInv_queryAllChunked (dryInv_emit_describe
              (dryInv_emit_describe h)))
      · split
        · exact dryInv_errors (dryInv_objSetEmpty (dryInv_queryAllChunked
            (dryInv_emit_describe (dryInv_emit_describe h))))
        · split
          · exact dryInv_errors (dryInv_objSetEmpty (dryInv_queryAllChunked
              (dryInv_emit_describe (dryInv_emit_describe h))))
          · exact dryInv_errors (dryInv_objSetEmpty (dryInv_queryAllChunked
              (dryInv_emit_describe (dryInv_emit_describe h))))
  · unfold seedRelatedObject dryCount
    simp only [getObjectFields, batchInsert, batchUpsert, hdry, if_true]
    repeat' split
    all_goals first
      | exact ⟨rfl, rfl, rfl⟩
      | (rename_i hemp
         exact ⟨rfl, rfl, by
           rw [childPrep_skipped_of_empty _ _ _ _ _ _ hemp]
           simp⟩)
      | exact ⟨rfl, rfl, childPrep_counts _ _ _ _ _ _⟩

theorem seedActivities_dry (cfg : SeedConfig) (hdry : cfg.dryRun = true)
    (aty : String) (st : St) (h : dryInv st) :
    dryInv (seedActivities cfg aty st).2 ∧
    (seedActivities cfg aty st).1.failed = 0 ∧
    (seedActivities cfg aty st).1.updated = 0 ∧
    (seedActivities cfg aty st).1.inserted =
      (seedActivities cfg aty st).1.queried := by
  refine ⟨?_, ?_⟩
  · unfold seedActivities
    simp only [getObjectFields, batchInsert, hdry, if_true]
    split
    · exact dryInv_emit_describe (dryInv_emit_describe h)
    · split
      · exact dryInv_queryAllChunked (dryInv_queryAllChunked
          (dryInv_emit_describe (dryInv_emit_describe h)))
      · exact dryInv_objSetEmpty (dryInv_queryAllChunked
          (dryInv_queryAllChunked (dryInv_emit_describe
            (dryInv_emit_describe h))))
  · unfold seedActivities
    simp only [getObjectFields, batchInsert, hdry, if_true]
    repeat' split
    all_goals exact ⟨rfl, rfl, by simp⟩

theorem seedFiles_dry (cfg : SeedConfig) (hdry : cfg.dryRun = true)
    (st : St) (h : dryInv st) :
    dryInv (seedFiles cfg st).2 ∧
    (seedFiles cfg st).1.filesFailed = 0 ∧
    (seedFiles cfg st).1.filesUploaded = (seedFiles cfg st).1.filesFound := by
  refine ⟨?_, ?_⟩
  · unfold seedFiles
    simp only [hdry, if_true]
    split
    · exact h
    · split
      · exact dryInv_queryAllChunked h
      · exact dryInv_queryAllChunked (dryInv_queryAllChunked h)
  · unfold seedFiles
    simp only [hdry, if_true]
    repeat' split
    all_goals exact ⟨rfl, rfl⟩

theorem runStageOpt_dry {α : Type} (P : α → Prop) (cfg : SeedConfig)
    (flag : Bool) (run : St → α × St) (k : Nat) (st : St)
    (hrun : ∀ st2 : St, dryInv st2 → dryInv (run st2).2 ∧ P (run st2).1)
    (h : dryInv st) :
    dryInv (runStageOpt cfg flag run k st).2.2.2 ∧
    ∀ r, (runStageOpt cfg flag run k st).1 = some r → P r := by
  unfold runStageOpt
  split
  · split
    · refine ⟨h, ?_⟩
      intro r hr
      simp at hr
    · rcases hr : run st with ⟨t, st1⟩
      have hfacts := hrun st h
      rw [hr] at hfacts
      simp only [hr]
      refine ⟨hfacts.1, ?_⟩
      intro r hrr
      have ht : t = r := by injection hrr
      rw [← ht]
      exact hfacts.2
  · refine ⟨h, ?_⟩
    intro r hr
    simp at hr

theorem runChildren_dry (cfg : SeedConfig) (hdry : cfg.dryRun = true)
    (ids : List String) :
    ∀ (children : List ChildObjectConfig) (k : Nat)
      (acc : List ObjectSeedResult) (st : St),
    dryInv st → (∀ r ∈ acc, dryCount r) →
    dryInv (runChildren cfg ids children k acc st).2.2.2 ∧
    ∀ r ∈ (runChildren cfg ids children k acc st).1, dryCount r := by
  intro children
  induction children with
  | nil => intro k acc st h hacc; exact ⟨h, hacc⟩
  | cons child rest ih =>
    intro k acc st h hacc
    rw [runChildren]
    split
    · exact ⟨h, hacc⟩
    · rcases hr : seedRelatedObject cfg child.objectApiName child.lookupField
        ids child.externalIdField st with ⟨res, st1⟩
      have hsr := seedRelatedObject_dry cfg hdry child.objectApiName
        child.lookupField ids child.externalIdField st h
      rw [hr] at hsr
      simp only [hr]
      refine ih (k + 1) (acc ++ [res]) st1 hsr.1 ?_
      intro r hrr
      rcases List.mem_append.mp hrr with h1 | h1
      · exact hacc r h1
      · rw [List.mem_singleton.mp h1]
        exact hsr.2

theorem runGrandchildren_dry (cfg : SeedConfig) (hdry : cfg.dryRun = true) :
    ∀ (gcs : List GrandchildObjectConfig) (k : Nat)
      (acc : List ObjectSeedResult) (st : St),
    dryInv st → (∀ r ∈ acc, dryCount r) →
    dryInv (runGrandchildren cfg gcs k acc st).2.2.2 ∧
    ∀ r ∈ (runGrandchildren cfg gcs k acc st).1, dryCount r := by
  intro gcs
  induction gcs with
  | nil => intro k acc st h hacc; exact ⟨h, hacc⟩
  | cons gc rest ih =>
    intro k acc st h hacc
    rw [runGrandchildren]
    split
    · exact ⟨h, hacc⟩
    · dsimp only
      split
      · exact ih (k + 1) acc st h hacc
      · rcases hr : seedRelatedObject cfg gc.objectApiName gc.lookupField
          ((objGetD st.idMaps gc.parentChildObject).map (·.1))
          gc.externalIdField st with ⟨res, st1⟩
        have hsr := seedRelatedObject_dry cfg hdry gc.objectApiName
          gc.lookupField ((objGetD st.idMaps gc.parentChildObject).map (·.1))
          gc.externalIdField st h
        rw [hr] at hsr
        simp only [hr]
        refine ih (k + 1) (acc ++ [res]) st1 hsr.1 ?_
        intro r hrr
        rcases List.mem_append.mp hrr with h1 | h1
        · exact hacc r h1
        · rw [List.mem_singleton.mp h1]
          exact hsr.2


/-- C4 amended: a dry run issues no bulk create, update or upsert call and
    no download, and leaves every registry map empty; every per-object
    result reports failed = 0 and updated = 0; the activity and file tiers
    report inserted = queried (files: uploaded = found), the child and
    grandchild tiers report inserted + skipped = queried, and Stage 1
    reports inserted at least queried (pulled-in out-of-batch parents are
    counted as inserted, which the counterexample exhibits). -/
theorem c4_amended_dry_run_purity (cfg : SeedConfig)
    (hdry : cfg.dryRun = true) :
    (∀ e ∈ (runSeeder cfg).2.trace, isWriteEv e = false) ∧
    (∀ p ∈ (runSeeder cfg).2.idMaps, p.2 = []) ∧
    (runSeeder cfg).1.coreObject.failed = 0 ∧
    (runSeeder cfg).1.coreObject.updated = 0 ∧
    (runSeeder cfg).1.coreObject.queried ≤
      (runSeeder cfg).1.coreObject.inserted ∧
    (∀ r ∈ (runSeeder cfg).1.children, dryCount r) ∧
    (∀ r ∈ (runSeeder cfg).1.grandchildren, dryCount r) ∧
    (∀ r, (runSeeder cfg).1.tasks = some r →
      r.failed = 0 ∧ r.updated = 0 ∧ r.inserted = r.queried) ∧
    (∀ r, (runSeeder cfg).1.events = some r →
      r.failed = 0 ∧ r.updated = 0 ∧ r.inserted = r.queried) ∧
    (∀ fr, (runSeeder cfg).1.files = some fr →
      fr.filesFailed = 0 ∧ fr.filesUploaded = fr.filesFound) := by
  have hinit : dryInv initSt :=
    ⟨fun e he => by simp [initSt] at he, fun p hp => by simp [initSt] at hp⟩
  rcases hc : seedCoreObject cfg initSt with ⟨coreRes, st1⟩
  have hcd := seedCoreObject_dry cfg hdry initSt hinit
  rw [hc] at hcd
  have hrunT : ∀ st2 : St, dryInv st2 →
      dryInv (seedActivities cfg "Task" st2).2 ∧
      (seedActivities cfg "Task" st2).1.failed = 0 ∧
      (seedActivities cfg "Task" st2).1.updated = 0 ∧
      (seedActivities cfg "Task" st2).1.inserted =
        (seedActivities cfg "Task" st2).1.queried :=
    fun st2 h2 => seedActivities_dry cfg hdry "Task" st2 h2
  have hrunE : ∀ st2 : St, dryInv st2 →
      dryInv (seedActivities cfg "Event" st2).2 ∧
      (seedActivities cfg "Event" st2).1.failed = 0 ∧
      (seedActivities cfg "Event" st2).1.updated = 0 ∧
      (seedActivities cfg "Event" st2).1.inserted =
        (seedActivities cfg "Event" st2).1.queried :=
    fun st2 h2 => seedActivities_dry cfg hdry "Event" st2 h2
  have hrunF : ∀ st2 : St, dryInv st2 →
      dryInv (seedFiles cfg st2).2 ∧
      (seedFiles cfg st2).1.filesFailed = 0 ∧
      (seedFiles cfg st2).1.filesUploaded = (seedFiles cfg st2).1.filesFound :=
    fun st2 h2 => seedFiles_dry cfg hdry st2 h2
  generalize hout : runSeeder cfg = out
  unfold runSeeder at hout
  simp only [hc, hdry, Bool.not_true, Bool.and_false, Bool.false_eq_true,
    if_false] at hout
  split at hout
  · rw [← hout]
    refine ⟨hcd.1.1, hcd.1.2, hcd.2.1, hcd.2.2.1, hcd.2.2.2, ?_, ?_, ?_,
      ?_, ?_⟩
    all_goals intro r hr; simp at hr
  · have hrcd := runChildren_dry cfg hdry
      ((objGetD st1.idMaps cfg.coreObject.objectApiName).map (·.1))
      cfg.children 1 [] st1 hcd.1 (fun r hr => by simp at hr)
    rcases hrc : runChildren cfg
      ((objGetD st1.idMaps cfg.coreObject.objectApiName).map (·.1))
      cfg.children 1 [] st1 with ⟨cRes, k2, aC, st2⟩
    rw [hrc] at hrcd
    rw [hrc] at hout
    cases aC with
    | true =>
      simp only [if_true] at hout
      rw [← hout]
      refine ⟨hrcd.1.1, hrcd.1.2, hcd.2.1, hcd.2.2.1, hcd.2.2.2, hrcd.2, ?_,
        ?_, ?_, ?_⟩
      all_goals intro r hr; simp at hr
    | false =>
      simp only [Bool.false_eq_true, if_false] at hout
      have hgcd := runGrandchildren_dry cfg hdry
        ((cfg.children.map (·.grandchildren)).flatten) k2 [] st2 hrcd.1
        (fun r hr => by simp at hr)
      rcases hrg : runGrandchildren cfg
        ((cfg.children.map (·.grandchildren)).flatten) k2 [] st2 with
        ⟨gRes, k3, aG, st3⟩
      rw [hrg] at hgcd
      rw [hrg] at hout
      cases aG with
      | true =>
        simp only [if_true] at hout
        rw [← hout]
        refine ⟨hgcd.1.1, hgcd.1.2, hcd.2.1, hcd.2.2.1, hcd.2.2.2, hrcd.2,
          hgcd.2, ?_, ?_, ?_⟩
        all_goals intro r hr; simp at hr
      | false =>
        simp only [Bool.false_eq_true, if_false] at hout
        have htd := runStageOpt_dry
          (fun r => r.failed = 0 ∧ r.updated = 0 ∧ r.inserted = r.queried)
          cfg cfg.includeTasks (seedActivities cfg "Task") k3 st3 hrunT
          hgcd.1
        rcases hT : runStageOpt cfg cfg.includeTasks
          (seedActivities cfg "Task") k3 st3 with ⟨tOpt, k4, aT, st4⟩
        rw [hT] at htd
        rw [hT] at hout
        cases aT with
        | true =>
          simp only [if_true] at hout
          rw [← hout]
          refine ⟨htd.1.1, htd.1.2, hcd.2.1, hcd.2.2.1, hcd.2.2.2, hrcd.2,
            hgcd.2, ?_, ?_, ?_⟩
          all_goals intro r hr; simp at hr
        | false =>
          simp only [Bool.false_eq_true, if_false] at hout
          have hed := runStageOpt_dry
            (fun r => r.failed = 0 ∧ r.updated = 0 ∧ r.inserted = r.queried)
            cfg cfg.includeEvents (seedActivities cfg "Event") k4 st4 hrunE
            htd.1
          rcases hE : runStageOpt cfg cfg.includeEvents
            (seedActivities cfg "Event") k4 st4 with ⟨eOpt, k5, aE, st5⟩
          rw [hE] at hed
          rw [hE] at hout
          cases aE with
          | true =>
            simp only [if_true] at hout
            rw [← hout]
            refine ⟨hed.1.1, hed.1.2, hcd.2.1, hcd.2.2.1, hcd.2.2.2, hrcd.2,
              hgcd.2, htd.2, ?_, ?_⟩
            all_goals intro r hr; simp at hr
          | false =>
            simp only [Bool.false_eq_true, if_false] at hout
            have hfd := runStageOpt_dry
              (fun fr => fr.filesFailed = 0 ∧
                fr.filesUploaded = fr.filesFound)
              cfg cfg.includeFiles (seedFiles cfg) k5 st5 hrunF hed.1
            rcases hF : runStageOpt cfg cfg.includeFiles (seedFiles cfg) k5
              st5 with ⟨fOpt, k6, aF, st6⟩
            rw [hF] at hfd
            rw [hF] at hout
            cases aF with
            | true =>
              simp only [if_true] at hout
              rw [← hout]
              refine ⟨hfd.1.1, hfd.1.2, hcd.2.1, hcd.2.2.1, hcd.2.2.2,
                hrcd.2, hgcd.2, htd.2, hed.2, ?_⟩
              intro r hr; simp at hr
            | false =>
              simp only [Bool.false_eq_true, if_false] at hout
              rw [← hout]
              exact ⟨hfd.1.1, hfd.1.2, hcd.2.1, hcd.2.2.1, hcd.2.2.2,
                hrcd.2, hgcd.2, htd.2, hed.2, hfd.2⟩

/-- Witness: the dry-run plan of the counterexample pulls in a parent yet
    still writes nothing and leaves the registry empty. -/
theorem c4_amended_dry_run_purity_witness :
    (∀ e ∈ (runSeeder c4Cfg).2.trace, isWriteEv e = false) ∧
    (∀ p ∈ (runSeeder c4Cfg).2.idMaps, p.2 = []) ∧
    (runSeeder c4Cfg).1.coreObject.queried ≤
      (runSeeder c4Cfg).1.coreObject.inserted := by
  have h := c4_amended_dry_run_purity c4Cfg (by decide)
  exact ⟨h.1, h.2.1, h.2.2.2.2.1⟩

-- ---------------------------------------------------------------------------
-- Batch and chunk bounds along every trace (C7)
-- ---------------------------------------------------------------------------

theorem bt_emit {st : St} {e : Ev} (h : boundedTrace st)
    (he : writeEvSize e ≤ BATCH_SIZE ∧ chunkEvSize e ≤ QUERY_CHUNK_SIZE) :
    boundedTrace (emit st e) := by
  intro x hx
  rcases List.mem_append.mp hx with h1 | h1
  · exact h x h1
  · rw [List.mem_singleton.mp h1]
    exact he

theorem bt_emit_describe {st : St} {b : Bool} {o : String}
    (h : boundedTrace st) : boundedTrace (emit st (.describe b o)) :=
  bt_emit h ⟨Nat.zero_le _, Nat.zero_le _⟩

theorem bt_emit_query {st : St} {b : Bool} {s : String}
    (h : boundedTrace st) : boundedTrace (emit st (.query b s)) :=
  bt_emit h ⟨Nat.zero_le _, Nat.zero_le _⟩

theorem bt_emit_download {st : St} {u : String}
    (h : boundedTrace st) : boundedTrace (emit st (.download u)) :=
  bt_emit h ⟨Nat.zero_le _, Nat.zero_le _⟩

theorem bt_regSetSt {st : St} {k s t : String} (h : boundedTrace st) :
    boundedTrace (regSetSt st k s t) := by
  intro x hx
  rcases List.mem_append.mp hx with h1 | h1
  · exact h x h1
  · rw [List.mem_singleton.mp h1]
    exact ⟨Nat.zero_le _, Nat.zero_le _⟩

theorem bt_emit_chunk_take {st : St} {l : List String}
    (h : boundedTrace st) :
    boundedTrace (emit st (.chunkEv (l.take QUERY_CHUNK_SIZE))) := by
  refine bt_emit h ⟨Nat.zero_le _, ?_⟩
  simp [chunkEvSize]

theorem bt_emit_create_take {st : St} {obj : String} {l : List Rec}
    (h : boundedTrace st) :
    boundedTrace (emit st (.createRecs obj (l.take BATCH_SIZE))) := by
  refine bt_emit h ⟨?_, Nat.zero_le _⟩
  simp [writeEvSize]

theorem bt_emit_update_take {st : St} {obj : String} {l : List Rec}
    (h : boundedTrace st) :
    boundedTrace (emit st (.updateRecs obj (l.take BATCH_SIZE))) := by
  refine bt_emit h ⟨?_, Nat.zero_le _⟩
  simp [writeEvSize]

theorem bt_emit_upsert_take {st : St} {obj ext : String} {l : List Rec}
    (h : boundedTrace st) :
    boundedTrace (emit st (.upsertRecs obj ext (l.take BATCH_SIZE))) := by
  refine bt_emit h ⟨?_, Nat.zero_le _⟩
  simp [writeEvSize]

theorem bt_emit_create_one {st : St} {obj : String} {r : Rec}
    (h : boundedTrace st) :
    boundedTrace (emit st (.createRecs obj [r])) := by
  refine bt_emit h ⟨?_, Nat.zero_le _⟩
  show 1 ≤ BATCH_SIZE
  decide

theorem bt_idMaps {st : St} {m : IdMaps} (h : boundedTrace st) :
    boundedTrace { st with idMaps := m } := h

theorem bt_errors {st : St} {es : List SeedError} (h : boundedTrace st) :
    boundedTrace { st with errors := es } := h

theorem bt_pushError {st : St} {e : SeedError} (h : boundedTrace st) :
    boundedTrace (pushError st e) := h

theorem bt_queryAllChunkedGo (conn : Conn)
    (builder : List String → String) :
    ∀ (fuel : Nat) (values : List String) (st : St), boundedTrace st →
    boundedTrace
      (queryAllChunkedGo conn builder QUERY_CHUNK_SIZE fuel values st).2 := by
  intro fuel
  induction fuel with
  | zero =>
    intro values st h
    match values with
    | [] => exact h
    | x :: xs => exact h
  | succ fuel ih =>
    intro values st h
    match values with
    | [] => exact h
    | x :: xs =>
      rw [queryAllChunkedGo]
      exact ih _ _ (bt_emit_query (bt_emit_chunk_take h))

theorem bt_queryAllChunked {conn : Conn} {values : List String}
    {builder : List String → String} {st : St} (h : boundedTrace st) :
    boundedTrace
      (queryAllChunked conn values builder QUERY_CHUNK_SIZE st).2 := by
  rw [queryAllChunked]
  rw [if_neg (show ¬ QUERY_CHUNK_SIZE = 0 by decide)]
  exact bt_queryAllChunkedGo conn builder values.length values st h

theorem bt_processInsertResults (obj key : String) :
    ∀ (rs : List InsertResult) (sids : List String) (st : St),
    boundedTrace st →
    boundedTrace (processInsertResults obj key rs sids st).2 := by
  intro rs
  induction rs with
  | nil => intro sids st h; exact h
  | cons r rs ih =>
    intro sids st h
    rw [processInsertResults]
    split
    · exact ih _ _ (bt_regSetSt h)
    · exact ih _ _ (bt_pushError h)

theorem bt_batchInsertLoopGo (conn : Conn) (obj key : String) :
    ∀ (fuel : Nat) (records : List Rec) (sids : List String) (st : St),
    boundedTrace st →
    boundedTrace (batchInsertLoopGo conn obj key fuel records sids st).2 := by
  intro fuel
  induction fuel with
  | zero =>
    intro records sids st h
    match records with
    | [] => exact h
    | r :: rs => exact h
  | succ fuel ih =>
    intro records sids st h
    match records with
    | [] => exact h
    | r :: rs =>
      rw [batchInsertLoopGo]
      exact ih _ _ _ (bt_processInsertResults obj key _ _ _
        (bt_emit_create_take h))

theorem bt_batchInsert {conn : Conn} {obj : String} {records : List Rec}
    {sids : List String} {key : String} {dry : Bool} {st : St}
    (h : boundedTrace st) :
    boundedTrace (batchInsert conn obj records sids key dry st).2 := by
  unfold batchInsert batchInsertLoop
  split
  · exact h
  · exact bt_batchInsertLoopGo conn obj key _ _ _ _ h

theorem bt_processUpsertResults (obj key : String) :
    ∀ (rs : List UpsertResult) (sids : List String) (st : St),
    boundedTrace st →
    boundedTrace (processUpsertResults obj key rs sids st).2 := by
  intro rs
  induction rs with
  | nil => intro sids st h; exact h
  | cons r rs ih =>
    intro sids st h
    rw [processUpsertResults]
    split
    · split
      · split
        · exact ih _ _ (bt_regSetSt h)
        · exact ih _ _ (bt_regSetSt h)
      · split
        · exact ih _ _ h
        · exact ih _ _ h
    · exact ih _ _ (bt_pushError h)

theorem bt_foldl_of_step {α : Type} (step : St → α → St)
    (hstep : ∀ (st2 : St) (a : α), boundedTrace st2 →
      boundedTrace (step st2 a)) :
    ∀ (l : List α) (st2 : St), boundedTrace st2 →
    boundedTrace (l.foldl step st2) := by
  intro l
  induction l with
  | nil => intro st2 h2; exact h2
  | cons a l ih =>
    intro st2 h2
    rw [List.foldl_cons]
    exact ih _ (hstep st2 a h2)

theorem bt_upsertBackQuery {conn : Conn} {obj ext key : String}
    {records : List Rec} {sids bsids : List String} {st : St}
    (h : boundedTrace st) :
    boundedTrace (upsertBackQuery conn obj ext key records sids bsids st) := by
  unfold upsertBackQuery
  dsimp only
  split
  · exact h
  · split
    · exact h
    · refine bt_foldl_of_step _ ?_ _ _ (bt_queryAllChunked h)
      intro st2 tr h2
      dsimp only
      split
      · split
        · exact bt_regSetSt h2
        · exact h2
      · exact h2

theorem bt_batchUpsertLoopGo (conn : Conn) (obj ext key : String)
    (allRecords : List Rec) (allSids : List String) :
    ∀ (fuel : Nat) (records : List Rec) (sids : List String) (st : St),
    boundedTrace st →
    boundedTrace (batchUpsertLoopGo conn obj ext key allRecords allSids fuel
      records sids st).2 := by
  intro fuel
  induction fuel with
  | zero =>
    intro records sids st h
    match records with
    | [] => exact h
    | r :: rs => exact h
  | succ fuel ih =>
    intro records sids st h
    match records with
    | [] => exact h
    | r :: rs =>
      rw [batchUpsertLoopGo]
      exact ih _ _ _ (bt_upsertBackQuery (bt_processUpsertResults obj key _ _
        _ (bt_emit_upsert_take h)))

theorem bt_batchUpsert {conn : Conn} {obj : String} {records : List Rec}
    {sids : List String} {ext key : String} {dry : Bool} {st : St}
    (h : boundedTrace st) :
    boundedTrace (batchUpsert conn obj records sids ext key dry st).2 := by
  unfold batchUpsert batchUpsertLoop
  split
  · exact h
  · exact bt_batchUpsertLoopGo conn obj ext key _ _ _ _ _ _ h

theorem bt_processUpdateResults (obj : String) (rs : List InsertResult)
    (st : St) (h : boundedTrace st) :
    boundedTrace (processUpdateResults obj rs st) := by
  intro e he
  rw [processUpdateResults_trace] at he
  exact h e he

theorem bt_runUpdateBatchesGo (conn : Conn) (obj : String) :
    ∀ (fuel : Nat) (updates : List Rec) (st : St), boundedTrace st →
    boundedTrace (runUpdateBatchesGo conn obj fuel updates st) := by
  intro fuel
  induction fuel with
  | zero =>
    intro updates st h
    match updates with
    | [] => exact h
    | u :: us => exact h
  | succ fuel ih =>
    intro updates st h
    match updates with
    | [] => exact h
    | u :: us =>
      rw [runUpdateBatchesGo]
      exact ih _ _ (bt_processUpdateResults obj _ _ (bt_emit_update_take h))

theorem bt_runUpdateBatches {conn : Conn} {obj : String} {updates : List Rec}
    {st : St} (h : boundedTrace st) :
    boundedTrace (runUpdateBatches conn obj updates st) :=
  bt_runUpdateBatchesGo conn obj updates.length updates st h

theorem bt_uploadFiles (cfg : SeedConfig) :
    ∀ (versions : List Rec) (docMap : IdMap) (st : St), boundedTrace st →
    boundedTrace (uploadFiles cfg docMap versions st).2 := by
  intro versions
  induction versions with
  | nil => intro docMap st h; exact h
  | cons cv rest ih =>
    intro docMap st h
    rw [uploadFiles]
    dsimp only
    repeat' split
    all_goals first
      | exact ih _ _ (bt_pushError (bt_emit_download h))
      | exact ih _ _ (bt_emit_query (bt_emit_create_one (bt_emit_download h)))
      | exact ih _ _ (bt_pushError (bt_emit_create_one (bt_emit_download h)))

theorem bt_processLinkResults :
    ∀ (rs : List InsertResult) (st : St), boundedTrace st →
    boundedTrace (processLinkResults rs st).2 := by
  intro rs
  induction rs with
  | nil => intro st h; exact h
  | cons r rs ih =>
    intro st h
    rw [processLinkResults]
    split
    · exact ih _ h
    · exact ih _ (bt_pushError h)

theorem bt_createLinksLoopGo (conn : Conn) :
    ∀ (fuel : Nat) (links : List Rec) (st : St), boundedTrace st →
    boundedTrace (createLinksLoopGo conn fuel links st).2 := by
  intro fuel
  induction fuel with
  | zero =>
    intro links st h
    match links with
    | [] => exact h
    | l :: ls => exact h
  | succ fuel ih =>
    intro links st h
    match links with
    | [] => exact h
    | l :: ls =>
      rw [createLinksLoopGo]
      exact ih _ _ (bt_processLinkResults _ _ (bt_emit_create_take h))

theorem bt_objSetUpdate {st : St} {k : String} (h : boundedTrace st) :
    boundedTrace { st with idMaps := objSet st.idMaps k [] } := h

theorem bt_errorsAppend {st : St} {es : List SeedError}
    (h : boundedTrace st) :
    boundedTrace { st with errors := st.errors ++ es } := h

theorem bt_seedDepLoop (cfg : SeedConfig) :
    ∀ (items : List (String × List String))
      (depFields : List (String × String)) (st : St),
    boundedTrace st → boundedTrace (seedDepLoop cfg items depFields st).2 := by
  intro items
  induction items with
  | nil => intro depFields st h; exact h
  | cons item rest ih =>
    obtain ⟨depObjectName, sourceIds⟩ := item
    intro depFields st h
    rw [seedDepLoop]
    split
    · exact ih _ _ h
    · split
      · exact ih _ _ h
      · simp only [getObjectFields]
        split
        · exact ih _ _ (bt_emit_describe h)
        · split
          · exact ih _ _ (bt_emit_describe (bt_emit_describe h))
          · split
            · exact ih _ _ (bt_queryAllChunked
                (bt_emit_describe (bt_emit_describe h)))
            · exact ih _ _ (bt_batchInsert (bt_objSetUpdate
                (bt_queryAllChunked
                  (bt_emit_describe (bt_emit_describe h)))))

theorem bt_seedDependencyObjects (cfg : SeedConfig) (sourceRecords : List Rec)
    (depFields : List (String × String)) (st : St) (h : boundedTrace st) :
    boundedTrace (seedDependencyObjects cfg sourceRecords depFields st).2 := by
  unfold seedDependencyObjects
  exact bt_seedDepLoop cfg _ _ _ h

set_option maxHeartbeats 1000000 in
theorem bt_seedCoreObject (cfg : SeedConfig) (st : St) (h : boundedTrace st) :
    boundedTrace (seedCoreObject cfg st).2 := by
  unfold seedCoreObject
  simp only [getObjectFields, queryAll]
  repeat' split
  all_goals repeat' first
    | with_reducible exact h
    | with_reducible apply bt_runUpdateBatches
    | with_reducible apply bt_batchInsert
    | with_reducible apply bt_batchUpsert
    | with_reducible apply bt_objSetUpdate
    | with_reducible apply bt_errorsAppend
    | with_reducible apply bt_queryAllChunked
    | with_reducible apply bt_seedDependencyObjects cfg
    | with_reducible apply bt_emit_query
    | with_reducible apply bt_emit_describe

set_option maxHeartbeats 1000000 in
theorem bt_seedRelatedObject (cfg : SeedConfig) (obj lf : String)
    (pids : List String) (ext : Option String) (st : St)
    (h : boundedTrace st) :
    boundedTrace (seedRelatedObject cfg obj lf pids ext st).2 := by
  unfold seedRelatedObject
  simp only [getObjectFields]
  repeat' split
  all_goals repeat' first
    | with_reducible exact h
    | with_reducible apply bt_batchInsert
    | with_reducible apply bt_batchUpsert
    | with_reducible apply bt_errorsAppend
    | with_reducible apply bt_objSetUpdate
    | with_reducible apply bt_queryAllChunked
    | with_reducible apply bt_emit_describe

set_option maxHeartbeats 1000000 in
theorem bt_seedActivities (cfg : SeedConfig) (aty : String) (st : St)
    (h : boundedTrace st) :
    boundedTrace (seedActivities cfg aty st).2 := by
  unfold seedActivities
  simp only [getObjectFields]
  repeat' split
  all_goals repeat' first
    | with_reducible exact h
    | with_reducible apply bt_batchInsert
    | with_reducible apply bt_objSetUpdate
    | with_reducible apply bt_queryAllChunked
    | with_reducible apply bt_emit_describe

theorem bt_createLinksLoop {conn : Conn} {links : List Rec} {st : St}
    (h : boundedTrace st) :
    boundedTrace (createLinksLoop conn links st).2 :=
  bt_createLinksLoopGo conn links.length links st h

set_option maxHeartbeats 1000000 in
theorem bt_seedFiles (cfg : SeedConfig) (st : St) (h : boundedTrace st) :
    boundedTrace (seedFiles cfg st).2 := by
  unfold seedFiles
  simp only [zeroFiles]
  repeat' split
  all_goals repeat' first
    | with_reducible exact h
    | with_reducible apply bt_createLinksLoop
    | with_reducible apply bt_uploadFiles cfg
    | with_reducible apply bt_queryAllChunked

theorem bt_runStageOpt {α : Type} (cfg : SeedConfig) (flag : Bool)
    (run : St → α × St) (k : Nat) (st : St)
    (hrun : ∀ st2 : St, boundedTrace st2 → boundedTrace (run st2).2)
    (h : boundedTrace st) :
    boundedTrace (runStageOpt cfg flag run k st).2.2.2 := by
  unfold runStageOpt
  split
  · split
    · exact h
    · exact hrun st h
  · exact h

theorem bt_runChildren (cfg : SeedConfig) (ids : List String) :
    ∀ (children : List ChildObjectConfig) (k : Nat)
      (acc : List ObjectSeedResult) (st : St), boundedTrace st →
    boundedTrace (runChildren cfg ids children k acc st).2.2.2 := by
  intro children
  induction children with
  | nil => intro k acc st h; exact h
  | cons child rest ih =>
    intro k acc st h
    rw [runChildren]
    split
    · exact h
    · exact ih _ _ _ (bt_seedRelatedObject cfg _ _ _ _ _ h)

theorem bt_runGrandchildren (cfg : SeedConfig) :
    ∀ (gcs : List GrandchildObjectConfig) (k : Nat)
      (acc : List ObjectSeedResult) (st : St), boundedTrace st →
    boundedTrace (runGrandchildren cfg gcs k acc st).2.2.2 := by
  intro gcs
  induction gcs with
  | nil => intro k acc st h; exact h
  | cons gc rest ih =>
    intro k acc st h
    rw [runGrandchildren]
    split
    · exact h
    · dsimp only
      split
      · exact ih _ _ _ h
      · exact ih _ _ _ (bt_seedRelatedObject cfg _ _ _ _ _ h)

set_option maxHeartbeats 1000000 in
theorem bt_runSeeder (cfg : SeedConfig) :
    boundedTrace (runSeeder cfg).2 := by
  have h0 : boundedTrace initSt := fun e he => by simp [initSt] at he
  rcases hc : seedCoreObject cfg initSt with ⟨coreRes, st1⟩
  have h1 : boundedTrace st1 := by
    have hh := bt_seedCoreObject cfg initSt h0
    rw [hc] at hh
    exact hh
  unfold runSeeder
  simp only [hc]
  repeat' split
  all_goals try dsimp only
  all_goals first
    | (with_reducible exact h1)
    | (with_reducible exact bt_runChildren cfg _ _ _ _ _ h1)
    | (with_reducible exact bt_runGrandchildren cfg _ _ _ _ (bt_runChildren cfg _ _ _ _ _ h1))
    | (with_reducible exact bt_runStageOpt _ _ _ _ _ (fun st2 h2 => bt_seedActivities cfg _ st2 h2) (bt_runGrandchildren cfg _ _ _ _ (bt_runChildren cfg _ _ _ _ _ h1)))
    | (with_reducible exact bt_runStageOpt _ _ _ _ _ (fun st2 h2 => bt_seedActivities cfg _ st2 h2) (bt_runStageOpt _ _ _ _ _ (fun st2 h2 => bt_seedActivities cfg _ st2 h2) (bt_runGrandchildren cfg _ _ _ _ (bt_runChildren cfg _ _ _ _ _ h1))))
    | (with_reducible exact bt_runStageOpt _ _ _ _ _ (fun st2 h2 => bt_seedFiles cfg st2 h2) (bt_runStageOpt _ _ _ _ _ (fun st2 h2 => bt_seedActivities cfg _ st2 h2) (bt_runStageOpt _ _ _ _ _ (fun st2 h2 => bt_seedActivities cfg _ st2 h2) (bt_runGrandchildren cfg _ _ _ _ (bt_runChildren cfg _ _ _ _ _ h1)))))

/-- C7: along the trace of any run, every bulk create, update or upsert
    event carries at most BATCH_SIZE (200) records, and every chunk handed
    to a per-chunk SOQL builder (hence every IN-clause) carries at most
    QUERY_CHUNK_SIZE (200) values. -/
theorem c7_batch_and_chunk_bounds (cfg : SeedConfig) :
    ∀ e ∈ (runSeeder cfg).2.trace,
      writeEvSize e ≤ BATCH_SIZE ∧ chunkEvSize e ≤ QUERY_CHUNK_SIZE :=
  bt_runSeeder cfg

/-- Witness: the source describe of the minimal plan sits on its trace and
    satisfies both bounds. -/
theorem c7_batch_and_chunk_bounds_witness :
    Ev.describe true "Widget__c" ∈ (runSeeder c10Cfg).2.trace ∧
    writeEvSize (Ev.describe true "Widget__c") ≤ BATCH_SIZE ∧
    chunkEvSize (Ev.describe true "Widget__c") ≤ QUERY_CHUNK_SIZE :=
  ⟨by decide, c7_batch_and_chunk_bounds c10Cfg
    (Ev.describe true "Widget__c") (by decide)⟩
